import Mathlib

/-!
# TestDataGen: CSV generation engines

A shallow embedding of the two CSV engines of the repository:

* the format-based engine `src/csv-generator.js` (class `CSVGenerator` with
  `validateColumnConfig`, `validateConfig`, `generateRow`, `formatRowAsCSV`,
  `generateCSVSync`), namespace `FormatEngine`;
* the column-based engine `src/csv-generator/js/csv-generator.js` (class
  `CSVGenerator` with `validateColumns`, `generateData`, `generateID`,
  `formatAsCSV`, `escapeCSVValue`), namespace `ColumnEngine`.

Modelling conventions.

* A JavaScript string is a `List Char` (`Str`).  Only `String.prototype.length`
  depends on the UTF-16 encoding; it is `utf16Length`.
* JavaScript numbers that the callers obtain through `parseInt` (row counts,
  lengths, bounds, identifier parameters) are `Int`.
* `Math.random()` is a stream of rational draws, threaded explicitly.  The
  catalogues of random generators (`CSVFormats.generateByFormat`, and the
  cases of `generateCellValue` other than `id`) are parameters of the row
  assembly: what is proved about rows, records and lines holds for every
  catalogue.
* A `for (let i = 0; i < n; i++)` loop is a structural recursion on the number
  of iterations left.
-/

namespace TestDataGen

/-- JavaScript string: a sequence of characters. -/
abbrev Str := List Char

/-- Scalar JavaScript values that occur in column descriptions and in
generated cells. `list` is an array of strings (enumeration values). -/
inductive Value where
  | undefined
  | null
  | bool (b : Bool)
  | num (n : Int)
  | str (s : Str)
  | list (xs : List Str)
  deriving DecidableEq, Repr

/-- Decimal rendering of an integer, `Number.prototype.toString()` on an
integer value. -/
def intToStr (n : Int) : Str :=
  match n with
  | Int.ofNat k => Nat.toDigits 10 k
  | Int.negSucc k => '-' :: Nat.toDigits 10 (k + 1)

/-- Model of `Array.prototype.join(sep)` on an array of strings. -/
def joinWith (sep : Str) : List Str → Str
  | [] => []
  | [x] => x
  | x :: y :: rest => x ++ sep ++ joinWith sep (y :: rest)

/-- Model of `String(value)`. -/
def Value.toStr : Value → Str
  | .undefined => "undefined".toList
  | .null => "null".toList
  | .bool true => "true".toList
  | .bool false => "false".toList
  | .num n => intToStr n
  | .str s => s
  | .list xs => joinWith [','] xs

/-- Truthiness of a value (`!!value`); an array is always truthy. -/
def Value.truthy : Value → Bool
  | .undefined => false
  | .null => false
  | .bool b => b
  | .num n => n != 0
  | .str s => s != []
  | .list _ => true

/-- Model of `typeof value === 'string'`. -/
def Value.isString : Value → Bool
  | .str _ => true
  | _ => false

/-- Model of `String.prototype.includes(sub)`: `sub` occurs as a contiguous substring. -/
def includes (s sub : Str) : Bool :=
  s.tails.any (fun t => sub.isPrefixOf t)

/-- Model of `str.replace(/"/g, '""')`: every double quote is replaced by two. -/
def replaceQuotes : Str → Str
  | [] => []
  | c :: cs => if c = '"' then '"' :: '"' :: replaceQuotes cs else c :: replaceQuotes cs

/-- Model of `String.prototype.length`: number of UTF-16 code units. -/
def utf16Length (s : Str) : Nat :=
  (s.map (fun c => if c.val.toNat < 65536 then 1 else 2)).sum

/-- Model of `Math.random()` as an explicit stream of draws. -/
abbrev RandomStream := Nat → ℚ

/-- The stream after its first draw has been consumed. -/
def RandomStream.tail (r : RandomStream) : RandomStream := fun n => r (n + 1)

/-- Model of `String.prototype.padStart(targetLength, '0')` on a string of one-unit
characters (digits and the minus sign). -/
def padStartZero (s : Str) (targetLength : Nat) : Str :=
  List.replicate (targetLength - s.length) '0' ++ s

/-- ECMAScript `WhiteSpace` and `LineTerminator` code points, the characters
removed by `String.prototype.trim()`. -/
def isJSWhitespace (c : Char) : Bool :=
  let n := c.val.toNat
  n = 0x09 || n = 0x0A || n = 0x0B || n = 0x0C || n = 0x0D || n = 0x20 ||
  n = 0xA0 || n = 0x1680 || (0x2000 ≤ n && n ≤ 0x200A) || n = 0x2028 ||
  n = 0x2029 || n = 0x202F || n = 0x205F || n = 0x3000 || n = 0xFEFF

/-- Model of `s.trim() === ''`. -/
def trimIsEmpty (s : Str) : Bool := s.all isJSWhitespace

/-- Model of `Math.floor(x)` on a rational. -/
def mathFloor (x : ℚ) : Int := ⌊x⌋

/-- Model of `Math.round(x)` on a rational: the nearest integer, ties toward
positive infinity. -/
def mathRound (x : ℚ) : Int := ⌊x + 1 / 2⌋

/-- Model of `x | 0` on a rational within the 32-bit range: truncation toward
zero. -/
def truncToInt (x : ℚ) : Int := if 0 ≤ x then ⌊x⌋ else ⌈x⌉

/-- Rounding of a rational to the nearest integer, ties to the even one. -/
def roundHalfEven (q : ℚ) : Int :=
  let f : Int := ⌊q⌋
  if q - (f : ℚ) < 1 / 2 then f
  else if 1 / 2 < q - (f : ℚ) then f + 1
  else if f % 2 = 0 then f else f + 1

/-- The exponent of the unit in the last place of the binary64 double nearest
to `q`: 53 significant bits, and `2 ^ (-1074)` in the subnormal range. -/
def doubleScale (q : ℚ) : Int := max (Int.log 2 |q| - 52) (-1074)

/-- The binary64 double that an arithmetic operator of the source (`/`, `*`)
returns when its exact result is `q`: round to nearest, ties to even.  Results
of magnitude `2 ^ 1024` and above, which overflow, are outside the model. -/
def toDouble (q : ℚ) : ℚ :=
  if q = 0 then 0
  else (roundHalfEven (q / (2 : ℚ) ^ doubleScale q) : ℚ) * (2 : ℚ) ^ doubleScale q

/-- Model of `s.charAt(i)`: the character at position `i`, the empty string
when `i` is out of range. -/
def charAt (s : Str) (i : Int) : Str :=
  if i < 0 then []
  else
    match s.get? i.toNat with
    | some c => [c]
    | none => []

/-- Hexadecimal rendering of an integer, `Number.prototype.toString(16)`. -/
def intToHex (n : Int) : Str :=
  match n with
  | Int.ofNat k => Nat.toDigits 16 k
  | Int.negSucc k => '-' :: Nat.toDigits 16 (k + 1)

/-- The template string of `generateUUID`. -/
def uuidTemplate : Str := "xxxxxxxx-xxxx-4xxx-yxxx-xxxxxxxxxxxx".toList

/-- The replacement callback of `generateUUID` for a matched character `c`
and one draw: `r = Math.random() * 16 | 0`, `v = c == 'x' ? r : (r & 0x3 |
0x8)`, `v.toString(16)`. -/
def uuidReplacement (c : Char) (draw : ℚ) : Str :=
  let r := truncToInt (draw * 16)
  let v := if c = 'x' then r else Int.lor (Int.land r 3) 8
  intToHex v

/-- Model of `template.replace(/[xy]/g, callback)`: every `x` and every `y`
is replaced by the callback's string, one draw each, left to right. -/
def replaceXY : Str → RandomStream → Str × RandomStream
  | [], rand => ([], rand)
  | c :: cs, rand =>
    if c = 'x' ∨ c = 'y' then
      let rest := replaceXY cs rand.tail
      (uuidReplacement c (rand 0) ++ rest.1, rest.2)
    else
      let rest := replaceXY cs rand
      (c :: rest.1, rest.2)

/-- Model of `generateUUID()`, the same function in `src/csv-formats.js` and in
`src/csv-generator/js/csv-generator.js`. -/
def generateUUID (rand : RandomStream) : Str × RandomStream :=
  replaceXY uuidTemplate rand

/-- The character loop of the `generateText` method of both engines,
`remaining` iterations left: `result += pool.charAt(Math.floor(Math.random()
* pool.length))`. -/
def generateTextLoop (pool : Str) : Nat → Str → RandomStream → Str × RandomStream
  | 0, result, rand => (result, rand)
  | remaining + 1, result, rand =>
    generateTextLoop pool remaining
      (result ++ charAt pool (mathFloor (rand 0 * (pool.length : ℚ)))) rand.tail

/-- The kinds of character in the layout of a version-4 UUID. -/
inductive UUIDChar where
  | hex
  | dash
  | version
  | variant
  deriving DecidableEq, Repr

/-- The characters admitted at a position of each kind: a lowercase
hexadecimal digit, the separator `-`, the version digit `4`, and one of `8`,
`9`, `a`, `b` for the variant. -/
def UUIDChar.admits : UUIDChar → Char → Bool
  | .hex, c => "0123456789abcdef".toList.contains c
  | .dash, c => c == '-'
  | .version, c => c == '4'
  | .variant, c => "89ab".toList.contains c

/-- The layout that the specification gives to a version-4 UUID: groups of
8, 4, 4, 4 and 12 hexadecimal digits separated by `-`, the third group
starting with the version digit and the fourth with the variant digit. -/
def uuidLayout : List UUIDChar :=
  List.replicate 8 .hex ++ [.dash] ++ List.replicate 4 .hex ++ [.dash] ++
  [.version] ++ List.replicate 3 .hex ++ [.dash] ++
  [.variant] ++ List.replicate 3 .hex ++ [.dash] ++ List.replicate 12 .hex

/-- A string matches a layout: same length, every character admitted at its
position. -/
def matchesLayout : List UUIDChar → Str → Bool
  | [], [] => true
  | k :: ks, c :: cs => k.admits c && matchesLayout ks cs
  | _, _ => false

/-- The string is a version-4 UUID in the layout of the specification. -/
def isUUIDv4 (s : Str) : Bool := matchesLayout uuidLayout s

/-- A template character stands for a layout position: `x` for a hexadecimal
digit, `y` for the variant digit, and the literals `-` and `4` for
themselves. -/
def templateAgrees : List UUIDChar → Str → Bool
  | [], [] => true
  | .hex :: ks, c :: cs => c == 'x' && templateAgrees ks cs
  | .variant :: ks, c :: cs => c == 'y' && templateAgrees ks cs
  | .dash :: ks, c :: cs => c == '-' && templateAgrees ks cs
  | .version :: ks, c :: cs => c == '4' && templateAgrees ks cs
  | _, _ => false

/-! ## An RFC 4180 record parser (reference reader for the serialised lines) -/

/-- States of the record reader: at the start of a field, inside a bare
field, inside a quoted field, and just after a double quote seen inside a
quoted field. -/
inductive ParseState where
  | fieldStart
  | bare
  | quoted
  | quoteSeen
  deriving DecidableEq, Repr

/-- One pass over the characters of a record, RFC 4180 grammar with `delim`
as the field delimiter: `field = escaped / non-escaped`, an escaped field is
enclosed in double quotes and may hold delimiters, CR, LF and doubled quotes,
a non-escaped field holds none of delimiter, quote, CR, LF.  `cur` is the
field being read (reversed), `acc` the fields already read (reversed).  The
result is `none` when the text is not exactly one well-formed record. -/
def parseRecordAux (delim : Char) :
    ParseState → Str → List Str → Str → Option (List Str)
  | .fieldStart, _, acc, [] => some (([] :: acc).reverse)
  | .bare, cur, acc, [] => some ((cur.reverse :: acc).reverse)
  | .quoted, _, _, [] => none
  | .quoteSeen, cur, acc, [] => some ((cur.reverse :: acc).reverse)
  | .fieldStart, cur, acc, c :: rest =>
    if c = '"' then parseRecordAux delim .quoted [] acc rest
    else if c = delim then parseRecordAux delim .fieldStart [] ([] :: acc) rest
    else if c = '\n' ∨ c = '\r' then none
    else parseRecordAux delim .bare (c :: cur) acc rest
  | .bare, cur, acc, c :: rest =>
    if c = '"' then none
    else if c = delim then parseRecordAux delim .fieldStart [] (cur.reverse :: acc) rest
    else if c = '\n' ∨ c = '\r' then none
    else parseRecordAux delim .bare (c :: cur) acc rest
  | .quoted, cur, acc, c :: rest =>
    if c = '"' then parseRecordAux delim .quoteSeen cur acc rest
    else parseRecordAux delim .quoted (c :: cur) acc rest
  | .quoteSeen, cur, acc, c :: rest =>
    if c = '"' then parseRecordAux delim .quoted ('"' :: cur) acc rest
    else if c = delim then parseRecordAux delim .fieldStart [] (cur.reverse :: acc) rest
    else none

/-- RFC 4180 record parser: the list of fields of a single record. -/
def rfc4180ParseRecord (delim : Char) (line : Str) : Option (List Str) :=
  parseRecordAux delim .fieldStart [] [] line

/-! ## The format-based engine, `src/csv-generator.js` -/

namespace FormatEngine

/-- The `config` object of a column description: the keys read by
`validateColumnConfig` and by the generators `generateText`,
`generateNumber` and `generateBoolean`. -/
structure FormatConfig where
  length : Option Int := none
  min : Option Int := none
  max : Option Int := none
  type : Option Str := none
  caseSensitive : Option Bool := none
  decimals : Option Int := none
  format : Option Str := none
  probability : Option ℚ := none
  startDate : Option Str := none
  endDate : Option Str := none
  includeCountryCode : Option Bool := none
  includePostalCode : Option Bool := none
  deriving DecidableEq, Repr

/-- A column description `{ name, format, config }`; a key that is absent is
`undefined` (`none` for `config`). -/
structure Column where
  name : Value := .undefined
  format : Value := .undefined
  config : Option FormatConfig := none
  deriving DecidableEq, Repr

/-- The `columns` property of a generation config: absent (falsy), a truthy
value that is not an array, or an array of column descriptions. -/
inductive Columns where
  | missing
  | nonArray
  | array (cols : List Column)
  deriving DecidableEq, Repr

/-- Generation config `{ rows, columns }`. -/
structure Config where
  rows : Int
  columns : Columns
  deriving DecidableEq, Repr

/-- The violations that `validateColumnConfig` and `validateConfig` push;
`index` is the 0-based position of the column. -/
inductive Violation where
  | rowsOutOfRange
  | columnsMissing
  | noColumns
  | nameEmpty (index : Nat)
  | formatMissing (index : Nat)
  | formatUnsupported (index : Nat) (format : Value)
  | textLength (index : Nat)
  | numberRange (index : Nat)
  deriving DecidableEq, Repr

/-- The message string pushed for each violation. -/
def Violation.message : Violation → Str
  | .rowsOutOfRange => "行数必须在1-1000000之间".toList
  | .columnsMissing => "必须配置列信息".toList
  | .noColumns => "至少需要配置一列".toList
  | .nameEmpty index => "第".toList ++ Nat.toDigits 10 (index + 1) ++ "列：列名不能为空".toList
  | .formatMissing index =>
    "第".toList ++ Nat.toDigits 10 (index + 1) ++ "列：必须指定数据格式".toList
  | .formatUnsupported index format =>
    "第".toList ++ Nat.toDigits 10 (index + 1) ++ "列：不支持的数据格式 \"".toList ++
      format.toStr ++ "\"".toList
  | .textLength index =>
    "第".toList ++ Nat.toDigits 10 (index + 1) ++ "列：文本长度必须在1-10000之间".toList
  | .numberRange index =>
    "第".toList ++ Nat.toDigits 10 (index + 1) ++ "列：数字最小值必须小于最大值".toList

/-- The array `supportedFormats` of `validateColumnConfig`. -/
def supportedFormats : List Str :=
  ["text".toList, "number".toList, "date".toList, "email".toList, "phone".toList,
   "boolean".toList, "name".toList, "address".toList, "company".toList,
   "uuid".toList, "ip".toList, "color".toList]

/-- Model of `supportedFormats.includes(format)`: strict equality with one of the
twelve strings. -/
def isSupportedFormat : Value → Bool
  | .str s => supportedFormats.contains s
  | _ => false

/-- The text-length block of the `forEach` callback of `validateColumnConfig`:
`column.format === 'text' && column.config && column.config.length`, then
`length < 1 || length > 10000`. -/
def textLengthViolations (index : Nat) (column : Column) : List Violation :=
  match column.config with
  | some config =>
    match config.length with
    | some length =>
      if column.format = .str "text".toList ∧ length ≠ 0 ∧ (length < 1 ∨ length > 10000) then
        [Violation.textLength index] else []
    | none => []
  | none => []

/-- The number-range block of the `forEach` callback of
`validateColumnConfig`: `column.format === 'number' && column.config`, then
`min !== undefined && max !== undefined && min >= max`. -/
def numberRangeViolations (index : Nat) (column : Column) : List Violation :=
  match column.config with
  | some config =>
    match config.min, config.max with
    | some min, some max =>
      if column.format = .str "number".toList ∧ min ≥ max then [Violation.numberRange index]
      else []
    | _, _ => []
  | none => []

/-- The body of the `columns.forEach((column, index) => ...)` callback of
`validateColumnConfig`: the violations pushed for one column. -/
def columnViolations (index : Nat) (column : Column) : List Violation :=
  (if !column.name.truthy || !column.name.isString then [Violation.nameEmpty index] else []) ++
  (if !column.format.truthy || !column.format.isString then [Violation.formatMissing index]
   else []) ++
  (if column.format.truthy && !isSupportedFormat column.format then
     [Violation.formatUnsupported index column.format] else []) ++
  textLengthViolations index column ++
  numberRangeViolations index column

/-- The `forEach` loop of `validateColumnConfig`, pushing onto `errors`. -/
def validateColumnsLoop : Nat → List Column → List Violation → List Violation
  | _, [], errors => errors
  | index, column :: rest, errors =>
    validateColumnsLoop (index + 1) rest (errors ++ columnViolations index column)

/-- Model of `validateColumnConfig(columns)`. -/
def validateColumnConfig : Columns → List Violation
  | .array (column :: rest) => validateColumnsLoop 0 (column :: rest) []
  | _ => [Violation.noColumns]

/-- Model of `validateConfig(config)`. -/
def validateConfig (config : Config) : List Violation :=
  (if config.rows = 0 ∨ config.rows < 1 ∨ config.rows > 1000000 then
     [Violation.rowsOutOfRange] else []) ++
  (match config.columns with
   | .missing => [Violation.columnsMissing]
   | columns => validateColumnConfig columns)

/-- A violation about the name of a column. -/
def Violation.isName : Violation → Bool
  | .nameEmpty _ => true
  | _ => false

/-- A violation about the format tag of a column. -/
def Violation.isFormat : Violation → Bool
  | .formatMissing _ => true
  | .formatUnsupported _ _ => true
  | _ => false

/-- The name of the column is missing, empty or not a string. -/
def nameOffending (column : Column) : Bool :=
  match column.name with
  | .str s => s = []
  | _ => true

/-- The format of the column is missing, or is a string outside the twelve
supported formats. -/
def formatOffending (column : Column) : Bool :=
  match column.format with
  | .undefined => true
  | .str s => !supportedFormats.contains s
  | _ => false

/-- The generator catalogue `this.formats.generateByFormat`: the value for a
format tag, the column config and the random stream, with the stream that is
left, or the error that the call throws.  The row assembly is parametric in
it. -/
abbrev FormatGenerator :=
  Value → FormatConfig → RandomStream → Except Str (Value × RandomStream)

/-- Model of `generateRow(columns)`: one value per column, in order, `column.config
|| {}` passed to the generator; an error thrown by a generator call
propagates. -/
def generateRow (gen : FormatGenerator) :
    List Column → RandomStream → Except Str (List Value × RandomStream)
  | [], rand => .ok ([], rand)
  | column :: rest, rand =>
    match gen column.format (column.config.getD {}) rand with
    | .error e => .error e
    | .ok r =>
      match generateRow gen rest r.2 with
      | .error e => .error e
      | .ok rs => .ok (r.1 :: rs.1, rs.2)

/-- The per-cell body of `formatRowAsCSV`. -/
def formatCell (cell : Value) : Str :=
  let cellValue := cell.toStr
  if includes cellValue [','] || includes cellValue ['"'] ||
      includes cellValue ['\n'] || includes cellValue ['\r'] then
    ['"'] ++ replaceQuotes cellValue ++ ['"']
  else
    cellValue

/-- Model of `formatRowAsCSV(row)`: `row.map(cell => ...).join(',')`. -/
def formatRowAsCSV (row : List Value) : Str :=
  joinWith [','] (row.map formatCell)

/-- Model of `generateCSVHeader(columns)`. -/
def generateCSVHeader (columns : List Column) : Str :=
  formatRowAsCSV (columns.map (fun column => column.name))

/-- The record stored in `currentData` and returned by the generation
methods. -/
structure Result where
  content : Str
  config : Config
  duration : Int
  rows : Int
  columns : Nat
  size : Nat
  deriving DecidableEq, Repr

/-- The instance fields of `CSVGenerator`. -/
structure Generator where
  isGenerating : Bool := false
  shouldStop : Bool := false
  lastConfig : Option Config := none
  currentData : Option Result := none
  deriving DecidableEq, Repr

/-- The data loop of `generateCSVSync`, `remaining` iterations left:
`csvLines.push(this.formatRowAsCSV(this.generateRow(config.columns)))`; an
error thrown by `generateRow` leaves the loop. -/
def generateLines (gen : FormatGenerator) (columns : List Column) :
    Nat → List Str → RandomStream → Except Str (List Str × RandomStream)
  | 0, csvLines, rand => .ok (csvLines, rand)
  | remaining + 1, csvLines, rand =>
    match generateRow gen columns rand with
    | .error e => .error e
    | .ok row => generateLines gen columns remaining (csvLines ++ [formatRowAsCSV row.1]) row.2

/-- Model of `generateCSVSync(config)`: the thrown error message (of the
validation, or of a generator call, which no statement catches), or the
result together with the updated instance and the random stream left.
`startTime` and `endTime` are the two readings of `performance.now()`. -/
def generateCSVSync (gen : FormatGenerator) (self : Generator) (config : Config)
    (rand : RandomStream) (startTime endTime : Int) :
    Except Str (Result × Generator × RandomStream) :=
  let errors := validateConfig config
  if errors.length > 0 then
    .error (joinWith "; ".toList (errors.map Violation.message))
  else
    match config.columns with
    | .array columns =>
      match generateLines gen columns config.rows.toNat [generateCSVHeader columns] rand with
      | .error e => .error e
      | .ok lines =>
        let csvContent := joinWith ['\n'] lines.1
        let currentData : Result :=
          { content := csvContent
            config := config
            duration := endTime - startTime
            rows := config.rows
            columns := columns.length
            size := utf16Length csvContent }
        .ok (currentData, { self with currentData := some currentData }, lines.2)
    | _ => .error "TypeError".toList

/-! ### The generators of `src/csv-formats.js` -/

/-- The pool `characterPools.numbers`. -/
def poolNumbers : Str := "0123456789".toList

/-- The pool `characterPools.lowercase`. -/
def poolLowercase : Str := "abcdefghijklmnopqrstuvwxyz".toList

/-- The pool `characterPools.uppercase`. -/
def poolUppercase : Str := "ABCDEFGHIJKLMNOPQRSTUVWXYZ".toList

/-- The pool `characterPools.chinese`. -/
def poolChinese : Str :=
  "的一是在不了有和人这中大为上个国我以要他时来用们生到作地于出就分对成会可主发年动同工也能下过子说产种面而方后多定行学法所".toList ++
  "民得经十三之进着等部度家电力里如水化高自二理起小物现实加量都两体制机当使点从业本去把性好应开它合还因由其些然前外天政四日".toList ++
  "那社义事平形相全表间样与关各重新线内数正心反你明看原又么利比或但质气第向道命此变条只没结解问意建月公无系军很情者最立代想".toList ++
  "已通并提直题党程展五果料象员革位入常文总次品式活设及管特件长求老头基资边流路级少图山统接知较将组见计别她手角期根论运农指".toList ++
  "几九区强放决西被干做必战先回则任取据处队南给色光门即保治北造百规热领七海口东导器压志世金增争济阶油思术极交受联什认六共权".toList ++
  "收证改清己美再采转更单风切打白教速花带安场身车例真务具万每目至达走积示议声报斗完类八离华名确才科张信马节话米整空元况今集".toList ++
  "温传土许步群广石记需段研界拉林律叫且究观越织装影算低持音众书布复容儿须际商非验连断深难近矿千周委素技备半办青省列习响约支".toList ++
  "般史感劳便团往酸历市克何除消构府称太准精值号率族维划选标写存候毛亲快效斯院查江型眼王按格养易置派层片始却专状育厂京识适属".toList ++
  "圆包火住调满县局照参红细引听该铁价严首底液官德随病苏失尔死讲配女黄推显谈罪神艺呢席含企望密批营项防举球英氧势告李台落木帮".toList ++
  "轮破亚师围注远字材排供河态封另施减树溶怎止案言士均武固叶鱼波视仅费紧爱左章早朝害续轻服试食充兵源判护司足某练差致板田降黑".toList ++
  "犯负击范继兴似余坚曲输修故城夫够送笔船占右财吃富春职觉汉画功巴跟虽杂飞检吸助升阳互初创抗考投坏策古径换未跑留钢曾端责站简".toList ++
  "述钱副尽帝射草冲承独令限阿宣环双请超微让控州良轴找否纪益依优顶础载倒房突坐粉敌略客袁冷胜绝析块剂测丝协重诉念陈仍罗盐友洋".toList ++
  "错苦夜刑移频逐靠混母短皮终聚汽村云哪既距卫停烈央察烧行迅境若印洲刻括激孔搞甚室待核校散侵吧甲游久菜味旧模湖货损预阻毫普稳".toList ++
  "乙妈植息扩银语挥酒守拿序纸医缺雨吗针刘啊急唱误训愿审附获茶鲜粮斤孩脱硫肥善龙演父渐血欢械掌歌沙著刀隐忍病井支适候集".toList

/-- The `switch (type)` of `generateText` that selects the pool; `type`
defaults to `'mixed'` and `caseSensitive` to `true`. -/
def textPool (config : FormatConfig) : Str :=
  let type := config.type.getD "mixed".toList
  let caseSensitive := config.caseSensitive.getD true
  if type = "numbers".toList then poolNumbers
  else if type = "english".toList then
    (if caseSensitive then poolLowercase ++ poolUppercase else poolLowercase)
  else if type = "chinese".toList then poolChinese
  else poolNumbers ++ poolLowercase ++ poolUppercase

/-- Model of `CSVFormats.generateText(config)`; `length` defaults to 10. -/
def generateText (config : FormatConfig) (rand : RandomStream) : Value × RandomStream :=
  let length := config.length.getD 10
  let r := generateTextLoop (textPool config) length.toNat [] rand
  (.str r.1, r.2)

/-- The pool that the specification selects for a text type: digits for
`numbers`, letters for `english` (lowercase letters only when
`caseSensitive` is `false`), the Chinese pool for `chinese`, digits and
letters for `mixed`. -/
def selectedPool (type : Str) (caseSensitive : Option Bool) : Str :=
  if type = "numbers".toList then "0123456789".toList
  else if type = "english".toList then
    (if caseSensitive = some false then "abcdefghijklmnopqrstuvwxyz".toList
     else "abcdefghijklmnopqrstuvwxyzABCDEFGHIJKLMNOPQRSTUVWXYZ".toList)
  else if type = "chinese".toList then poolChinese
  else "0123456789abcdefghijklmnopqrstuvwxyzABCDEFGHIJKLMNOPQRSTUVWXYZ".toList

/-- The number `parseFloat(x.toFixed(digits))` for a double `x`: `x` rounded to
`digits` fraction digits, ties away from zero, read back as the nearest
double; `toFixed` throws a `RangeError` when `digits` is outside `[0, 100]`.
Magnitudes of `1e21` and above, which `toFixed` prints in exponent form, are
outside the model. -/
def toFixedValue (x : ℚ) (digits : Int) : Except Str ℚ :=
  if digits < 0 ∨ digits > 100 then .error "RangeError".toList
  else
    let scale : ℚ := 10 ^ digits.toNat
    .ok (toDouble (if 0 ≤ x then (⌊x * scale + 1 / 2⌋ : ℚ) / scale
                   else -((⌊-x * scale + 1 / 2⌋ : ℚ) / scale)))

/-- Model of `CSVFormats.generateNumber(config)`: `type` defaults to
`'integer'`, `min` to 0, `max` to 1000, `decimals` to 2.  The result is a
number or the thrown error.  Every arithmetic operator returns the double
nearest to its exact result (`toDouble`); `Math.floor` is exact.  The bounds
`min` and `max` are integers that are doubles. -/
def generateNumber (config : FormatConfig) (rand : RandomStream) :
    Except Str ℚ × RandomStream :=
  let type := config.type.getD "integer".toList
  let min := config.min.getD 0
  let max := config.max.getD 1000
  let decimals := config.decimals.getD 2
  if type = "float".toList then
    (toFixedValue (toDouble (toDouble (rand 0 * toDouble ((max : ℚ) - min)) + min)) decimals,
     rand.tail)
  else if type = "currency".toList then
    (toFixedValue (toDouble (toDouble (rand 0 * toDouble ((max : ℚ) - min)) + min)) 2,
     rand.tail)
  else
    (.ok (toDouble
      ((mathFloor (toDouble (rand 0 * toDouble (toDouble ((max : ℚ) - min) + 1))) : ℚ) + min)),
     rand.tail)

/-- Model of `CSVFormats.generateBoolean(config)`: `format` defaults to
`'boolean'`, `probability` to 0.5. -/
def generateBoolean (config : FormatConfig) (rand : RandomStream) : Value × RandomStream :=
  let format := config.format.getD "boolean".toList
  let probability := config.probability.getD (1 / 2)
  let isTrue : Bool := decide (rand 0 < probability)
  (if format = "yesno".toList then .str (if isTrue then "Yes".toList else "No".toList)
   else if format = "truefalse".toList then
     .str (if isTrue then "True".toList else "False".toList)
   else if format = "10".toList then .str (if isTrue then "1".toList else "0".toList)
   else .bool isTrue,
   rand.tail)

/-- The rendering of `true` that the specification lists for each boolean
format. -/
def trueRendering (format : Str) : Value :=
  if format = "yesno".toList then .str "Yes".toList
  else if format = "truefalse".toList then .str "True".toList
  else if format = "10".toList then .str "1".toList
  else .bool true

/-- The rendering of `false` that the specification lists for each boolean
format. -/
def falseRendering (format : Str) : Value :=
  if format = "yesno".toList then .str "No".toList
  else if format = "truefalse".toList then .str "False".toList
  else if format = "10".toList then .str "0".toList
  else .bool false

/-- The branches of the `switch (formatType)` of `generateByFormat`: one per
case label, and the `default` branch. -/
inductive FormatCase where
  | text | number | date | email | phone | boolean | name | address | company
  | uuid | ip | color | defaultCase
  deriving DecidableEq, Repr

/-- The branch that `switch (formatType)` selects: strict equality of the tag
with a case label. -/
def formatCase : Value → FormatCase
  | .str s =>
    if s = "text".toList then .text
    else if s = "number".toList then .number
    else if s = "date".toList then .date
    else if s = "email".toList then .email
    else if s = "phone".toList then .phone
    else if s = "boolean".toList then .boolean
    else if s = "name".toList then .name
    else if s = "address".toList then .address
    else if s = "company".toList then .company
    else if s = "uuid".toList then .uuid
    else if s = "ip".toList then .ip
    else if s = "color".toList then .color
    else .defaultCase
  | _ => .defaultCase

/-- The outcome of a call of a generator method of `CSVFormats`: the value with
the random stream left, or the thrown error. -/
abbrev Generated := Except Str (Value × RandomStream)

/-- The generator methods of `CSVFormats` that `generateByFormat` calls, one
per case label. -/
structure Generators where
  generateText : FormatConfig → RandomStream → Generated
  generateNumber : FormatConfig → RandomStream → Generated
  generateDate : FormatConfig → RandomStream → Generated
  generateEmail : FormatConfig → RandomStream → Generated
  generatePhone : FormatConfig → RandomStream → Generated
  generateBoolean : FormatConfig → RandomStream → Generated
  generateName : FormatConfig → RandomStream → Generated
  generateAddress : FormatConfig → RandomStream → Generated
  generateCompany : FormatConfig → RandomStream → Generated
  generateUUID : RandomStream → Generated
  generateIP : FormatConfig → RandomStream → Generated
  generateColor : FormatConfig → RandomStream → Generated

/-- The `switch` of `generateByFormat` with the body of its `default` branch
as the parameter `fallback`. -/
def generateByFormatWith (g : Generators)
    (fallback : FormatConfig → RandomStream → Generated) : FormatGenerator :=
  fun formatType config rand =>
    match formatCase formatType with
    | .text => g.generateText config rand
    | .number => g.generateNumber config rand
    | .date => g.generateDate config rand
    | .email => g.generateEmail config rand
    | .phone => g.generatePhone config rand
    | .boolean => g.generateBoolean config rand
    | .name => g.generateName config rand
    | .address => g.generateAddress config rand
    | .company => g.generateCompany config rand
    | .uuid => g.generateUUID rand
    | .ip => g.generateIP config rand
    | .color => g.generateColor config rand
    | .defaultCase => fallback config rand

/-- The method `generateNumber` as an entry of the catalogue: the error that
`toFixed` throws, or the number as a cell value.  `render` is the embedding of
the numbers of the engine into the cell values. -/
def numberGenerator (render : ℚ → Value) (config : FormatConfig) (rand : RandomStream) :
    Generated :=
  match generateNumber config rand with
  | (.error e, _) => .error e
  | (.ok q, r) => .ok (render q, r)

/-- Model of `generateByFormat(formatType, config)`: the `default` branch
returns `this.generateText(config)`. -/
def generateByFormat (g : Generators) : FormatGenerator :=
  generateByFormatWith g g.generateText

/-! ### Preview and batched generation of `src/csv-generator.js` -/

/-- The object returned by `generatePreview`. -/
structure Preview where
  preview : List Str
  config : Config
  estimatedSize : Str
  estimatedTime : Str
  deriving DecidableEq, Repr

/-- Model of `generatePreview(config, previewRows)`: the thrown error message (of
the validation, or of a generator call), or the preview with the random
stream left, and the instance afterwards (no statement of the method assigns
a field of `this`).  The texts
`estimateFileSize(config)` and `estimateGenerationTime(...)` are floating
point formatting of the config; they are given by `estimate`. -/
def generatePreview (gen : FormatGenerator) (estimate : Config → Str × Str)
    (self : Generator) (config : Config) (previewRows : Int) (rand : RandomStream) :
    Except Str (Preview × RandomStream) × Generator :=
  let errors := validateConfig config
  if errors.length > 0 then
    (.error (joinWith "; ".toList (errors.map Violation.message)), self)
  else
    match config.columns with
    | .array columns =>
      let actualPreviewRows := min config.rows previewRows
      match generateLines gen columns actualPreviewRows.toNat
          [generateCSVHeader columns] rand with
      | .error e => (.error e, self)
      | .ok lines =>
        (.ok ({ preview := lines.1
                config := config
                estimatedSize := (estimate config).1
                estimatedTime := (estimate config).2 }, lines.2), self)
    | _ => (.error "TypeError".toList, self)

/-- Model of `stopGeneration()`. -/
def stopGeneration (self : Generator) : Generator :=
  { self with shouldStop := true }

/-- The batch size of `generateCSVAsync`:
`Math.min(1000, Math.max(100, Math.floor(config.rows / 100)))`. -/
def batchSize (rows : Int) : Int := min 1000 (max 100 (rows / 100))

/-- The number of batches `ceil(n / batchSize)` of the specification. -/
def numBatches (rows size : Int) : Int := ⌈(rows : ℚ) / (size : ℚ)⌉

/-- One call `progressCallback(progress, processed, config.rows)`. -/
structure ProgressEvent where
  percent : Int
  processed : Int
  total : Int
  deriving DecidableEq, Repr

/-- The `k`-th progress report of the specification for `rows` records in
batches of `size`: `processed = min(k * size, rows)`, `total = rows`,
`percent = round(100 * processed / rows)`. -/
def specProgressEvent (rows size : Int) (k : Nat) : ProgressEvent :=
  { percent := mathRound (100 * ((min ((k : Int) * size) rows : Int) : ℚ) / (rows : ℚ))
    processed := min ((k : Int) * size) rows
    total := rows }

/-- The percentage `Math.round((processed / config.rows) * 100)` of
`processBatch`: the quotient and the product are each rounded to a double,
`processed` and `config.rows` being integers below `2 ^ 53`. -/
def progressPercent (processed rows : Int) : Int :=
  mathRound (toDouble (toDouble ((processed : ℚ) / (rows : ℚ)) * 100))

/-- The variables of one run of `generateCSVAsync`, shared by the calls of its
closure `processBatch`; `progress` lists the calls of the progress callback
so far. -/
structure AsyncRun where
  config : Config
  columns : List Column
  startTime : Int
  csvLines : List Str
  batchSize : Int
  processed : Int
  rand : RandomStream
  progress : List ProgressEvent

/-- The state in which a call of `processBatch` leaves the promise returned by
`generateCSVAsync`: `pending` with the next call scheduled, resolved,
rejected, or `uncaught`: a generator call threw inside the timer callback,
nothing catches the error, no further call is scheduled and the promise is
never settled. -/
inductive Settled where
  | pending
  | resolved (result : Result)
  | rejected (message : Str)
  | uncaught (message : Str)
  deriving DecidableEq, Repr

/-- One call of the closure `processBatch`: the instance and the run
afterwards, and the state of the promise (`pending` when the next call has
been scheduled with `setTimeout`).  `hasCallback` tells whether a progress
callback was passed, `endTime` is the reading of `performance.now()` at
completion.  When a generator call throws, no field of the instance is
assigned (`isGenerating` stays true); the variables of the run, which no
later code reads, are given as they were before the call. -/
def processBatch (gen : FormatGenerator) (hasCallback : Bool) (endTime : Int)
    (self : Generator) (run : AsyncRun) : Generator × AsyncRun × Settled :=
  if self.shouldStop then
    ({ self with isGenerating := false }, run, .rejected "生成已取消".toList)
  else
    let currentBatchSize := min run.batchSize (run.config.rows - run.processed)
    match generateLines gen run.columns currentBatchSize.toNat run.csvLines run.rand with
    | .error e => (self, run, .uncaught e)
    | .ok lines =>
      let processed : Int := run.processed + (currentBatchSize.toNat : Int)
      let progress := progressPercent processed run.config.rows
      let events :=
        if hasCallback then
          run.progress ++ [{ percent := progress, processed := processed,
                             total := run.config.rows }]
        else run.progress
      let run2 : AsyncRun :=
        { run with csvLines := lines.1, rand := lines.2, processed := processed,
                   progress := events }
      if processed ≥ run.config.rows then
        let csvContent := joinWith ['\n'] lines.1
        let currentData : Result :=
          { content := csvContent
            config := run.config
            duration := endTime - run.startTime
            rows := run.config.rows
            columns := run.columns.length
            size := utf16Length csvContent }
        ({ self with isGenerating := false, lastConfig := some run.config,
                     currentData := some currentData }, run2, .resolved currentData)
      else
        (self, run2, .pending)

/-- The synchronous part of `generateCSVAsync(config, progressCallback)`, the
body of the promise executor up to the first `setTimeout(processBatch, 0)`:
the rejection message when validation fails, or the instance with
`isGenerating = true` and `shouldStop = false` and the variables of the new
run.  Nothing in it reads `isGenerating`. -/
def startCSVAsync (self : Generator) (config : Config) (rand : RandomStream)
    (startTime : Int) : Except Str (Generator × AsyncRun) :=
  let errors := validateConfig config
  if errors.length > 0 then
    .error (joinWith "; ".toList (errors.map Violation.message))
  else
    match config.columns with
    | .array columns =>
      .ok ({ self with isGenerating := true, shouldStop := false },
           { config := config
             columns := columns
             startTime := startTime
             csvLines := [generateCSVHeader columns]
             batchSize := batchSize config.rows
             processed := 0
             rand := rand
             progress := [] })
    | _ => .error "TypeError".toList

/-- The scheduled calls of `processBatch`, `fuel` calls at most, the next one
being the call of index `k`.  Between two calls the host may run other
tasks: `stops k` tells whether `stopGeneration()` is called before the call
of index `k`. -/
def runBatches (gen : FormatGenerator) (hasCallback : Bool) (endTime : Int)
    (stops : Nat → Bool) : Nat → Nat → Generator → AsyncRun → Generator × AsyncRun × Settled
  | 0, _, self, run => (self, run, .pending)
  | fuel + 1, k, self, run =>
    let self1 := if stops k then stopGeneration self else self
    match processBatch gen hasCallback endTime self1 run with
    | (self2, run2, .pending) => runBatches gen hasCallback endTime stops fuel (k + 1) self2 run2
    | settled => settled

/-- Model of `generateCSVAsync(config, progressCallback)` followed to the
settlement of its promise, or to the call of `processBatch` that throws: the
instance afterwards, the variables of the run when one was started, and the
state of the promise.  Every call of
`processBatch` before the last one generates at least one record, so
`config.rows` calls are enough. -/
def generateCSVAsync (gen : FormatGenerator) (hasCallback : Bool) (self : Generator)
    (config : Config) (rand : RandomStream) (startTime endTime : Int) (stops : Nat → Bool) :
    Generator × Option AsyncRun × Settled :=
  match startCSVAsync self config rand startTime with
  | .error message => (self, none, .rejected message)
  | .ok (self1, run) =>
    let r := runBatches gen hasCallback endTime stops config.rows.toNat 0 self1 run
    (r.1, some r.2.1, r.2.2)

end FormatEngine

/-! ## The column-based engine, `src/csv-generator/js/csv-generator.js` -/

namespace ColumnEngine

/-- A column description of the column-based engine: `name`, `type` and the
type-specific keys, all on one object.  An absent key is `undefined` (`none`
for the typed keys).  The fields `idPrefix` and `idSuffix` are the keys
`prefix` and `suffix` of the source. -/
structure Column where
  name : Value := .undefined
  type : Value := .undefined
  length : Option Int := none
  min : Option Int := none
  max : Option Int := none
  values : Option (List Str) := none
  start : Option Int := none
  step : Option Int := none
  idPrefix : Option Str := none
  idSuffix : Option Str := none
  padding : Option Int := none
  charset : Option Str := none
  format : Option Str := none
  trueValue : Option Str := none
  falseValue : Option Str := none
  probability : Option ℚ := none
  nameType : Option Str := none
  decimals : Option Int := none
  pattern : Option Str := none
  deriving DecidableEq, Repr

/-- The own keys of `this.dataTypes`. -/
def dataTypeKeys : List Str :=
  ["text".toList, "number".toList, "integer".toList, "decimal".toList, "boolean".toList,
   "date".toList, "datetime".toList, "time".toList, "email".toList, "phone".toList,
   "name".toList, "address".toList, "company".toList, "url".toList, "ip".toList,
   "uuid".toList, "id".toList, "enum".toList, "json".toList]

/-- The keys that every object literal inherits from `Object.prototype`; a
lookup of one of them in `this.dataTypes` yields a truthy value. -/
def objectPrototypeKeys : List Str :=
  ["constructor".toList, "hasOwnProperty".toList, "isPrototypeOf".toList,
   "propertyIsEnumerable".toList, "toLocaleString".toList, "toString".toList,
   "valueOf".toList, "__defineGetter__".toList, "__defineSetter__".toList,
   "__lookupGetter__".toList, "__lookupSetter__".toList, "__proto__".toList]

/-- Truthiness of `this.dataTypes[type]`: the property key is `String(type)`. -/
def dataTypesHas (type : Value) : Bool :=
  dataTypeKeys.contains type.toStr || objectPrototypeKeys.contains type.toStr

/-- The violations pushed by `validateColumns`. -/
inductive Violation where
  | noColumns
  | nameEmpty (index : Nat)
  | typeInvalid (index : Nat)
  | textLength (index : Nat)
  | numberRange (index : Nat)
  | enumValues (index : Nat)
  deriving DecidableEq, Repr

/-- The message string pushed for each violation. -/
def Violation.message : Violation → Str
  | .noColumns => "至少需要配置一列数据".toList
  | .nameEmpty index => "第".toList ++ Nat.toDigits 10 (index + 1) ++ "列：列名不能为空".toList
  | .typeInvalid index => "第".toList ++ Nat.toDigits 10 (index + 1) ++ "列：数据类型无效".toList
  | .textLength index =>
    "第".toList ++ Nat.toDigits 10 (index + 1) ++ "列：文本长度必须在1-1000之间".toList
  | .numberRange index =>
    "第".toList ++ Nat.toDigits 10 (index + 1) ++ "列：最小值不能大于最大值".toList
  | .enumValues index =>
    "第".toList ++ Nat.toDigits 10 (index + 1) ++ "列：枚举类型必须定义可选值".toList

/-- The test `!col.name || col.name.trim() === ''`; calling `trim` on a
truthy value that is not a string throws a `TypeError`. -/
def nameIsBlank : Value → Except Str Bool
  | .str s => .ok (trimIsEmpty s)
  | .undefined => .ok true
  | .null => .ok true
  | .bool false => .ok true
  | .num 0 => .ok true
  | _ => .error "TypeError: col.name.trim is not a function".toList

/-- The part of the `forEach` callback of `validateColumns` after the name
test: type, text length, number range and enumeration values. -/
def columnViolations (index : Nat) (col : Column) : List Violation :=
  (if !col.type.truthy || !dataTypesHas col.type then [Violation.typeInvalid index] else []) ++
  (match col.length with
   | some length =>
     if col.type = .str "text".toList ∧ length ≠ 0 ∧ (length < 1 ∨ length > 1000) then
       [Violation.textLength index] else []
   | none => []) ++
  (match col.min, col.max with
   | some min, some max =>
     if col.type = .str "number".toList ∧ min > max then [Violation.numberRange index] else []
   | _, _ => []) ++
  (if col.type = .str "enum".toList ∧ (col.values = none ∨ col.values = some []) then
     [Violation.enumValues index] else [])

/-- The `forEach` loop of `validateColumns`, pushing onto `errors`. -/
def validateColumnsLoop : Nat → List Column → List Violation → Except Str (List Violation)
  | _, [], errors => .ok errors
  | index, col :: rest, errors =>
    match nameIsBlank col.name with
    | .error e => .error e
    | .ok blank =>
      validateColumnsLoop (index + 1) rest
        (errors ++ (if blank then [Violation.nameEmpty index] else []) ++
          columnViolations index col)

/-- Model of `validateColumns(columns)` on the array `this.columns`. -/
def validateColumns : List Column → Except Str (List Violation)
  | [] => .ok [Violation.noColumns]
  | col :: rest => validateColumnsLoop 0 (col :: rest) []

/-- Model of `generateID(config, rowIndex)`.  The product and the sum are
computed on integers: the model covers the values of `start`, `step` and
`rowIndex` for which `rowIndex * step` and `start + rowIndex * step` stay
below `2 ^ 53` in magnitude, where the double arithmetic of the source is
exact. -/
def generateID (config : Column) (rowIndex : Int) : Str :=
  let start := match config.start with
    | some n => if n = 0 then 1 else n
    | none => 1
  let step := match config.step with
    | some n => if n = 0 then 1 else n
    | none => 1
  let idPrefix := config.idPrefix.getD []
  let idSuffix := config.idSuffix.getD []
  let padding := config.padding.getD 0
  let id := start + rowIndex * step
  let paddedId := if padding > 0 then padStartZero (intToStr id) padding.toNat else intToStr id
  idPrefix ++ paddedId ++ idSuffix

/-- The type tags of `generateCellValue` whose case calls a generator that
draws from `Math.random()` or reads the clock. -/
def randomTypes : List Str :=
  ["text".toList, "number".toList, "integer".toList, "decimal".toList, "boolean".toList,
   "date".toList, "datetime".toList, "time".toList, "email".toList, "phone".toList,
   "name".toList, "address".toList, "company".toList, "url".toList, "ip".toList,
   "uuid".toList, "enum".toList, "json".toList]

/-- The generators `generateText`, ..., `generateJSON` selected by the type
tag: a value computed from the tag, the column and the random stream, with
the stream that is left, or the error that the call throws (`toFixed` with
`decimals` above 100 in `generateNumber` and `generateDecimal`, the call of
the undefined `this.generateByPattern` in `generatePhone`).  The record
assembly is parametric in them. -/
abbrev CellGenerator := Str → Column → RandomStream → Except Str (Value × RandomStream)

/-- Model of `generateCellValue(column, rowIndex)`: the `switch` on `type`, strict
equality with the case labels, `default: return ''`. -/
def generateCellValue (gen : CellGenerator) (column : Column) (rowIndex : Int)
    (rand : RandomStream) : Except Str (Value × RandomStream) :=
  match column.type with
  | .str type =>
    if type = "id".toList then .ok (.str (generateID column rowIndex), rand)
    else if randomTypes.contains type then gen type column rand
    else .ok (.str [], rand)
  | _ => .ok (.str [], rand)

/-- A record `row`: an object keyed by column name, in insertion order.  The
key `__proto__`, which JavaScript objects treat specially, is not
distinguished from the other keys. -/
abbrev Row := List (Str × Value)

/-- Model of `row[key] = value`. -/
def Row.set : Row → Str → Value → Row
  | [], key, value => [(key, value)]
  | (k, v) :: rest, key, value =>
    if k = key then (k, value) :: rest else (k, v) :: Row.set rest key value

/-- Model of `row[key]`, `undefined` when the key is absent. -/
def Row.get : Row → Str → Value
  | [], _ => .undefined
  | (k, v) :: rest, key => if k = key then v else Row.get rest key

/-- The `this.columns.forEach(col => { row[col.name] = ... })` loop of
`generateData` for the record of index `i`; an error thrown by a generator
leaves the loop. -/
def generateRecord (gen : CellGenerator) (i : Int) :
    List Column → Row → RandomStream → Except Str (Row × RandomStream)
  | [], row, rand => .ok (row, rand)
  | col :: rest, row, rand =>
    match generateCellValue gen col i rand with
    | .error e => .error e
    | .ok cell => generateRecord gen i rest (row.set col.name.toStr cell.1) cell.2

/-- The `for (let i = 0; i < rowCount; i++)` loop of `generateData`, at index
`i` with `remaining` iterations left.  The progress callback and the yield to
the scheduler every 1000 records do not touch `data`. -/
def generateDataLoop (gen : CellGenerator) (columns : List Column) :
    Nat → Int → List Row → RandomStream → Except Str (List Row × RandomStream)
  | 0, _, data, rand => .ok (data, rand)
  | remaining + 1, i, data, rand =>
    match generateRecord gen i columns [] rand with
    | .error e => .error e
    | .ok row => generateDataLoop gen columns remaining (i + 1) (data ++ [row.1]) row.2

/-- Model of `generateData(rowCount, options)`. -/
def generateData (gen : CellGenerator) (columns : List Column) (rowCount : Int)
    (rand : RandomStream) : Except Str (List Row × RandomStream) :=
  generateDataLoop gen columns rowCount.toNat 0 [] rand

/-- Model of `escapeCSVValue(value, separator)`. -/
def escapeCSVValue (value : Value) (separator : Str) : Str :=
  match value with
  | .null => []
  | .undefined => []
  | v =>
    let strValue := v.toStr
    if includes strValue separator || includes strValue ['"'] ||
        includes strValue ['\n'] || includes strValue ['\r'] then
      ['"'] ++ replaceQuotes strValue ++ ['"']
    else
      strValue

/-- The `options` argument of `formatAsCSV`. -/
structure Options where
  separator : Option Str := none
  includeHeader : Option Bool := none
  deriving DecidableEq, Repr

/-- The local `separator` of `formatAsCSV`: `options.separator || ','`. -/
def separatorOf (options : Options) : Str :=
  match options.separator with
  | some s => if s = [] then [','] else s
  | none => [',']

/-- The header text of `formatAsCSV` before its line feed:
`this.columns.map(col => this.escapeCSVValue(col.name, separator)).join(separator)`. -/
def headerLine (columns : List Column) (separator : Str) : Str :=
  joinWith separator (columns.map (fun col => escapeCSVValue col.name separator))

/-- The text of one record in `formatAsCSV` before its line feed:
`this.columns.map(col => this.escapeCSVValue(row[col.name], separator)).join(separator)`. -/
def recordLine (columns : List Column) (separator : Str) (row : Row) : Str :=
  joinWith separator
    (columns.map (fun col => escapeCSVValue (row.get col.name.toStr) separator))

/-- Model of `formatAsCSV(data, options)` on the instance columns `this.columns`. -/
def formatAsCSV (columns : List Column) (data : List Row) (options : Options) : Str :=
  let separator := separatorOf options
  let includeHeader := options.includeHeader != some false
  let csv :=
    if includeHeader ∧ columns.length > 0 then headerLine columns separator ++ ['\n'] else []
  data.foldl (fun csv row => csv ++ recordLine columns separator row ++ ['\n']) csv

/-- The value that the specification assigns to an identifier column in the
record of index `i`: the literal affixes around `start + i * step` in
decimal, left-padded with `0` to `padding` characters. -/
def idValueSpec (start step padding : Int) (idPrefix idSuffix : Str) (i : Int) : Str :=
  idPrefix ++ padStartZero (intToStr (start + i * step)) padding.toNat ++ idSuffix

/-! ### Generators of the column-based engine -/

/-- The `latin` character set of `generateText`. -/
def charsLatin : Str :=
  "abcdefghijklmnopqrstuvwxyzABCDEFGHIJKLMNOPQRSTUVWXYZ01234567".toList ++
  "89".toList

/-- The `chinese` character set of `generateText`. -/
def charsChinese : Str :=
  "的一是在不了有和人这中大为上个国我以要他时来用于生到作地于出就分对成会可主发年动同工也能下过子说产种面而方后多定行学法所".toList ++
  "民得经十三之进着等部度家电力里如水化高自二理起小物现实加量都两体制机当使点从业本去把性好应开它合还因由其些然前外天政四日".toList ++
  "那社义事平形相全表间样与关各重新线内数正心反你明看原又么利比或但质气第向道命此变条只没结解问意建月公无系军很情者最立代想".toList ++
  "已通并提直题党程展五果料象员革位入常文总次品式活设及管特件长求老头基资边流路级少图山统接知较将组见计别她手角期根论运农指".toList ++
  "几九区强放决西被干做必战先回则任取据处队南给色光门即保治北造百规热领七海口东导器压志世金增争济阶油思术极交受联什认六共权".toList ++
  "收证改清己美再采转更单风切打白教速花带安场身车例真务具万每目至达走积示议声报斗完类八离华名确才科张信马节话米整空元况今集".toList ++
  "温传土许步群广石记需段研界拉林律叫且究观越织装影算低持音众书布复容儿须际商非验连断深难近矿千周委素技备半办青省列习响约支".toList ++
  "般史感劳便团往酸历市克何除消构府称太准精值号率族维划选标写存候毛亲快效斯院查江型眼王按格养易置派层片始却专状育厂京识适属".toList ++
  "圆包火住调满县局照参红细引听该铁价严首底液官德调随病苏失尔死讲配女黄推易早".toList

/-- The `mixed` character set of `generateText`, also its `default` case. -/
def charsMixed : Str :=
  "abcdefghijklmnopqrstuvwxyzABCDEFGHIJKLMNOPQRSTUVWXYZ01234567".toList ++
  "89的一是在不了有和人这中大为上个国我以要他".toList

/-- Model of `generateText(config)`: `config.length || 10` characters of the
set selected by `config.charset || 'mixed'`. -/
def generateText (config : Column) (rand : RandomStream) : Str × RandomStream :=
  let length : Int := match config.length with
    | some n => if n = 0 then 10 else n
    | none => 10
  let charset : Str := match config.charset with
    | some c => if c = [] then "mixed".toList else c
    | none => "mixed".toList
  let chars :=
    if charset = "latin".toList then charsLatin
    else if charset = "chinese".toList then charsChinese
    else charsMixed
  generateTextLoop chars length.toNat [] rand

/-- Model of `generateInteger(config)`: `min = config.min || 0`, `max =
config.max || 100`, `Math.floor(Math.random() * (max - min + 1)) + min`. -/
def generateInteger (config : Column) (rand : RandomStream) : Value × RandomStream :=
  let min : Int := match config.min with
    | some n => n
    | none => 0
  let max : Int := match config.max with
    | some n => if n = 0 then 100 else n
    | none => 100
  (.num (mathFloor (rand 0 * ((max : ℚ) - min + 1)) + min), rand.tail)

/-- Model of `generateBoolean(config)`: `value = Math.random() < 0.5`, rendered
per `config.format || 'boolean'` with `config.trueValue || 'true'` and
`config.falseValue || 'false'`. -/
def generateBoolean (config : Column) (rand : RandomStream) : Value × RandomStream :=
  let format : Str := match config.format with
    | some f => if f = [] then "boolean".toList else f
    | none => "boolean".toList
  let trueValue : Str := match config.trueValue with
    | some t => if t = [] then "true".toList else t
    | none => "true".toList
  let falseValue : Str := match config.falseValue with
    | some f => if f = [] then "false".toList else f
    | none => "false".toList
  let value : Bool := decide (rand 0 < 1 / 2)
  (if format = "number".toList then .num (if value then 1 else 0)
   else if format = "text".toList then .str (if value then trueValue else falseValue)
   else .bool value,
   rand.tail)

/-- The rendering of a boolean in the output format of a boolean column:
`1` / `0` for `number`, the configured true and false texts (by default
`true` and `false`) for `text`, the native boolean otherwise. -/
def booleanRendering (config : Column) (b : Bool) : Value :=
  if config.format = some "number".toList then .num (if b then 1 else 0)
  else if config.format = some "text".toList then
    .str (if b then
        (match config.trueValue with
         | some t => if t = [] then "true".toList else t
         | none => "true".toList)
      else
        (match config.falseValue with
         | some f => if f = [] then "false".toList else f
         | none => "false".toList))
  else .bool b

/-- The list `dataSets.names.chinese`. -/
def namesChinese : List Str :=
  ["张三".toList, "李四".toList, "王五".toList, "赵六".toList, "钱七".toList, "孙八".toList,
   "周九".toList, "吴十".toList, "郑十一".toList, "王十二".toList, "冯十三".toList,
   "陈十四".toList, "褚十五".toList, "卫十六".toList, "蒋十七".toList, "沈十八".toList,
   "韩十九".toList, "杨二十".toList]

/-- The list `dataSets.names.english`. -/
def namesEnglish : List Str :=
  ["John".toList, "Jane".toList, "Mike".toList, "Sarah".toList, "David".toList,
   "Lisa".toList, "Tom".toList, "Emma".toList, "James".toList, "Anna".toList,
   "Robert".toList, "Mary".toList, "William".toList, "Jennifer".toList, "Richard".toList,
   "Linda".toList, "Charles".toList, "Barbara".toList]

/-- Model of `generateName(config)` as a function of the value of `config.type`:
`type = config.type || 'chinese'`, `names = this.dataSets.names[type] ||
this.dataSets.names.chinese`, `names[Math.floor(Math.random() *
names.length)]`.  For a key inherited from `Object.prototype` the lookup is
not a list of names and the indexing yields `undefined`. -/
def generateName (configType : Value) (rand : RandomStream) : Value × RandomStream :=
  let type : Str := if configType.truthy then configType.toStr else "chinese".toList
  if objectPrototypeKeys.contains type then (.undefined, rand.tail)
  else
    let names := if type = "english".toList then namesEnglish else namesChinese
    let index := mathFloor (rand 0 * (names.length : ℚ))
    ((if index < 0 then .undefined
      else
        match names.get? index.toNat with
        | some n => .str n
        | none => .undefined), rand.tail)

/-- The cases `text`, `integer`, `boolean`, `uuid` and `name` of
`generateCellValue` with their generators; the other cases are left to
`other`.  The argument of the generators is the rest object of `const {
type, ...config } = column`, in which the key `type` is absent: `generateName`
reads `config.type` as `undefined`. -/
def generateCell (other : CellGenerator) : CellGenerator :=
  fun type column rand =>
    if type = "text".toList then
      let r := generateText column rand
      .ok (.str r.1, r.2)
    else if type = "integer".toList then .ok (generateInteger column rand)
    else if type = "boolean".toList then .ok (generateBoolean column rand)
    else if type = "uuid".toList then
      let r := generateUUID rand
      .ok (.str r.1, r.2)
    else if type = "name".toList then .ok (generateName .undefined rand)
    else other type column rand

/-- Model of `new Blob([content]).size`: the number of bytes of the UTF-8
encoding. -/
def utf8Length (s : Str) : Nat := (s.map Char.utf8Size).sum

/-- Model of `(num / den).toFixed(1)` for a non-negative quotient with a power of
two as denominator: the tenths rounded half up, the integer part, a point and
one digit. -/
def toFixedOne (num den : Nat) : Str :=
  let tenths := (20 * num + den) / (2 * den)
  Nat.toDigits 10 (tenths / 10) ++ ['.'] ++ Nat.toDigits 10 (tenths % 10)

/-- Model of `calculateSize(content)`. -/
def calculateSize (content : Str) : Str :=
  let bytes := utf8Length content
  if bytes < 1024 then Nat.toDigits 10 bytes ++ "B".toList
  else if bytes < 1024 * 1024 then toFixedOne bytes 1024 ++ "KB".toList
  else toFixedOne bytes (1024 * 1024) ++ "MB".toList

/-- The record stored in `generatedData` and returned by `generateCSV`. -/
structure GeneratedData where
  data : List Row
  csvContent : Str
  rowCount : Int
  columnCount : Nat
  duration : Int
  size : Str
  timestamp : Int
  deriving DecidableEq, Repr

/-- The instance fields of the column-based `CSVGenerator`. -/
structure Generator where
  columns : List Column := []
  generatedData : Option GeneratedData := none
  isGenerating : Bool := false
  deriving DecidableEq, Repr

/-- Model of `generateCSV(rowCount, options)`: the thrown error or the returned
record, the instance afterwards and the random stream left.  `startTime`,
`endTime` and `timestamp` are the three readings of `Date.now()`.  The only
checks before the generation are the `isGenerating` guard and
`validateColumns(this.columns)`; the `finally` block resets `isGenerating`,
also when a generator throws (the random stream is then given as it was
before the call). -/
def generateCSV (gen : CellGenerator) (self : Generator) (rowCount : Int) (options : Options)
    (rand : RandomStream) (startTime endTime timestamp : Int) :
    Except Str GeneratedData × Generator × RandomStream :=
  if self.isGenerating then (.error "正在生成中，请稍候...".toList, self, rand)
  else
    match validateColumns self.columns with
    | .error e => (.error e, self, rand)
    | .ok errors =>
      if errors.length > 0 then
        (.error (joinWith "; ".toList (errors.map Violation.message)), self, rand)
      else
        match generateData gen self.columns rowCount rand with
        | .error e => (.error e, { self with isGenerating := false }, rand)
        | .ok data =>
          let csvContent := formatAsCSV self.columns data.1 options
          let generatedData : GeneratedData :=
            { data := data.1
              csvContent := csvContent
              rowCount := rowCount
              columnCount := self.columns.length
              duration := endTime - startTime
              size := calculateSize csvContent
              timestamp := timestamp }
          (.ok generatedData,
            { self with generatedData := some generatedData, isGenerating := false }, data.2)

end ColumnEngine

/-! ## The configuration manager, `src/csv-config.js` -/

namespace CSVConfig

/-- A config object of the configuration manager: `name`, `description`,
`rows`, `columns`, and the two time stamps that `saveConfig` adds. -/
structure NamedConfig where
  name : Str
  description : Str
  rows : Int
  columns : FormatEngine.Columns
  createdAt : Option Str := none
  updatedAt : Option Str := none
  deriving DecidableEq, Repr

/-- The generation config that the engine reads from a config object: its
`rows` and `columns` keys. -/
def NamedConfig.toConfig (config : NamedConfig) : FormatEngine.Config :=
  { rows := config.rows, columns := config.columns }

/-- The config object returned by `createDefaultConfig()`. -/
def createDefaultConfig : NamedConfig :=
  { name := "默认配置".toList
    description := "基本的CSV生成配置示例".toList
    rows := 100
    columns := .array [
      { name := .str "ID".toList, format := .str "number".toList,
        config := some { type := some "integer".toList, min := some 1, max := some 10000 } },
      { name := .str "姓名".toList, format := .str "name".toList,
        config := some { type := some "chinese".toList } },
      { name := .str "邮箱".toList, format := .str "email".toList,
        config := some { length := some 8 } },
      { name := .str "创建日期".toList, format := .str "date".toList,
        config := some { format := some "YYYY-MM-DD".toList, startDate := some "2020-01-01".toList, endDate := some "2024-12-31".toList } }] }

/-- The config object returned by `createUserInfoConfig()`. -/
def createUserInfoConfig : NamedConfig :=
  { name := "用户信息配置".toList
    description := "生成完整的用户信息数据".toList
    rows := 1000
    columns := .array [
      { name := .str "user_id".toList, format := .str "uuid".toList,
        config := some {} },
      { name := .str "username".toList, format := .str "text".toList,
        config := some { length := some 8, type := some "english".toList, caseSensitive := some false } },
      { name := .str "full_name".toList, format := .str "name".toList,
        config := some { type := some "full".toList } },
      { name := .str "email".toList, format := .str "email".toList,
        config := some { length := some 10 } },
      { name := .str "phone".toList, format := .str "phone".toList,
        config := some { format := some "china".toList, includeCountryCode := some false } },
      { name := .str "address".toList, format := .str "address".toList,
        config := some { type := some "chinese".toList, includePostalCode := some true } },
      { name := .str "birth_date".toList, format := .str "date".toList,
        config := some { format := some "YYYY-MM-DD".toList, startDate := some "1970-01-01".toList, endDate := some "2005-12-31".toList } },
      { name := .str "is_active".toList, format := .str "boolean".toList,
        config := some { format := some "10".toList, probability := some (8 / 10) } },
      { name := .str "salary".toList, format := .str "number".toList,
        config := some { type := some "currency".toList, min := some 3000, max := some 50000, decimals := some 2 } },
      { name := .str "company".toList, format := .str "company".toList,
        config := some { type := some "chinese".toList } },
      { name := .str "registration_time".toList, format := .str "date".toList,
        config := some { format := some "datetime".toList, startDate := some "2020-01-01".toList, endDate := some "2024-12-31".toList } },
      { name := .str "last_login_ip".toList, format := .str "ip".toList,
        config := some { type := some "ipv4".toList } }] }

/-- The config object returned by `createProductConfig()`. -/
def createProductConfig : NamedConfig :=
  { name := "商品信息配置".toList
    description := "电商商品数据生成配置".toList
    rows := 500
    columns := .array [
      { name := .str "product_id".toList, format := .str "text".toList,
        config := some { length := some 10, type := some "mixed".toList } },
      { name := .str "product_name".toList, format := .str "text".toList,
        config := some { length := some 15, type := some "chinese".toList } },
      { name := .str "category".toList, format := .str "text".toList,
        config := some { length := some 8, type := some "chinese".toList } },
      { name := .str "price".toList, format := .str "number".toList,
        config := some { type := some "currency".toList, min := some 10, max := some 9999, decimals := some 2 } },
      { name := .str "stock_quantity".toList, format := .str "number".toList,
        config := some { type := some "integer".toList, min := some 0, max := some 1000 } },
      { name := .str "supplier".toList, format := .str "company".toList,
        config := some { type := some "chinese".toList } },
      { name := .str "color".toList, format := .str "color".toList,
        config := some { format := some "name".toList } },
      { name := .str "launch_date".toList, format := .str "date".toList,
        config := some { format := some "YYYY-MM-DD".toList, startDate := some "2020-01-01".toList, endDate := some "2024-12-31".toList } },
      { name := .str "is_available".toList, format := .str "boolean".toList,
        config := some { format := some "yesno".toList, probability := some (9 / 10) } },
      { name := .str "rating".toList, format := .str "number".toList,
        config := some { type := some "float".toList, min := some 1, max := some 5, decimals := some 1 } }] }

/-- The config object returned by `createLogConfig()`. -/
def createLogConfig : NamedConfig :=
  { name := "日志记录配置".toList
    description := "系统日志数据生成配置".toList
    rows := 2000
    columns := .array [
      { name := .str "log_id".toList, format := .str "uuid".toList,
        config := some {} },
      { name := .str "timestamp".toList, format := .str "date".toList,
        config := some { format := some "datetime".toList, startDate := some "2024-01-01".toList, endDate := some "2024-12-31".toList } },
      { name := .str "level".toList, format := .str "text".toList,
        config := some { length := some 5, type := some "english".toList } },
      { name := .str "user_id".toList, format := .str "number".toList,
        config := some { type := some "integer".toList, min := some 1000, max := some 9999 } },
      { name := .str "ip_address".toList, format := .str "ip".toList,
        config := some { type := some "ipv4".toList } },
      { name := .str "action".toList, format := .str "text".toList,
        config := some { length := some 12, type := some "english".toList } },
      { name := .str "status_code".toList, format := .str "number".toList,
        config := some { type := some "integer".toList, min := some 200, max := some 599 } },
      { name := .str "response_time".toList, format := .str "number".toList,
        config := some { type := some "integer".toList, min := some 10, max := some 5000 } },
      { name := .str "error_message".toList, format := .str "text".toList,
        config := some { length := some 50, type := some "english".toList } }] }

/-- The instance fields of `CSVConfig`: the map `configs`, in insertion order,
and `currentConfig`. -/
structure Store where
  configs : List (Str × NamedConfig) := []
  currentConfig : Option NamedConfig := none
  deriving DecidableEq, Repr

/-- Model of `Map.prototype.set(key, value)`. -/
def mapSet : List (Str × NamedConfig) → Str → NamedConfig → List (Str × NamedConfig)
  | [], key, value => [(key, value)]
  | (k, v) :: rest, key, value =>
    if k = key then (k, value) :: rest else (k, v) :: mapSet rest key value

/-- Model of `Map.prototype.get(key)` on a string key. -/
def mapGet : List (Str × NamedConfig) → Str → Option NamedConfig
  | [], _ => none
  | (k, v) :: rest, key => if k = key then some v else mapGet rest key

/-- Model of `saveConfig(name, config)` for a string `name`; `createdAt` and
`updatedAt` are the two readings of the clock.  The write to `localStorage`
is outside the model. -/
def saveConfig (self : Store) (name : Str) (config : NamedConfig)
    (createdAt updatedAt : Str) : Except Str (Store × NamedConfig) :=
  if name = [] then .error "配置名称不能为空".toList
  else
    let configWithMeta : NamedConfig :=
      { config with name := name, createdAt := some createdAt, updatedAt := some updatedAt }
    .ok ({ self with configs := mapSet self.configs name configWithMeta }, configWithMeta)

/-- The `presets.forEach(config => this.saveConfig(config.name, config))` loop
of `initializePresetConfigs`; `clock` gives the successive readings of the
clock. -/
def savePresets : List NamedConfig → Store → (Nat → Str) → Nat → Store
  | [], self, _, _ => self
  | config :: rest, self, clock, tick =>
    match saveConfig self config.name config (clock tick) (clock (tick + 1)) with
    | .ok (self2, _) => savePresets rest self2 clock (tick + 2)
    | .error _ => self

/-- Model of `initializePresetConfigs()`: the instance afterwards. -/
def initializePresetConfigs (self : Store) (clock : Nat → Str) : Store :=
  savePresets [createDefaultConfig, createUserInfoConfig, createProductConfig,
    createLogConfig] self clock 0

/-- Model of `loadConfig(name)`: the thrown error message, or the instance
afterwards and the copy `{ ...config }` that is returned.  A `name` that is
not a string is no key of the map. -/
def loadConfig (self : Store) (name : Value) : Except Str (Store × NamedConfig) :=
  match name with
  | .str key =>
    match mapGet self.configs key with
    | some config => .ok ({ self with currentConfig := some config }, config)
    | none => .error ("配置 \"".toList ++ key ++ "\" 不存在".toList)
  | other => .error ("配置 \"".toList ++ other.toStr ++ "\" 不存在".toList)

end CSVConfig

/-! ## The command line, `src/csv-cli.js` -/

namespace CLI

/-- The value of a parsed option: `true` or a string. -/
inductive OptionValue where
  | flag
  | text (s : Str)
  deriving DecidableEq, Repr

/-- The object `parsed.options`, keyed by option name. -/
abbrev Options := List (Str × OptionValue)

/-- Model of `parsed.options[key] = value`. -/
def Options.set : Options → Str → OptionValue → Options
  | [], key, value => [(key, value)]
  | (k, v) :: rest, key, value =>
    if k = key then (k, value) :: rest else (k, v) :: Options.set rest key value

/-- Model of `options[key]`, `none` for `undefined`. -/
def Options.get : Options → Str → Option OptionValue
  | [], _ => none
  | (k, v) :: rest, key => if k = key then some v else Options.get rest key

/-- Truthiness of an option value that may be `undefined`. -/
def truthy : Option OptionValue → Bool
  | some .flag => true
  | some (.text s) => s != []
  | none => false

/-- Model of `a || b` on option values. -/
def orElse (a b : Option OptionValue) : Option OptionValue :=
  if truthy a then a else b

/-- Model of `s.split(sep)` for a one-character separator: `cur` is the piece
being read. -/
def splitAux (sep : Char) : Str → Str → List Str
  | [], cur => [cur.reverse]
  | c :: cs, cur =>
    if c = sep then cur.reverse :: splitAux sep cs [] else splitAux sep cs (c :: cur)

/-- Model of `s.split('=')`. -/
def splitOn (sep : Char) (s : Str) : List Str := splitAux sep s []

/-- The value `value || true` stored for a long option `--key=value`. -/
def longValue : Option Str → OptionValue
  | some v => if v = [] then .flag else .text v
  | none => .flag

/-- The `for (let i = 1; i < args.length; i++)` loop of `parseArgs` on the
arguments that are left.  An argument `--key=value` stores `value || true`
under `key`; an argument `-key` stores the next argument when there is one
that is not empty and does not start with `-` (and skips it), and `true`
otherwise; any other argument is skipped. -/
def parseArgsLoop : List Str → Options → Options
  | [], options => options
  | [arg], options =>
    if "--".toList.isPrefixOf arg then
      let parts := splitOn '=' (arg.drop 2)
      options.set (parts.headD []) (longValue (parts.get? 1))
    else if "-".toList.isPrefixOf arg then
      options.set (arg.drop 1) .flag
    else options
  | arg :: next :: rest, options =>
    if "--".toList.isPrefixOf arg then
      let parts := splitOn '=' (arg.drop 2)
      parseArgsLoop (next :: rest)
        (options.set (parts.headD []) (longValue (parts.get? 1)))
    else if "-".toList.isPrefixOf arg then
      if next ≠ [] ∧ ¬ "-".toList.isPrefixOf next then
        parseArgsLoop rest (options.set (arg.drop 1) (.text next))
      else
        parseArgsLoop (next :: rest) (options.set (arg.drop 1) .flag)
    else parseArgsLoop (next :: rest) options

/-- The object returned by `parseArgs`. -/
structure ParsedArgs where
  command : Str
  options : Options
  deriving DecidableEq, Repr

/-- Model of `parseArgs()` on `args = process.argv.slice(2)`. -/
def parseArgs (args : List Str) : ParsedArgs :=
  match args with
  | [] => { command := "help".toList, options := [] }
  | command :: rest =>
    { command := if command = [] then "help".toList else command
      options := parseArgsLoop rest [] }

/-- The value of a character as a digit in a radix up to 36. -/
def digitValue (c : Char) : Option Nat :=
  if '0' ≤ c ∧ c ≤ '9' then some (c.toNat - '0'.toNat)
  else if 'a' ≤ c ∧ c ≤ 'z' then some (c.toNat - 'a'.toNat + 10)
  else if 'A' ≤ c ∧ c ≤ 'Z' then some (c.toNat - 'A'.toNat + 10)
  else none

/-- The longest leading run of digits of the radix. -/
def takeDigits (radix : Nat) : Str → List Nat
  | [] => []
  | c :: cs =>
    match digitValue c with
    | some d => if d < radix then d :: takeDigits radix cs else []
    | none => []

/-- Model of `parseInt(s)` on a string, `none` for `NaN`: leading white space is
skipped, then an optional sign, an optional `0x` / `0X` that selects radix
16, and the longest run of digits. -/
def parseIntStr (s : Str) : Option Int :=
  let s1 := s.dropWhile isJSWhitespace
  let signed : Bool × Str :=
    match s1 with
    | '-' :: r => (true, r)
    | '+' :: r => (false, r)
    | _ => (false, s1)
  let based : Nat × Str :=
    match signed.2 with
    | '0' :: 'x' :: r => (16, r)
    | '0' :: 'X' :: r => (16, r)
    | _ => (10, signed.2)
  let digits := takeDigits based.1 based.2
  if digits = [] then none
  else
    let magnitude : Nat := digits.foldl (fun acc d => acc * based.1 + d) 0
    some (if signed.1 then -(magnitude : Int) else (magnitude : Int))

/-- Model of `parseInt(value)` on an option value: `undefined` and `true` give
`NaN`. -/
def parseInt : Option OptionValue → Option Int
  | some (.text s) => parseIntStr s
  | _ => none

/-- Model of `createDefaultColumns()`. -/
def createDefaultColumns : List FormatEngine.Column := [
    { name := .str "ID".toList, format := .str "number".toList,
      config := some { type := some "integer".toList, min := some 1, max := some 10000 } },
    { name := .str "姓名".toList, format := .str "name".toList,
      config := some { type := some "chinese".toList } },
    { name := .str "邮箱".toList, format := .str "email".toList,
      config := some { length := some 8 } },
    { name := .str "日期".toList, format := .str "date".toList,
      config := some { format := some "YYYY-MM-DD".toList, startDate := some "2020-01-01".toList, endDate := some "2024-12-31".toList } }]

/-- Model of `JSON.parse(options.columns)` as the `columns` of the config, `none`
when it throws.  The value `true` is converted to the text `true`, which is
valid JSON for the boolean `true`; the parsing of a string is given by
`parseJSON`. -/
def parseColumns (parseJSON : Str → Option FormatEngine.Columns) :
    OptionValue → Option FormatEngine.Columns
  | .flag => some .nonArray
  | .text s => parseJSON s

/-- The value `options.config || options.c` as the argument of `loadConfig`. -/
def configName : Option OptionValue → Value
  | some (.text s) => .str s
  | some .flag => .bool true
  | none => .undefined

/-- The first part of the `generateCSV` method of the command line: the
generation config assembled from the options, or the message printed before
the early `return`.  The statements are `config.rows =
parseInt(options.rows || options.r) || 100`, then `config.columns =
JSON.parse(options.columns)`, or `config = presetConfig` for `options.config
|| options.c`, or `config.columns = this.createDefaultColumns()`. -/
def assembleConfig (parseJSON : Str → Option FormatEngine.Columns) (clock : Nat → Str)
    (store : CSVConfig.Store) (options : Options) : Except Str FormatEngine.Config :=
  let rows : Int :=
    match parseInt (orElse (options.get "rows".toList) (options.get "r".toList)) with
    | some n => if n = 0 then 100 else n
    | none => 100
  if truthy (options.get "columns".toList) then
    match (options.get "columns".toList).bind (parseColumns parseJSON) with
    | some columns => .ok { rows := rows, columns := columns }
    | none => .error "列配置JSON格式错误".toList
  else if truthy (orElse (options.get "config".toList) (options.get "c".toList)) then
    match CSVConfig.loadConfig (CSVConfig.initializePresetConfigs store clock)
        (configName (orElse (options.get "config".toList) (options.get "c".toList))) with
    | .ok (_, presetConfig) => .ok presetConfig.toConfig
    | .error message => .error ("加载配置失败: ".toList ++ message)
  else
    .ok { rows := rows, columns := .array createDefaultColumns }

end CLI


/-! ## Lemmas on the string primitives -/

theorem includes_cons_singleton (x c : Char) (xs : Str) :
    includes (x :: xs) [c] = (c == x || includes xs [c]) := by
  simp [includes, List.isPrefixOf]

theorem includes_singleton (s : Str) (c : Char) : includes s [c] = true ↔ c ∈ s := by
  induction s with
  | nil => simp [includes, List.isPrefixOf]
  | cons x xs ih =>
    rw [includes_cons_singleton, Bool.or_eq_true, ih]
    simp

theorem replaceQuotes_eq_flatMap (s : Str) :
    replaceQuotes s = s.flatMap (fun ch => if ch = '"' then ['"', '"'] else [ch]) := by
  induction s with
  | nil => rfl
  | cons x xs ih =>
    by_cases hx : x = '"'
    · simp [replaceQuotes, hx, ih]
    · simp [replaceQuotes, hx, ih]

/-- The quoting condition of both engines, on a string and a one-character
separator. -/
theorem needsQuotes_iff (s : Str) (c : Char) :
    (includes s [c] || includes s ['"'] || includes s ['\n'] || includes s ['\r']) = true ↔
      (c ∈ s ∨ '"' ∈ s ∨ '\n' ∈ s ∨ '\r' ∈ s) := by
  simp only [Bool.or_eq_true, includes_singleton, or_assoc]

theorem formatCell_eq_escapeCSVValue (cell : Str) :
    FormatEngine.formatCell (.str cell) = ColumnEngine.escapeCSVValue (.str cell) [','] := by
  simp [FormatEngine.formatCell, ColumnEngine.escapeCSVValue, Value.toStr]


/-! ## Lemmas on the record reader -/

/-- A string without delimiter, quote, CR or LF is read as bare text. -/
theorem parseRecordAux_bare (delim : Char) (f : Str)
    (hf : ∀ ch ∈ f, ch ≠ '"' ∧ ch ≠ delim ∧ ch ≠ '\n' ∧ ch ≠ '\r')
    (cur : Str) (acc : List Str) (rest : Str) :
    parseRecordAux delim .bare cur acc (f ++ rest) =
      parseRecordAux delim .bare (f.reverse ++ cur) acc rest := by
  induction f generalizing cur with
  | nil => rfl
  | cons x xs ih =>
    have hx := hf x (List.mem_cons_self x xs)
    have hxs : ∀ ch ∈ xs, ch ≠ '"' ∧ ch ≠ delim ∧ ch ≠ '\n' ∧ ch ≠ '\r' :=
      fun ch hch => hf ch (List.mem_cons_of_mem x hch)
    simp only [List.cons_append, parseRecordAux, hx.1, hx.2.1, hx.2.2.1, hx.2.2.2, if_false,
      or_self, List.append_eq]
    rw [ih hxs]
    simp

/-- The doubled-quote body of a quoted field followed by the closing quote is
read back as the original characters. -/
theorem parseRecordAux_quoted (delim : Char) (f : Str) (cur : Str) (acc : List Str)
    (rest : Str) :
    parseRecordAux delim .quoted cur acc (replaceQuotes f ++ '"' :: rest) =
      parseRecordAux delim .quoteSeen (f.reverse ++ cur) acc rest := by
  induction f generalizing cur with
  | nil => simp [replaceQuotes, parseRecordAux]
  | cons x xs ih =>
    by_cases hx : x = '"'
    · subst hx
      simp only [replaceQuotes, if_true, List.cons_append, parseRecordAux, List.append_eq]
      rw [ih]
      simp
    · simp only [replaceQuotes, hx, if_false, List.cons_append, parseRecordAux,
        List.append_eq]
      rw [ih]
      simp

/-- A bare field at the end of the record. -/
theorem parseRecordAux_clean_end (delim : Char) (f : Str)
    (hf : ∀ ch ∈ f, ch ≠ '"' ∧ ch ≠ delim ∧ ch ≠ '\n' ∧ ch ≠ '\r') (acc : List Str) :
    parseRecordAux delim .fieldStart [] acc f = some ((f :: acc).reverse) := by
  cases f with
  | nil => simp [parseRecordAux]
  | cons x xs =>
    have hx := hf x (List.mem_cons_self x xs)
    have hxs : ∀ ch ∈ xs, ch ≠ '"' ∧ ch ≠ delim ∧ ch ≠ '\n' ∧ ch ≠ '\r' :=
      fun ch hch => hf ch (List.mem_cons_of_mem x hch)
    have h := parseRecordAux_bare delim xs hxs [x] acc []
    simp only [List.append_nil] at h
    simp only [parseRecordAux, hx.1, hx.2.1, hx.2.2.1, hx.2.2.2, if_false, or_self, h]
    simp

/-- A bare field followed by the delimiter. -/
theorem parseRecordAux_clean_sep (delim : Char) (f : Str)
    (hf : ∀ ch ∈ f, ch ≠ '"' ∧ ch ≠ delim ∧ ch ≠ '\n' ∧ ch ≠ '\r') (acc : List Str)
    (rest : Str) (hd : delim ≠ '"') :
    parseRecordAux delim .fieldStart [] acc (f ++ delim :: rest) =
      parseRecordAux delim .fieldStart [] (f :: acc) rest := by
  cases f with
  | nil => simp [parseRecordAux, hd]
  | cons x xs =>
    have hx := hf x (List.mem_cons_self x xs)
    have hxs : ∀ ch ∈ xs, ch ≠ '"' ∧ ch ≠ delim ∧ ch ≠ '\n' ∧ ch ≠ '\r' :=
      fun ch hch => hf ch (List.mem_cons_of_mem x hch)
    have h := parseRecordAux_bare delim xs hxs [x] acc (delim :: rest)
    simp only [List.cons_append, parseRecordAux, hx.1, hx.2.1, hx.2.2.1, hx.2.2.2, if_false,
      or_self, List.append_eq, h, hd, if_true]
    simp

/-- A quoted field at the end of the record. -/
theorem parseRecordAux_quoted_end (delim : Char) (f : Str) (acc : List Str) :
    parseRecordAux delim .fieldStart [] acc ('"' :: (replaceQuotes f ++ ['"'])) =
      some ((f :: acc).reverse) := by
  simp only [parseRecordAux, if_true, parseRecordAux_quoted]
  simp

/-- A quoted field followed by the delimiter. -/
theorem parseRecordAux_quoted_sep (delim : Char) (f : Str) (acc : List Str) (rest : Str)
    (hd : delim ≠ '"') :
    parseRecordAux delim .fieldStart [] acc ('"' :: (replaceQuotes f ++ '"' :: delim :: rest)) =
      parseRecordAux delim .fieldStart [] (f :: acc) rest := by
  simp only [parseRecordAux, if_true, parseRecordAux_quoted, hd, if_false]
  simp

/-- A string that triggers none of the four `includes` tests is bare text for
the comma delimiter. -/
theorem clean_of_not_needsQuotes (s : Str)
    (h : ¬ ((includes s [','] || includes s ['"'] || includes s ['\n'] ||
      includes s ['\r']) = true)) :
    ∀ ch ∈ s, ch ≠ '"' ∧ ch ≠ ',' ∧ ch ≠ '\n' ∧ ch ≠ '\r' := by
  rw [needsQuotes_iff] at h
  intro ch hch
  refine ⟨?_, ?_, ?_, ?_⟩ <;> (intro heq; subst heq; exact h (by simp [hch]))

/-- A serialised cell at the end of a line is read back as the stringified
cell. -/
theorem parse_formatCell_end (cell : Value) (acc : List Str) :
    parseRecordAux ',' .fieldStart [] acc (FormatEngine.formatCell cell) =
      some ((cell.toStr :: acc).reverse) := by
  unfold FormatEngine.formatCell
  by_cases h : (includes cell.toStr [','] || includes cell.toStr ['"'] ||
      includes cell.toStr ['\n'] || includes cell.toStr ['\r']) = true
  · simp only [h, if_true]
    exact parseRecordAux_quoted_end ',' cell.toStr acc
  · simp only [h]
    exact parseRecordAux_clean_end ',' cell.toStr (clean_of_not_needsQuotes _ h) acc

/-- A serialised cell followed by a comma is read back as the stringified
cell, and the reader is at the start of the next field. -/
theorem parse_formatCell_sep (cell : Value) (acc : List Str) (rest : Str) :
    parseRecordAux ',' .fieldStart [] acc (FormatEngine.formatCell cell ++ [','] ++ rest) =
      parseRecordAux ',' .fieldStart [] (cell.toStr :: acc) rest := by
  unfold FormatEngine.formatCell
  by_cases h : (includes cell.toStr [','] || includes cell.toStr ['"'] ||
      includes cell.toStr ['\n'] || includes cell.toStr ['\r']) = true
  · simp only [h, if_true]
    have := parseRecordAux_quoted_sep ',' cell.toStr acc rest (by decide)
    simpa using this
  · simp only [h]
    have := parseRecordAux_clean_sep ',' cell.toStr (clean_of_not_needsQuotes _ h) acc rest
      (by decide)
    simpa using this

/-- Reading a serialised non-empty row from the start of a field. -/
theorem parse_formatRow_aux (cell : Value) (cells : List Value) (acc : List Str) :
    parseRecordAux ',' .fieldStart [] acc
        (joinWith [','] ((cell :: cells).map FormatEngine.formatCell)) =
      some (acc.reverse ++ (cell :: cells).map Value.toStr) := by
  induction cells generalizing cell acc with
  | nil => simp [joinWith, parse_formatCell_end]
  | cons c cs ih =>
    simp only [List.map_cons, joinWith] at ih ⊢
    rw [parse_formatCell_sep]
    have := ih c (cell.toStr :: acc)
    simp only [List.map_cons] at this
    rw [this]
    simp

/-- Round trip on rows of arbitrary values: a non-empty serialised row is
read back as the list of its stringified cells. -/
theorem parse_formatRowAsCSV (row : List Value) (h : row ≠ []) :
    rfc4180ParseRecord ',' (FormatEngine.formatRowAsCSV row) = some (row.map Value.toStr) := by
  cases row with
  | nil => exact absurd rfl h
  | cons cell cells =>
    have := parse_formatRow_aux cell cells []
    simpa [rfc4180ParseRecord, FormatEngine.formatRowAsCSV] using this


/-! ## Lemmas on row assembly and validation of the format-based engine -/

/-- Every cell of an assembled row is the value of the generator on the
column at the same position, for some state of the random stream. -/
theorem generateRow_aligned (gen : FormatEngine.FormatGenerator)
    (columns : List FormatEngine.Column) (rand : RandomStream)
    (row : List Value × RandomStream)
    (h : FormatEngine.generateRow gen columns rand = .ok row) :
    List.Forall₂
      (fun (column : FormatEngine.Column) (v : Value) =>
        ∃ r r2 : RandomStream, gen column.format (column.config.getD {}) r = .ok (v, r2))
      columns row.1 := by
  induction columns generalizing rand row with
  | nil =>
    simp only [FormatEngine.generateRow, Except.ok.injEq] at h
    rw [← h]
    exact List.Forall₂.nil
  | cons column rest ih =>
    unfold FormatEngine.generateRow at h
    cases hg : gen column.format (column.config.getD {}) rand with
    | error e => simp [hg] at h
    | ok cell =>
      simp only [hg] at h
      cases hr : FormatEngine.generateRow gen rest cell.2 with
      | error e => simp [hr] at h
      | ok rs =>
        simp only [hr, Except.ok.injEq] at h
        rw [← h]
        exact List.Forall₂.cons ⟨rand, cell.2, hg⟩ (ih cell.2 rs hr)

/-- When no generator call throws on the columns, a row is assembled. -/
theorem generateRow_returns (gen : FormatEngine.FormatGenerator)
    (columns : List FormatEngine.Column) (rand : RandomStream)
    (hgen : ∀ column ∈ columns, ∀ r : RandomStream,
      ∃ cell, gen column.format (column.config.getD {}) r = .ok cell) :
    ∃ row, FormatEngine.generateRow gen columns rand = .ok row := by
  induction columns generalizing rand with
  | nil => exact ⟨([], rand), rfl⟩
  | cons column rest ih =>
    obtain ⟨cell, hc⟩ := hgen column (List.mem_cons_self _ _) rand
    obtain ⟨rs, hrs⟩ := ih cell.2 (fun c hm => hgen c (List.mem_cons_of_mem _ hm))
    exact ⟨(cell.1 :: rs.1, rs.2), by simp only [FormatEngine.generateRow, hc, hrs]⟩

/-- The data loop, when it returns, has appended one serialised row per
iteration. -/
theorem generateLines_spec (gen : FormatEngine.FormatGenerator)
    (columns : List FormatEngine.Column) (n : Nat) (csvLines : List Str) (rand : RandomStream)
    (lines : List Str × RandomStream)
    (h : FormatEngine.generateLines gen columns n csvLines rand = .ok lines) :
    ∃ rows : List (List Value),
      rows.length = n ∧
      (∀ row ∈ rows, ∃ r r2 : RandomStream,
        FormatEngine.generateRow gen columns r = .ok (row, r2)) ∧
      lines.1 = csvLines ++ rows.map FormatEngine.formatRowAsCSV := by
  induction n generalizing csvLines rand with
  | zero =>
    simp only [FormatEngine.generateLines, Except.ok.injEq] at h
    rw [← h]
    exact ⟨[], rfl, by simp, by simp⟩
  | succ k ih =>
    unfold FormatEngine.generateLines at h
    cases hr : FormatEngine.generateRow gen columns rand with
    | error e => simp [hr] at h
    | ok row =>
      simp only [hr] at h
      obtain ⟨rows, hlen, hrows, heq⟩ := ih _ _ h
      refine ⟨row.1 :: rows, by simp [hlen], ?_, ?_⟩
      · intro r hmem
        rcases List.mem_cons.mp hmem with h1 | h1
        · exact ⟨rand, row.2, by rw [h1, hr]⟩
        · exact hrows r h1
      · rw [heq]
        simp

/-- When no generator call throws on the columns, the data loop returns. -/
theorem generateLines_returns (gen : FormatEngine.FormatGenerator)
    (columns : List FormatEngine.Column) (n : Nat) (csvLines : List Str) (rand : RandomStream)
    (hgen : ∀ column ∈ columns, ∀ r : RandomStream,
      ∃ cell, gen column.format (column.config.getD {}) r = .ok cell) :
    ∃ lines, FormatEngine.generateLines gen columns n csvLines rand = .ok lines := by
  induction n generalizing csvLines rand with
  | zero => exact ⟨(csvLines, rand), rfl⟩
  | succ k ih =>
    obtain ⟨row, hrow⟩ := generateRow_returns gen columns rand hgen
    obtain ⟨lines, hlines⟩ := ih (csvLines ++ [FormatEngine.formatRowAsCSV row.1]) row.2
    exact ⟨lines, by simp only [FormatEngine.generateLines, hrow, hlines]⟩

/-- An accepted config has a row count in range and a non-empty array of
columns. -/
theorem validateConfig_accepts (config : FormatEngine.Config)
    (h : FormatEngine.validateConfig config = []) :
    1 ≤ config.rows ∧ config.rows ≤ 1000000 ∧
      ∃ column rest, config.columns = .array (column :: rest) := by
  unfold FormatEngine.validateConfig at h
  rw [List.append_eq_nil] at h
  obtain ⟨h1, h2⟩ := h
  have hrows : ¬ (config.rows = 0 ∨ config.rows < 1 ∨ config.rows > 1000000) := by
    intro hc
    simp [hc] at h1
  refine ⟨by omega, by omega, ?_⟩
  cases hcols : config.columns with
  | missing => simp [hcols] at h2
  | nonArray => simp [hcols, FormatEngine.validateColumnConfig] at h2
  | array cols =>
    cases cols with
    | nil => simp [hcols, FormatEngine.validateColumnConfig] at h2
    | cons column rest => exact ⟨column, rest, rfl⟩

/-- The single pass on an accepted config whose data loop returns. -/
theorem generateCSVSync_returned (gen : FormatEngine.FormatGenerator)
    (self : FormatEngine.Generator) (config : FormatEngine.Config)
    (columns : List FormatEngine.Column) (rand : RandomStream) (startTime endTime : Int)
    (lines : List Str × RandomStream)
    (hvalid : FormatEngine.validateConfig config = [])
    (hcols : config.columns = .array columns)
    (hall : FormatEngine.generateLines gen columns config.rows.toNat
      [FormatEngine.generateCSVHeader columns] rand = .ok lines) :
    FormatEngine.generateCSVSync gen self config rand startTime endTime =
      .ok ({ content := joinWith ['\n'] lines.1
             config := config
             duration := endTime - startTime
             rows := config.rows
             columns := columns.length
             size := utf16Length (joinWith ['\n'] lines.1) },
           { self with
               currentData := some
                 { content := joinWith ['\n'] lines.1
                   config := config
                   duration := endTime - startTime
                   rows := config.rows
                   columns := columns.length
                   size := utf16Length (joinWith ['\n'] lines.1) } },
           lines.2) := by
  simp only [FormatEngine.generateCSVSync, hvalid, hcols, hall]
  rfl

/-- The single pass on an accepted config whose data loop throws. -/
theorem generateCSVSync_threw (gen : FormatEngine.FormatGenerator)
    (self : FormatEngine.Generator) (config : FormatEngine.Config)
    (columns : List FormatEngine.Column) (rand : RandomStream) (startTime endTime : Int)
    (e : Str)
    (hvalid : FormatEngine.validateConfig config = [])
    (hcols : config.columns = .array columns)
    (hall : FormatEngine.generateLines gen columns config.rows.toNat
      [FormatEngine.generateCSVHeader columns] rand = .error e) :
    FormatEngine.generateCSVSync gen self config rand startTime endTime = .error e := by
  simp only [FormatEngine.generateCSVSync, hvalid, hcols, hall]
  rfl


/-! ## Serialisation -/

/-- C1: for every string `value` and every one-character separator `c`,
`escapeCSVValue(value, c)` is `value` itself when `value` holds none of `c`,
a double quote, LF or CR, and otherwise is `value` with every double quote
doubled, wrapped in one pair of double quotes; `formatRowAsCSV` applies the
same rule to each cell with the comma as separator and joins the cells with
commas; `He said "hi", ok` becomes `"He said ""hi"", ok"`. -/
theorem escapeCSVValue_quoting (value : Str) (c : Char) :
    ColumnEngine.escapeCSVValue (.str value) [c] =
        (if c ∈ value ∨ '"' ∈ value ∨ '\n' ∈ value ∨ '\r' ∈ value then
          ['"'] ++ value.flatMap (fun ch => if ch = '"' then ['"', '"'] else [ch]) ++ ['"']
         else value) ∧
      (∀ row : List Str,
        FormatEngine.formatRowAsCSV (row.map Value.str) =
          joinWith [','] (row.map (fun cell => ColumnEngine.escapeCSVValue (.str cell) [',']))) ∧
      ColumnEngine.escapeCSVValue (.str "He said \"hi\", ok".toList) [','] =
        "\"He said \"\"hi\"\", ok\"".toList ∧
      FormatEngine.formatRowAsCSV [.str "He said \"hi\", ok".toList] =
        "\"He said \"\"hi\"\", ok\"".toList := by
  refine ⟨?_, ?_, by decide, by decide⟩
  · by_cases h : c ∈ value ∨ '"' ∈ value ∨ '\n' ∈ value ∨ '\r' ∈ value
    · have h2 := (needsQuotes_iff value c).mpr h
      simp only [ColumnEngine.escapeCSVValue, Value.toStr, h2, if_true, h,
        replaceQuotes_eq_flatMap]
    · have h2 : ¬ ((includes value [c] || includes value ['"'] || includes value ['\n'] ||
          includes value ['\r']) = true) := fun hc => h ((needsQuotes_iff value c).mp hc)
      simp only [ColumnEngine.escapeCSVValue, Value.toStr, h2, h, if_false]
      simp
  · intro row
    simp only [FormatEngine.formatRowAsCSV, List.map_map]
    congr 1

/-- C2: serialisation round trip.  For every non-empty list of strings, the
RFC 4180 record parser for the comma delimiter reads `formatRowAsCSV(row)`
back as exactly the original list of strings. -/
theorem formatRowAsCSV_roundtrip (row : List Str) (h : row ≠ []) :
    rfc4180ParseRecord ',' (FormatEngine.formatRowAsCSV (row.map Value.str)) = some row := by
  have hne : row.map Value.str ≠ [] := by simpa using h
  have := parse_formatRowAsCSV (row.map Value.str) hne
  simpa [Value.toStr, Function.comp_def] using this

/-- Witness of C2 on a row whose cells hold a comma and quotes, a line feed
and a carriage return, and an empty cell. -/
theorem formatRowAsCSV_roundtrip_witness :
    ["He said \"hi\", ok".toList, "a\nb\rc".toList, [], "plain".toList] ≠ [] ∧
      rfc4180ParseRecord ','
          (FormatEngine.formatRowAsCSV
            (["He said \"hi\", ok".toList, "a\nb\rc".toList, [], "plain".toList].map
              Value.str)) =
        some ["He said \"hi\", ok".toList, "a\nb\rc".toList, [], "plain".toList] :=
  ⟨by decide, formatRowAsCSV_roundtrip _ (by decide)⟩


/-! ## Synchronous generation -/

/-- Counterexample to C3 as stated: `validateConfig` accepts the config with
one row and the number column `{ type: 'float', decimals: 101 }` (it does not
check `decimals`), and on this config `generateCSVSync` produces no line: for
every catalogue whose number generator is `generateNumber`, every instance
and every random stream it throws the `RangeError` of `toFixed(101)`. -/
theorem generateCSVSync_throws_on_accepted :
    FormatEngine.validateConfig
        { rows := 1
          columns := .array [{ name := .str "N".toList, format := .str "number".toList,
                               config := some { type := some "float".toList,
                                                decimals := some 101 } }] } = [] ∧
    ∀ (g : FormatEngine.Generators) (render : ℚ → Value) (self : FormatEngine.Generator)
      (rand : RandomStream) (startTime endTime : Int),
      FormatEngine.generateCSVSync
          (FormatEngine.generateByFormat
            { g with generateNumber := FormatEngine.numberGenerator render })
          self
          { rows := 1
            columns := .array [{ name := .str "N".toList, format := .str "number".toList,
                                 config := some { type := some "float".toList,
                                                  decimals := some 101 } }] }
          rand startTime endTime = .error "RangeError".toList := by
  refine ⟨by decide, ?_⟩
  intro g render self rand startTime endTime
  rfl

/-- C3 (amended): for every config that `validateConfig` accepts, every
generator catalogue of which no call throws on the columns of the config, and
every random stream, `generateCSVSync` returns a result whose content is the
header line followed by exactly `config.rows` data lines joined by LF; each
data line is the serialisation of a row of exactly `config.columns.length`
cells, the cell at each position being a value of the generator for the
column at that position, and reads back as that many fields; the result
reports `rows = config.rows` and `columns = config.columns.length`, and is
stored in `currentData`. -/
theorem generateCSVSync_shape (gen : FormatEngine.FormatGenerator)
    (self : FormatEngine.Generator) (config : FormatEngine.Config)
    (columns : List FormatEngine.Column) (rand : RandomStream)
    (startTime endTime : Int) (hvalid : FormatEngine.validateConfig config = [])
    (hcols : config.columns = .array columns)
    (hgen : ∀ column ∈ columns, ∀ r : RandomStream,
      ∃ cell, gen column.format (column.config.getD {}) r = .ok cell) :
    ∃ (rows : List (List Value))
      (result : FormatEngine.Result) (self2 : FormatEngine.Generator) (rand2 : RandomStream),
      FormatEngine.generateCSVSync gen self config rand startTime endTime =
        .ok (result, self2, rand2) ∧
      result.content =
        joinWith ['\n']
          (FormatEngine.generateCSVHeader columns :: rows.map FormatEngine.formatRowAsCSV) ∧
      rfc4180ParseRecord ',' (FormatEngine.generateCSVHeader columns) =
        some (columns.map (fun column => column.name.toStr)) ∧
      (rows.length : Int) = config.rows ∧
      (∀ row ∈ rows,
        row.length = columns.length ∧
        List.Forall₂
          (fun (column : FormatEngine.Column) (v : Value) =>
            ∃ r r2 : RandomStream, gen column.format (column.config.getD {}) r = .ok (v, r2))
          columns row ∧
        ∃ fields, rfc4180ParseRecord ',' (FormatEngine.formatRowAsCSV row) = some fields ∧
          fields.length = columns.length ∧ fields = row.map Value.toStr) ∧
      result.rows = config.rows ∧
      result.columns = columns.length ∧
      self2.currentData = some result := by
  obtain ⟨hlo, hhi, column, rest, hcols2⟩ := validateConfig_accepts config hvalid
  have hce : columns = column :: rest := by
    rw [hcols] at hcols2
    injection hcols2
  obtain ⟨lines, hlines⟩ := generateLines_returns gen columns config.rows.toNat
    [FormatEngine.generateCSVHeader columns] rand hgen
  obtain ⟨rows, hlen, hrows, heq⟩ := generateLines_spec gen columns config.rows.toNat
    [FormatEngine.generateCSVHeader columns] rand lines hlines
  refine ⟨rows,
    { content := joinWith ['\n'] lines.1
      config := config
      duration := endTime - startTime
      rows := config.rows
      columns := columns.length
      size := utf16Length (joinWith ['\n'] lines.1) },
    { self with
        currentData := some
          { content := joinWith ['\n'] lines.1
            config := config
            duration := endTime - startTime
            rows := config.rows
            columns := columns.length
            size := utf16Length (joinWith ['\n'] lines.1) } },
    lines.2, ?_, ?_, ?_, ?_, ?_, rfl, rfl, rfl⟩
  · simp only [FormatEngine.generateCSVSync, hvalid, hcols, hlines]
    rfl
  · show joinWith ['\n'] lines.1 = _
    rw [heq]
    rfl
  · rw [hce]
    have := parse_formatRowAsCSV ((column :: rest).map (fun c => c.name)) (by simp)
    simpa [FormatEngine.generateCSVHeader, Function.comp_def] using this
  · rw [hlen]
    omega
  · intro row hrow
    obtain ⟨r, r2, hr⟩ := hrows row hrow
    have hal := generateRow_aligned gen columns r (row, r2) hr
    have hl : row.length = columns.length := hal.length_eq.symm
    have hne : row ≠ [] := by
      intro h0
      rw [h0, hce] at hl
      simp at hl
    exact ⟨hl, hal, row.map Value.toStr, parse_formatRowAsCSV row hne, by simp [hl], rfl⟩

/-- Witness of C3 (amended): two rows over two columns with a generator that
returns the format tag. -/
theorem generateCSVSync_shape_witness :
    FormatEngine.validateConfig
        { rows := 2
          columns := .array [{ name := .str "ID".toList, format := .str "number".toList },
                             { name := .str "Name".toList, format := .str "text".toList }] } = [] ∧
      ∃ (rows : List (List Value))
        (result : FormatEngine.Result) (self2 : FormatEngine.Generator) (rand2 : RandomStream),
        FormatEngine.generateCSVSync (fun format _ r => .ok (format, r.tail)) {}
            { rows := 2
              columns := .array [{ name := .str "ID".toList, format := .str "number".toList },
                                 { name := .str "Name".toList, format := .str "text".toList }] }
            (fun _ => 0) 0 1 =
          .ok (result, self2, rand2) ∧
        result.content =
          joinWith ['\n']
            (FormatEngine.generateCSVHeader
                [{ name := .str "ID".toList, format := .str "number".toList },
                 { name := .str "Name".toList, format := .str "text".toList }] ::
              rows.map FormatEngine.formatRowAsCSV) ∧
        (rows.length : Int) = 2 ∧
        (∀ row ∈ rows, row.length = 2) ∧
        result.rows = 2 ∧ result.columns = 2 ∧
        self2.currentData = some result := by
  refine ⟨by decide, ?_⟩
  obtain ⟨rows, result, self2, rand2, hrun, hcontent, _, hlen, hrows, hr, hc, hdata⟩ :=
    generateCSVSync_shape (fun format _ r => .ok (format, r.tail)) {}
      { rows := 2
        columns := .array [{ name := .str "ID".toList, format := .str "number".toList },
                           { name := .str "Name".toList, format := .str "text".toList }] }
      [{ name := .str "ID".toList, format := .str "number".toList },
       { name := .str "Name".toList, format := .str "text".toList }]
      (fun _ => 0) 0 1 (by decide) rfl (fun column _ r => ⟨_, rfl⟩)
  exact ⟨rows, result, self2, rand2, hrun, hcontent, hlen, fun row h => (hrows row h).1,
    hr, hc, hdata⟩


/-! ## The column-based engine: identifiers, alignment, line structure -/

/-- With `start` and `step` both non-zero and `padding >= 0`, `generateID`
yields the value of the specification at every record index. -/
theorem generateID_nonzero (start step padding : Int) (idPrefix idSuffix : Str) (i : Int)
    (name : Value) (hstart : start ≠ 0) (hstep : step ≠ 0) (hpad : 0 ≤ padding) :
    ColumnEngine.generateID
        { name := name, type := .str "id".toList, start := some start, step := some step,
          padding := some padding, idPrefix := some idPrefix, idSuffix := some idSuffix } i =
      ColumnEngine.idValueSpec start step padding idPrefix idSuffix i := by
  simp only [ColumnEngine.generateID, ColumnEngine.idValueSpec, hstart, hstep, if_false,
    Option.getD_some]
  by_cases hp : padding > 0
  · simp [hp]
  · have h0 : padding = 0 := by omega
    simp [h0, padStartZero]

/-- C4 (failing input): an id column with `start: 0, step: 5, padding: 4`.
The code takes the falsy `start` as absent and begins at 1: the three
records hold `0001`, `0006`, `0011`, where the claim gives `0000`, `0005`,
`0010`.  The claim's own example (`start: 100`) is produced as stated. -/
theorem generateID_start_zero (gen : ColumnEngine.CellGenerator) (rand : RandomStream) :
    ColumnEngine.generateData gen
        [{ name := .str "ID".toList, type := .str "id".toList, start := some 0, step := some 5,
           padding := some 4 }] 3 rand =
      .ok ([[("ID".toList, .str "0001".toList)], [("ID".toList, .str "0006".toList)],
            [("ID".toList, .str "0011".toList)]], rand) ∧
    [0, 1, 2].map (ColumnEngine.idValueSpec 0 5 4 [] []) =
      ["0000".toList, "0005".toList, "0010".toList] ∧
    ColumnEngine.generateData gen
        [{ name := .str "ID".toList, type := .str "id".toList, start := some 100, step := some 5,
           padding := some 4 }] 3 rand =
      .ok ([[("ID".toList, .str "0100".toList)], [("ID".toList, .str "0105".toList)],
            [("ID".toList, .str "0110".toList)]], rand) := by
  refine ⟨?_, by decide, ?_⟩ <;> rfl

/-- C5 (failing input): two id columns that are both named `A`, the first
starting at 1 and the second at 100, one record.  `validateColumns` accepts
the list; the values generated for the two columns are `1` and `100`; the
record keeps a single key `A` holding `100`, and the serialised line is
`100,100`: the first field is the value of the sibling column. -/
theorem formatAsCSV_duplicate_names (gen : ColumnEngine.CellGenerator) (rand : RandomStream) :
    ColumnEngine.validateColumns
        [{ name := .str "A".toList, type := .str "id".toList, start := some 1 },
         { name := .str "A".toList, type := .str "id".toList, start := some 100 }] = .ok [] ∧
    ColumnEngine.generateCellValue gen
        { name := .str "A".toList, type := .str "id".toList, start := some 1 } 0 rand =
      .ok (.str "1".toList, rand) ∧
    ColumnEngine.generateCellValue gen
        { name := .str "A".toList, type := .str "id".toList, start := some 100 } 0 rand =
      .ok (.str "100".toList, rand) ∧
    ColumnEngine.generateData gen
        [{ name := .str "A".toList, type := .str "id".toList, start := some 1 },
         { name := .str "A".toList, type := .str "id".toList, start := some 100 }] 1 rand =
      .ok ([[("A".toList, .str "100".toList)]], rand) ∧
    ColumnEngine.formatAsCSV
        [{ name := .str "A".toList, type := .str "id".toList, start := some 1 },
         { name := .str "A".toList, type := .str "id".toList, start := some 100 }]
        [[("A".toList, .str "100".toList)]] {} =
      "A,A\n100,100\n".toList := by
  refine ⟨rfl, rfl, rfl, rfl, ?_⟩
  decide

/-- The record loop of `formatAsCSV` appends one terminated line per record. -/
theorem foldl_recordLines (f : ColumnEngine.Row → Str) (data : List ColumnEngine.Row)
    (init : Str) :
    data.foldl (fun csv row => csv ++ f row ++ ['\n']) init =
      init ++ (data.map f).flatMap (fun line => line ++ ['\n']) := by
  induction data generalizing init with
  | nil => simp
  | cons row rest ih =>
    rw [List.foldl_cons, ih]
    simp

/-- C6 (counterexample): for one column `A` and one record holding `x`,
`formatAsCSV` returns `A`, LF, `x`, LF, which is not the two lines joined by
a single LF: a line feed follows the last line. -/
theorem formatAsCSV_trailing_newline :
    ColumnEngine.formatAsCSV [{ name := .str "A".toList, type := .str "text".toList }]
        [[("A".toList, .str "x".toList)]] {} = "A\nx\n".toList ∧
    joinWith ['\n']
        [ColumnEngine.headerLine [{ name := .str "A".toList, type := .str "text".toList }] [','],
         ColumnEngine.recordLine [{ name := .str "A".toList, type := .str "text".toList }] [',']
           [("A".toList, .str "x".toList)]] = "A\nx".toList ∧
    ColumnEngine.formatAsCSV [{ name := .str "A".toList, type := .str "text".toList }]
        [[("A".toList, .str "x".toList)]] {} ≠
      joinWith ['\n']
        [ColumnEngine.headerLine [{ name := .str "A".toList, type := .str "text".toList }] [','],
         ColumnEngine.recordLine [{ name := .str "A".toList, type := .str "text".toList }] [',']
           [("A".toList, .str "x".toList)]] := by
  decide

/-- C6 (amended): for every column list, every list of records and all
options, the text returned by `formatAsCSV` is the optional header line
(present unless `includeHeader` is `false` or there is no column) followed by
the serialised record lines, each of these lines terminated by a single LF;
so the text is empty or ends with a line feed. -/
theorem formatAsCSV_terminated_lines (columns : List ColumnEngine.Column)
    (data : List ColumnEngine.Row) (options : ColumnEngine.Options) :
    ColumnEngine.formatAsCSV columns data options =
        ((if options.includeHeader ≠ some false ∧ columns ≠ [] then
            [ColumnEngine.headerLine columns (ColumnEngine.separatorOf options)]
          else []) ++
          data.map (ColumnEngine.recordLine columns (ColumnEngine.separatorOf options))).flatMap
          (fun line => line ++ ['\n']) ∧
      (ColumnEngine.formatAsCSV columns data options = [] ∨
        (ColumnEngine.formatAsCSV columns data options).getLast? = some '\n') := by
  have hmain : ColumnEngine.formatAsCSV columns data options =
      ((if options.includeHeader ≠ some false ∧ columns ≠ [] then
          [ColumnEngine.headerLine columns (ColumnEngine.separatorOf options)]
        else []) ++
        data.map (ColumnEngine.recordLine columns (ColumnEngine.separatorOf options))).flatMap
        (fun line => line ++ ['\n']) := by
    have hcond : ((options.includeHeader != some false) = true ∧ columns.length > 0) ↔
        (options.includeHeader ≠ some false ∧ columns ≠ []) := by
      simp [List.length_pos]
    simp only [ColumnEngine.formatAsCSV, foldl_recordLines, List.flatMap_append, hcond]
    by_cases h : options.includeHeader ≠ some false ∧ columns ≠ []
    · rw [if_pos h, if_pos h]
      simp
    · rw [if_neg h, if_neg h]
      simp
  refine ⟨hmain, ?_⟩
  by_cases hne : ColumnEngine.formatAsCSV columns data options = []
  · exact Or.inl hne
  right
  rw [hmain] at hne ⊢
  generalize ((if options.includeHeader ≠ some false ∧ columns ≠ [] then
      [ColumnEngine.headerLine columns (ColumnEngine.separatorOf options)]
    else []) ++
    data.map (ColumnEngine.recordLine columns (ColumnEngine.separatorOf options))) = lines
    at hne ⊢
  induction lines using List.reverseRecOn with
  | nil => simp at hne
  | append_singleton ls l _ =>
    simp [List.flatMap_append, ← List.append_assoc]


/-! ## Validation in the format-based engine -/

/-- The `forEach` loop of `validateColumnConfig` visits every column in order
and appends the violations of each. -/
theorem validateColumnsLoop_eq (index : Nat) (cols : List FormatEngine.Column)
    (errors : List FormatEngine.Violation) :
    FormatEngine.validateColumnsLoop index cols errors =
      errors ++ (cols.enumFrom index).flatMap
        (fun p => FormatEngine.columnViolations p.1 p.2) := by
  induction cols generalizing index errors with
  | nil => simp [FormatEngine.validateColumnsLoop]
  | cons column rest ih =>
    simp only [FormatEngine.validateColumnsLoop, ih, List.enumFrom_cons, List.flatMap_cons,
      List.append_assoc]

theorem mem_textLengthViolations (index : Nat) (column : FormatEngine.Column)
    (v : FormatEngine.Violation) (hv : v ∈ FormatEngine.textLengthViolations index column) :
    v = FormatEngine.Violation.textLength index := by
  unfold FormatEngine.textLengthViolations at hv
  repeat' split at hv
  all_goals simp at hv
  exact hv

theorem mem_numberRangeViolations (index : Nat) (column : FormatEngine.Column)
    (v : FormatEngine.Violation) (hv : v ∈ FormatEngine.numberRangeViolations index column) :
    v = FormatEngine.Violation.numberRange index := by
  unfold FormatEngine.numberRangeViolations at hv
  repeat' split at hv
  all_goals simp at hv
  exact hv

theorem filter_textLengthViolations (index : Nat) (column : FormatEngine.Column)
    (p : FormatEngine.Violation → Bool) (hp : p (FormatEngine.Violation.textLength index) = false) :
    (FormatEngine.textLengthViolations index column).filter p = [] := by
  rw [List.filter_eq_nil_iff]
  intro v hv
  rw [mem_textLengthViolations index column v hv, hp]
  simp

theorem filter_numberRangeViolations (index : Nat) (column : FormatEngine.Column)
    (p : FormatEngine.Violation → Bool)
    (hp : p (FormatEngine.Violation.numberRange index) = false) :
    (FormatEngine.numberRangeViolations index column).filter p = [] := by
  rw [List.filter_eq_nil_iff]
  intro v hv
  rw [mem_numberRangeViolations index column v hv, hp]
  simp

theorem filter_ite_singleton {α : Type} (c : Prop) [Decidable c] (p : α → Bool) (x : α) :
    (if c then [x] else []).filter p = if c ∧ p x = true then [x] else [] := by
  by_cases hc : c <;> by_cases hp : p x = true <;> simp [hc, hp]

/-- The name violations of one column. -/
theorem columnViolations_name (index : Nat) (column : FormatEngine.Column) :
    (FormatEngine.columnViolations index column).filter FormatEngine.Violation.isName =
      if FormatEngine.nameOffending column then [FormatEngine.Violation.nameEmpty index]
      else [] := by
  simp only [FormatEngine.columnViolations, List.filter_append, filter_ite_singleton,
    filter_textLengthViolations index column FormatEngine.Violation.isName rfl,
    filter_numberRangeViolations index column FormatEngine.Violation.isName rfl,
    FormatEngine.nameOffending, FormatEngine.Violation.isName]
  rcases column with ⟨name, format, config⟩
  cases name <;> simp [Value.truthy, Value.isString]

/-- A column whose format is missing or is a string outside the supported
formats has exactly one format violation. -/
theorem columnViolations_format_offending (index : Nat) (column : FormatEngine.Column)
    (h : FormatEngine.formatOffending column = true) :
    (FormatEngine.columnViolations index column).filter FormatEngine.Violation.isFormat =
      [if column.format.truthy then FormatEngine.Violation.formatUnsupported index column.format
       else FormatEngine.Violation.formatMissing index] := by
  simp only [FormatEngine.columnViolations, List.filter_append, filter_ite_singleton,
    filter_textLengthViolations index column FormatEngine.Violation.isFormat rfl,
    filter_numberRangeViolations index column FormatEngine.Violation.isFormat rfl,
    FormatEngine.Violation.isFormat]
  rcases column with ⟨name, format, config⟩
  cases format <;>
    simp_all [Value.truthy, Value.isString, FormatEngine.formatOffending,
      FormatEngine.isSupportedFormat]
  rename_i s
  by_cases hs : s = [] <;> simp [hs]

/-- A column with a supported format has no format violation. -/
theorem columnViolations_format_supported (index : Nat) (column : FormatEngine.Column)
    (h : FormatEngine.isSupportedFormat column.format = true) :
    (FormatEngine.columnViolations index column).filter FormatEngine.Violation.isFormat = [] := by
  simp only [FormatEngine.columnViolations, List.filter_append, filter_ite_singleton,
    filter_textLengthViolations index column FormatEngine.Violation.isFormat rfl,
    filter_numberRangeViolations index column FormatEngine.Violation.isFormat rfl,
    FormatEngine.Violation.isFormat]
  rcases column with ⟨name, format, config⟩
  cases format <;>
    simp_all [Value.truthy, Value.isString, FormatEngine.isSupportedFormat]
  intro hs
  rw [hs] at h
  exact absurd h (by decide)

/-- No violation pushed for a column is the row-count violation. -/
theorem rowsOutOfRange_not_mem_columnViolations (index : Nat) (column : FormatEngine.Column) :
    FormatEngine.Violation.rowsOutOfRange ∉ FormatEngine.columnViolations index column := by
  intro h
  simp only [FormatEngine.columnViolations, List.mem_append] at h
  rcases h with (((h | h) | h) | h) | h
  · split at h <;> simp at h
  · split at h <;> simp at h
  · split at h <;> simp at h
  · exact absurd (mem_textLengthViolations index column _ h) (by simp)
  · exact absurd (mem_numberRangeViolations index column _ h) (by simp)

/-- The row-count violation never comes from `validateColumnConfig`. -/
theorem rowsOutOfRange_not_mem_validateColumnConfig (columns : FormatEngine.Columns) :
    FormatEngine.Violation.rowsOutOfRange ∉ FormatEngine.validateColumnConfig columns := by
  intro h
  cases columns with
  | missing => simp [FormatEngine.validateColumnConfig] at h
  | nonArray => simp [FormatEngine.validateColumnConfig] at h
  | array cols =>
    cases cols with
    | nil => simp [FormatEngine.validateColumnConfig] at h
    | cons column rest =>
      simp only [FormatEngine.validateColumnConfig, validateColumnsLoop_eq, List.nil_append,
        List.mem_flatMap] at h
      obtain ⟨p, _, hp⟩ := h
      exact rowsOutOfRange_not_mem_columnViolations p.1 p.2 hp

/-- Over any list of indexed columns, the name violations are one per
column with an offending name, in the order of the list. -/
theorem filter_isName_flatMap (l : List (Nat × FormatEngine.Column)) :
    (l.flatMap (fun p => FormatEngine.columnViolations p.1 p.2)).filter
        FormatEngine.Violation.isName =
      (l.filter (fun p => FormatEngine.nameOffending p.2)).map
        (fun p => FormatEngine.Violation.nameEmpty p.1) := by
  induction l with
  | nil => rfl
  | cons p rest ih =>
    simp only [List.flatMap_cons, List.filter_append, columnViolations_name, ih]
    by_cases hp : FormatEngine.nameOffending p.2 = true
    · simp [hp, List.filter_cons]
    · simp [hp, List.filter_cons]

/-- Over any list of indexed columns whose formats are each either offending
(missing or an unsupported string) or supported, the format violations are
one per column with an offending format, in the order of the list. -/
theorem filter_isFormat_flatMap (l : List (Nat × FormatEngine.Column))
    (hl : ∀ p ∈ l, FormatEngine.formatOffending p.2 = true ∨
      FormatEngine.isSupportedFormat p.2.format = true) :
    (l.flatMap (fun p => FormatEngine.columnViolations p.1 p.2)).filter
        FormatEngine.Violation.isFormat =
      (l.filter (fun p => FormatEngine.formatOffending p.2)).map
        (fun p => if p.2.format.truthy then
            FormatEngine.Violation.formatUnsupported p.1 p.2.format
          else FormatEngine.Violation.formatMissing p.1) := by
  induction l with
  | nil => rfl
  | cons p rest ih =>
    have ih2 := ih (fun q hq => hl q (List.mem_cons_of_mem p hq))
    simp only [List.flatMap_cons, List.filter_append, ih2]
    rcases hl p (List.mem_cons_self p rest) with hp | hp
    · rw [columnViolations_format_offending p.1 p.2 hp]
      simp [hp, List.filter_cons]
    · rw [columnViolations_format_supported p.1 p.2 hp]
      have hno : FormatEngine.formatOffending p.2 = false := by
        rcases p with ⟨i, name, format, config⟩
        cases format <;>
          simp_all [FormatEngine.formatOffending, FormatEngine.isSupportedFormat]
      simp [hno, List.filter_cons]

/-- C7: validation is exhaustive.  For `rows = 0` and an empty columns list
`validateConfig` returns two violations, the row-count violation and the
no-columns violation, whose messages are distinct; the same holds when the
`columns` key is absent. -/
theorem validateConfig_exhaustive :
    FormatEngine.validateConfig { rows := 0, columns := .array [] } =
        [FormatEngine.Violation.rowsOutOfRange, FormatEngine.Violation.noColumns] ∧
      (FormatEngine.validateConfig { rows := 0, columns := .array [] }).map
          FormatEngine.Violation.message =
        ["行数必须在1-1000000之间".toList, "至少需要配置一列".toList] ∧
      "行数必须在1-1000000之间".toList ≠ "至少需要配置一列".toList ∧
      2 ≤ (FormatEngine.validateConfig { rows := 0, columns := .array [] }).length ∧
      (FormatEngine.validateConfig { rows := 0, columns := .missing }).map
          FormatEngine.Violation.message =
        ["行数必须在1-1000000之间".toList, "必须配置列信息".toList] := by
  decide

/-- C8: for every non-empty column list, `validateColumnConfig` returns the
violations of the columns one column after the other, in column order; among
them there is one name violation for each column whose name is missing,
empty or not a string, and, per column, exactly one format violation when
the format is missing or is a string outside the twelve supported formats,
and none when the format is supported.  Nothing stops at the first offending
column. -/
theorem validateColumnConfig_reports (cols : List FormatEngine.Column) (hne : cols ≠ []) :
    FormatEngine.validateColumnConfig (.array cols) =
        cols.enum.flatMap (fun p => FormatEngine.columnViolations p.1 p.2) ∧
      (FormatEngine.validateColumnConfig (.array cols)).filter FormatEngine.Violation.isName =
        (cols.enum.filter (fun p => FormatEngine.nameOffending p.2)).map
          (fun p => FormatEngine.Violation.nameEmpty p.1) ∧
      ((∀ column ∈ cols, FormatEngine.formatOffending column = true ∨
          FormatEngine.isSupportedFormat column.format = true) →
        (FormatEngine.validateColumnConfig (.array cols)).filter
            FormatEngine.Violation.isFormat =
          (cols.enum.filter (fun p => FormatEngine.formatOffending p.2)).map
            (fun p => if p.2.format.truthy then
                FormatEngine.Violation.formatUnsupported p.1 p.2.format
              else FormatEngine.Violation.formatMissing p.1)) ∧
      (∀ index column,
        (FormatEngine.formatOffending column = true →
          ((FormatEngine.columnViolations index column).filter
            FormatEngine.Violation.isFormat).length = 1) ∧
        (FormatEngine.isSupportedFormat column.format = true →
          (FormatEngine.columnViolations index column).filter
            FormatEngine.Violation.isFormat = []) ∧
        (FormatEngine.nameOffending column = false →
          (FormatEngine.columnViolations index column).filter
            FormatEngine.Violation.isName = [])) := by
  have hloop : FormatEngine.validateColumnConfig (.array cols) =
      cols.enum.flatMap (fun p => FormatEngine.columnViolations p.1 p.2) := by
    cases cols with
    | nil => exact absurd rfl hne
    | cons column rest =>
      simp only [FormatEngine.validateColumnConfig, validateColumnsLoop_eq, List.nil_append]
      rfl
  refine ⟨hloop, ?_, ?_, ?_⟩
  · rw [hloop, filter_isName_flatMap]
  · intro hall
    rw [hloop]
    apply filter_isFormat_flatMap
    intro p hp
    exact hall p.2 (List.snd_mem_of_mem_enumFrom hp)
  · intro index column
    refine ⟨?_, columnViolations_format_supported index column, ?_⟩
    · intro h
      rw [columnViolations_format_offending index column h]
      rfl
    · intro h
      rw [columnViolations_name, h]
      rfl

/-- Witness of C8 on three columns: the first without a name and without a
format, the second with the unsupported format `invalid_format`, the third
valid.  All three violations of the first two columns are reported. -/
theorem validateColumnConfig_reports_witness :
    ([{}, { name := .str "Test".toList, format := .str "invalid_format".toList },
      { name := .str "Ok".toList, format := .str "text".toList }] :
        List FormatEngine.Column) ≠ [] ∧
      FormatEngine.validateColumnConfig
          (.array [{}, { name := .str "Test".toList, format := .str "invalid_format".toList },
            { name := .str "Ok".toList, format := .str "text".toList }]) =
        [FormatEngine.Violation.nameEmpty 0, FormatEngine.Violation.formatMissing 0,
         FormatEngine.Violation.formatUnsupported 1 (.str "invalid_format".toList)] :=
  ⟨by decide,
    (validateColumnConfig_reports
      [{}, { name := .str "Test".toList, format := .str "invalid_format".toList },
        { name := .str "Ok".toList, format := .str "text".toList }] (by decide)).1.trans
      (by decide)⟩

/-- C9: for every integer `rows` and whatever the columns are,
`validateConfig` includes the row-count violation exactly when `rows` is
outside `[1, 1000000]`; `rows = 0` with a valid text column is rejected with
that violation, and `rows = 5` with one valid text column yields no
violation. -/
theorem validateConfig_rows_range (rows : Int) (columns : FormatEngine.Columns) :
    (FormatEngine.Violation.rowsOutOfRange ∈
        FormatEngine.validateConfig { rows := rows, columns := columns } ↔
      ¬ (1 ≤ rows ∧ rows ≤ 1000000)) ∧
    FormatEngine.validateConfig
        { rows := 0
          columns := .array [{ name := .str "Test".toList, format := .str "text".toList }] } =
      [FormatEngine.Violation.rowsOutOfRange] ∧
    FormatEngine.validateConfig
        { rows := 5
          columns := .array [{ name := .str "Test".toList, format := .str "text".toList }] } =
      [] := by
  refine ⟨?_, by decide, by decide⟩
  have hcols : FormatEngine.Violation.rowsOutOfRange ∉
      (match columns with
       | .missing => [FormatEngine.Violation.columnsMissing]
       | columns => FormatEngine.validateColumnConfig columns) := by
    cases columns with
    | missing => simp
    | nonArray => exact rowsOutOfRange_not_mem_validateColumnConfig _
    | array cols => exact rowsOutOfRange_not_mem_validateColumnConfig _
  simp only [FormatEngine.validateConfig, List.mem_append, hcols, or_false]
  by_cases h : rows = 0 ∨ rows < 1 ∨ rows > 1000000
  · simp only [h, if_true, List.mem_singleton, true_iff]
    omega
  · simp only [h, if_false, List.not_mem_nil, false_iff, not_not]
    omega

/-- For a text column whose configured length is a non-zero integer, the
text-length block reports the violation exactly when the length is outside
`[1, 10000]`. -/
theorem textLengthViolations_nonzero (index : Nat) (name : Value) (length : Int)
    (min max : Option Int) (h : length ≠ 0) :
    FormatEngine.textLengthViolations index
        { name := name, format := .str "text".toList,
          config := some { length := some length, min := min, max := max } } =
      if length < 1 ∨ length > 10000 then [FormatEngine.Violation.textLength index] else [] := by
  simp [FormatEngine.textLengthViolations, h]

/-- C10 (failing input): a text column with the configured length 0.  The
truthiness guard `column.config.length` skips the range test, so
`validateColumnConfig` reports no violation and a config with this column is
accepted, although 0 is outside `[1, 10000]`; the lengths -1 and 10001 are
reported. -/
theorem validateColumnConfig_text_length_zero :
    FormatEngine.validateColumnConfig
        (.array [{ name := .str "T".toList, format := .str "text".toList,
                   config := some { length := some 0 } }]) = [] ∧
    FormatEngine.validateConfig
        { rows := 5
          columns := .array [{ name := .str "T".toList, format := .str "text".toList,
                               config := some { length := some 0 } }] } = [] ∧
    FormatEngine.validateColumnConfig
        (.array [{ name := .str "T".toList, format := .str "text".toList,
                   config := some { length := some (-1) } }]) =
      [FormatEngine.Violation.textLength 0] ∧
    FormatEngine.validateColumnConfig
        (.array [{ name := .str "T".toList, format := .str "text".toList,
                   config := some { length := some 10001 } }]) =
      [FormatEngine.Violation.textLength 0] ∧
    (FormatEngine.Violation.textLength 0).message = "第1列：文本长度必须在1-10000之间".toList := by
  decide


/-! ## Rounding to a double -/

theorem roundHalfEven_intCast (z : Int) : roundHalfEven (z : ℚ) = z := by
  simp [roundHalfEven]

/-- Rounding to the nearest integer is monotone. -/
theorem roundHalfEven_mono {x y : ℚ} (h : x ≤ y) : roundHalfEven x ≤ roundHalfEven y := by
  have hfx := Int.floor_le x
  have hfx2 := Int.lt_floor_add_one x
  have hfy := Int.floor_le y
  have hfy2 := Int.lt_floor_add_one y
  have hxy : ⌊x⌋ ≤ ⌊y⌋ := Int.floor_le_floor h
  have hx1 : roundHalfEven x ≤ ⌊x⌋ + 1 := by
    unfold roundHalfEven; simp only; split_ifs <;> omega
  have hy0 : ⌊y⌋ ≤ roundHalfEven y := by
    unfold roundHalfEven; simp only; split_ifs <;> omega
  rcases lt_or_eq_of_le hxy with hlt | heq
  · omega
  · unfold roundHalfEven
    simp only [heq]
    split_ifs <;> first | omega | (exfalso; linarith)

/-- The binary exponent of a rational between two consecutive powers of two. -/
theorem intLog_eq {x : ℚ} (e : Int) (hlo : (2 : ℚ) ^ e ≤ x) (hhi : x < (2 : ℚ) ^ (e + 1)) :
    Int.log 2 x = e := by
  have hpos : 0 < x := lt_of_lt_of_le (by positivity) hlo
  have h1 : e ≤ Int.log 2 x := (Int.zpow_le_iff_le_log (by norm_num) hpos).mp (by exact_mod_cast hlo)
  have h2 : Int.log 2 x < e + 1 := (Int.lt_zpow_iff_log_lt (by norm_num) hpos).mp (by exact_mod_cast hhi)
  omega

/-- Rounding to a grid `2 ^ s` is monotone. -/
theorem gridRound_mono (s : Int) {x y : ℚ} (h : x ≤ y) :
    (roundHalfEven (x / (2 : ℚ) ^ s) : ℚ) * (2 : ℚ) ^ s ≤
      (roundHalfEven (y / (2 : ℚ) ^ s) : ℚ) * (2 : ℚ) ^ s := by
  have hpos : (0 : ℚ) < (2 : ℚ) ^ s := by positivity
  have hdiv : x / (2 : ℚ) ^ s ≤ y / (2 : ℚ) ^ s := div_le_div_of_nonneg_right h hpos.le
  have := roundHalfEven_mono hdiv
  have hc : (roundHalfEven (x / (2 : ℚ) ^ s) : ℚ) ≤ (roundHalfEven (y / (2 : ℚ) ^ s) : ℚ) := by
    exact_mod_cast this
  exact mul_le_mul_of_nonneg_right hc hpos.le

/-- A point of the grid `2 ^ s` is its own rounding. -/
theorem gridRound_fix (s : Int) (z : Int) :
    (roundHalfEven ((z : ℚ) * (2 : ℚ) ^ s / (2 : ℚ) ^ s) : ℚ) * (2 : ℚ) ^ s =
      (z : ℚ) * (2 : ℚ) ^ s := by
  have hpos : (0 : ℚ) < (2 : ℚ) ^ s := by positivity
  rw [mul_div_assoc, div_self (ne_of_gt hpos), mul_one, roundHalfEven_intCast]

/-- A power of two `2 ^ e` is a point of every grid `2 ^ s` with `s <= e`. -/
theorem gridRound_pow (s e : Int) (h : s ≤ e) :
    (roundHalfEven ((2 : ℚ) ^ e / (2 : ℚ) ^ s) : ℚ) * (2 : ℚ) ^ s = (2 : ℚ) ^ e := by
  have hsplit : (2 : ℚ) ^ e = (((2 : Int) ^ (e - s).toNat : Int) : ℚ) * (2 : ℚ) ^ s := by
    have he : e = ((e - s).toNat : Int) + s := by omega
    conv_lhs => rw [he]
    rw [zpow_add₀ (by norm_num : (2 : ℚ) ≠ 0)]
    push_cast
    rw [zpow_natCast]
  rw [hsplit]
  exact gridRound_fix s _

/-- The exponent of the unit in the last place is monotone on positive numbers. -/
theorem doubleScale_mono {x y : ℚ} (hx : 0 < x) (h : x ≤ y) : doubleScale x ≤ doubleScale y := by
  unfold doubleScale
  have hy : 0 < y := lt_of_lt_of_le hx h
  rw [abs_of_pos hx, abs_of_pos hy]
  have := Int.log_mono_right (b := 2) hx h
  omega

/-- Rounding to a double is monotone on positive numbers. -/
theorem toDouble_mono {x y : ℚ} (hx : 0 < x) (h : x ≤ y) : toDouble x ≤ toDouble y := by
  have hy : 0 < y := lt_of_lt_of_le hx h
  unfold toDouble
  rw [if_neg (ne_of_gt hx), if_neg (ne_of_gt hy)]
  rcases lt_or_eq_of_le (doubleScale_mono hx h) with hlt | heq
  · have hsy : doubleScale y = Int.log 2 y - 52 := by
      have hge : -1074 ≤ doubleScale x := by unfold doubleScale; omega
      unfold doubleScale at hlt ⊢
      rw [abs_of_pos hy] at hlt ⊢
      omega
    have hsx : Int.log 2 x - 52 ≤ doubleScale x := by
      unfold doubleScale
      rw [abs_of_pos hx]
      omega
    have hxc : x ≤ (2 : ℚ) ^ (Int.log 2 y) := by
      have h1 : x < (2 : ℚ) ^ (Int.log 2 x + 1) := by
        have := Int.lt_zpow_succ_log_self (b := 2) (by norm_num) x
        exact_mod_cast this
      have h2 : (2 : ℚ) ^ (Int.log 2 x + 1) ≤ (2 : ℚ) ^ (Int.log 2 y) :=
        zpow_le_zpow_right₀ (by norm_num) (by omega)
      exact (h1.trans_le h2).le
    have hcy : (2 : ℚ) ^ (Int.log 2 y) ≤ y := by
      have := Int.zpow_log_le_self (b := 2) (by norm_num) hy
      exact_mod_cast this
    calc (roundHalfEven (x / (2 : ℚ) ^ doubleScale x) : ℚ) * (2 : ℚ) ^ doubleScale x
        ≤ (roundHalfEven ((2 : ℚ) ^ (Int.log 2 y) / (2 : ℚ) ^ doubleScale x) : ℚ) *
            (2 : ℚ) ^ doubleScale x := gridRound_mono _ hxc
      _ = (2 : ℚ) ^ (Int.log 2 y) := gridRound_pow _ _ (by omega)
      _ = (roundHalfEven ((2 : ℚ) ^ (Int.log 2 y) / (2 : ℚ) ^ doubleScale y) : ℚ) *
            (2 : ℚ) ^ doubleScale y := (gridRound_pow _ _ (by omega)).symm
      _ ≤ _ := gridRound_mono _ hcy
  · rw [heq]
    exact gridRound_mono _ h

/-- The double nearest to a non-negative number is non-negative. -/
theorem toDouble_nonneg {x : ℚ} (hx : 0 ≤ x) : 0 ≤ toDouble x := by
  unfold toDouble
  split_ifs with h0
  · exact le_refl _
  · have hpos : (0 : ℚ) < (2 : ℚ) ^ doubleScale x := by positivity
    have hdiv : (0 : ℚ) ≤ x / (2 : ℚ) ^ doubleScale x := div_nonneg hx hpos.le
    have h1 : roundHalfEven ((0 : Int) : ℚ) ≤ roundHalfEven (x / (2 : ℚ) ^ doubleScale x) :=
      roundHalfEven_mono (by simpa using hdiv)
    rw [roundHalfEven_intCast] at h1
    have : (0 : ℚ) ≤ (roundHalfEven (x / (2 : ℚ) ^ doubleScale x) : ℚ) := by exact_mod_cast h1
    exact mul_nonneg this hpos.le

/-- The exponent of the unit in the last place in the normal range. -/
theorem doubleScale_eq {x : ℚ} (e : Int) (hlo : (2 : ℚ) ^ e ≤ x) (hhi : x < (2 : ℚ) ^ (e + 1))
    (he : -1022 ≤ e) : doubleScale x = e - 52 := by
  have hpos : 0 < x := lt_of_lt_of_le (by positivity) hlo
  unfold doubleScale
  rw [abs_of_pos hpos, intLog_eq e hlo hhi]
  omega

/-- The number 1 is a double. -/
theorem toDouble_one : toDouble 1 = 1 := by
  have hs : doubleScale 1 = -52 := (doubleScale_eq 0 (by norm_num) (by norm_num) (by norm_num)).trans (by norm_num)
  unfold toDouble
  rw [if_neg one_ne_zero, hs]
  have := gridRound_pow (-52) 0 (by norm_num)
  simpa using this

/-- The number 100 is a double. -/
theorem toDouble_hundred : toDouble 100 = 100 := by
  have hs : doubleScale 100 = -46 := (doubleScale_eq 6 (by norm_num) (by norm_num) (by norm_num)).trans (by norm_num)
  unfold toDouble
  rw [if_neg (by norm_num), hs]
  have := gridRound_fix (-46) (100 * 2 ^ 46)
  have h2 : (((100 * 2 ^ 46 : Int) : ℚ)) * (2 : ℚ) ^ (-46 : Int) = 100 := by
    norm_num
  rw [h2] at this
  exact this

/-- The function `Math.round` is monotone. -/
theorem mathRound_mono {x y : ℚ} (h : x ≤ y) : mathRound x ≤ mathRound y := by
  unfold mathRound
  exact Int.floor_le_floor (by linarith)

/-- The progress percentage is monotone in the number of processed records. -/
theorem progressPercent_mono (n p q : Int) (hn : 0 < n) (hp : 0 < p) (hpq : p ≤ q) :
    FormatEngine.progressPercent p n ≤ FormatEngine.progressPercent q n := by
  have hn2 : (0 : ℚ) < (n : ℚ) := by exact_mod_cast hn
  have hp2 : (0 : ℚ) < (p : ℚ) := by exact_mod_cast hp
  have hpq2 : (p : ℚ) ≤ (q : ℚ) := by exact_mod_cast hpq
  have h1 : (0 : ℚ) < (p : ℚ) / (n : ℚ) := div_pos hp2 hn2
  have h2 : (p : ℚ) / (n : ℚ) ≤ (q : ℚ) / (n : ℚ) := div_le_div_of_nonneg_right hpq2 hn2.le
  have h3 : toDouble ((p : ℚ) / (n : ℚ)) ≤ toDouble ((q : ℚ) / (n : ℚ)) := toDouble_mono h1 h2
  have h4 : 0 ≤ toDouble ((p : ℚ) / (n : ℚ)) := toDouble_nonneg h1.le
  unfold FormatEngine.progressPercent
  apply mathRound_mono
  rcases eq_or_lt_of_le h4 with h0 | hpos
  · rw [← h0]
    have : toDouble (0 * 100) = 0 := by simp [toDouble]
    rw [this]
    exact toDouble_nonneg (mul_nonneg (toDouble_nonneg (h1.le.trans h2)) (by norm_num))
  · exact toDouble_mono (by positivity) (by linarith)

/-- The progress percentage of a completed run is 100. -/
theorem progressPercent_self (n : Int) (hn : 0 < n) : FormatEngine.progressPercent n n = 100 := by
  have hn2 : (n : ℚ) ≠ 0 := by exact_mod_cast (ne_of_gt hn)
  unfold FormatEngine.progressPercent
  rw [div_self hn2, toDouble_one, one_mul, toDouble_hundred]
  unfold mathRound
  rw [Int.floor_eq_iff]
  norm_num

/-- The progress percentage is non-negative. -/
theorem progressPercent_nonneg (n p : Int) (hn : 0 < n) (hp : 0 ≤ p) :
    0 ≤ FormatEngine.progressPercent p n := by
  have hn2 : (0 : ℚ) < (n : ℚ) := by exact_mod_cast hn
  have hp2 : (0 : ℚ) ≤ (p : ℚ) := by exact_mod_cast hp
  unfold FormatEngine.progressPercent mathRound
  apply Int.floor_nonneg.mpr
  have := toDouble_nonneg (mul_nonneg (toDouble_nonneg (div_nonneg hp2 hn2.le)) (by norm_num : (0:ℚ) ≤ 100))
  linarith

/-- The rounding of a number less than one half above an integer. -/
theorem roundHalfEven_eq (q : ℚ) (f : Int) (hlo : (f : ℚ) ≤ q) (hhi : q < (f : ℚ) + 1 / 2) :
    roundHalfEven q = f := by
  have hf : ⌊q⌋ = f := by
    rw [Int.floor_eq_iff]
    constructor
    · exact hlo
    · linarith
  unfold roundHalfEven
  simp only [hf]
  rw [if_pos (by linarith)]

/-- The progress percentage of 2300 records out of 4000 is 57 in double arithmetic. -/
theorem progressPercent_2300_4000 : FormatEngine.progressPercent 2300 4000 = 57 := by
  have hs1 : doubleScale ((2300 : ℚ) / 4000) = -53 :=
    (doubleScale_eq (-1) (by norm_num) (by norm_num) (by norm_num)).trans (by norm_num)
  have hr1 : roundHalfEven ((2300 : ℚ) / 4000 / (2 : ℚ) ^ (-53 : Int)) = 5179139571476070 :=
    roundHalfEven_eq _ _ (by norm_num) (by norm_num)
  have h1 : toDouble ((2300 : ℚ) / 4000) = 5179139571476070 * (2 : ℚ) ^ (-53 : Int) := by
    unfold toDouble
    rw [if_neg (by norm_num), hs1, hr1]
    norm_num
  have hs2 : doubleScale (5179139571476070 * (2 : ℚ) ^ (-53 : Int) * 100) = -47 :=
    (doubleScale_eq 5 (by norm_num) (by norm_num) (by norm_num)).trans (by norm_num)
  have hr2 : roundHalfEven (5179139571476070 * (2 : ℚ) ^ (-53 : Int) * 100 / (2 : ℚ) ^ (-47 : Int)) =
      8092405580431359 :=
    roundHalfEven_eq _ _ (by norm_num) (by norm_num)
  have h2 : toDouble (5179139571476070 * (2 : ℚ) ^ (-53 : Int) * 100) =
      8092405580431359 * (2 : ℚ) ^ (-47 : Int) := by
    unfold toDouble
    rw [if_neg (by norm_num), hs2, hr2]
    norm_num
  unfold FormatEngine.progressPercent
  push_cast
  rw [h1, h2]
  unfold mathRound
  rw [Int.floor_eq_iff]
  norm_num

/-- A bound on the magnitude bounds the exponent of the unit in the last place. -/
theorem doubleScale_le_of_lt {q : ℚ} (hq : q ≠ 0) (e : Int) (h : |q| < (2 : ℚ) ^ (e + 1)) :
    doubleScale q ≤ max (e - 52) (-1074) := by
  have hpos : 0 < |q| := abs_pos.mpr hq
  have hlog : Int.log 2 |q| < e + 1 :=
    (Int.lt_zpow_iff_log_lt (by norm_num) hpos).mp (by exact_mod_cast h)
  unfold doubleScale
  omega

/-- A multiple of `2 ^ t` is a double when `t` is at least the exponent of its
unit in the last place. -/
theorem toDouble_of_grid (q : ℚ) (z t : Int) (hq : q = (z : ℚ) * (2 : ℚ) ^ t)
    (hs : doubleScale q ≤ t) : toDouble q = q := by
  by_cases h0 : q = 0
  · simp [toDouble, h0]
  · have key : ∀ s : Int, s ≤ t →
        (roundHalfEven (q / (2 : ℚ) ^ s) : ℚ) * (2 : ℚ) ^ s = q := by
      intro s hst
      have hsplit : q = (((z * 2 ^ (t - s).toNat : Int)) : ℚ) * (2 : ℚ) ^ s := by
        have ht : t = ((t - s).toNat : Int) + s := by omega
        conv_lhs => rw [hq, ht]
        rw [zpow_add₀ (by norm_num : (2 : ℚ) ≠ 0)]
        push_cast
        rw [zpow_natCast]
        ring
      conv_lhs => rw [hsplit]
      rw [gridRound_fix]
      exact hsplit.symm
    unfold toDouble
    rw [if_neg h0]
    exact key _ hs

/-- An integer of magnitude below `2 ^ 53` is a double. -/
theorem toDouble_intCast (z : Int) (h : |z| < 2 ^ 53) : toDouble (z : ℚ) = (z : ℚ) := by
  by_cases h0 : (z : ℚ) = 0
  · simp [toDouble, h0]
  · apply toDouble_of_grid (z : ℚ) z 0 (by simp)
    have hq : |(z : ℚ)| < (2 : ℚ) ^ ((52 : Int) + 1) := by
      have : ((|z| : Int) : ℚ) < ((2 ^ 53 : Int) : ℚ) := by exact_mod_cast h
      rw [Int.cast_abs] at this
      norm_num at this ⊢
      exact this
    have := doubleScale_le_of_lt h0 52 hq
    omega

/-- A double below 1 is at most `1 - 2 ^ (-53)`. -/
theorem double_lt_one {r : ℚ} (hd : toDouble r = r) (h1 : r < 1) :
    r ≤ 1 - (2 : ℚ) ^ (-53 : Int) := by
  by_cases hhalf : r < 1 / 2
  · have h53 : (2 : ℚ) ^ (-53 : Int) ≤ 1 / 2 := by norm_num
    generalize (2 : ℚ) ^ (-53 : Int) = c at h53 ⊢
    linarith
  · have hge : (1 : ℚ) / 2 ≤ r := not_lt.mp hhalf
    have hs : doubleScale r = -53 :=
      (doubleScale_eq (-1) (by norm_num; linarith) (by norm_num; exact h1)
        (by norm_num)).trans (by norm_num)
    have hr0 : r ≠ 0 := by linarith
    unfold toDouble at hd
    rw [if_neg hr0, hs] at hd
    have hpos : (0 : ℚ) < (2 : ℚ) ^ (-53 : Int) := by positivity
    have hm : (roundHalfEven (r / (2 : ℚ) ^ (-53 : Int)) : ℚ) < ((2 ^ 53 : Int) : ℚ) := by
      have h2 : (roundHalfEven (r / (2 : ℚ) ^ (-53 : Int)) : ℚ) * (2 : ℚ) ^ (-53 : Int) <
          ((2 ^ 53 : Int) : ℚ) * (2 : ℚ) ^ (-53 : Int) := by
        rw [hd]
        have : ((2 ^ 53 : Int) : ℚ) * (2 : ℚ) ^ (-53 : Int) = 1 := by norm_num
        rw [this]
        exact h1
      exact lt_of_mul_lt_mul_right h2 hpos.le
    have hm2 : roundHalfEven (r / (2 : ℚ) ^ (-53 : Int)) ≤ 2 ^ 53 - 1 := by
      have : roundHalfEven (r / (2 : ℚ) ^ (-53 : Int)) < 2 ^ 53 := by exact_mod_cast hm
      omega
    have hm3 : (roundHalfEven (r / (2 : ℚ) ^ (-53 : Int)) : ℚ) ≤ ((2 ^ 53 - 1 : Int) : ℚ) := by
      exact_mod_cast hm2
    calc r = (roundHalfEven (r / (2 : ℚ) ^ (-53 : Int)) : ℚ) * (2 : ℚ) ^ (-53 : Int) := hd.symm
      _ ≤ ((2 ^ 53 - 1 : Int) : ℚ) * (2 : ℚ) ^ (-53 : Int) :=
          mul_le_mul_of_nonneg_right hm3 hpos.le
      _ = 1 - (2 : ℚ) ^ (-53 : Int) := by norm_num

/-- A rounding that reaches the integer `N` starts from `N - 1/2` at least. -/
theorem roundHalfEven_ge {y : ℚ} {N : Int} (h : N ≤ roundHalfEven y) : (N : ℚ) - 1 / 2 ≤ y := by
  have hfl := Int.floor_le y
  unfold roundHalfEven at h
  simp only at h
  split_ifs at h with h1 h2 h3
  · have : (N : ℚ) ≤ (⌊y⌋ : ℚ) := by exact_mod_cast h
    linarith
  · have : (N : ℚ) ≤ ((⌊y⌋ + 1 : Int) : ℚ) := by exact_mod_cast h
    push_cast at this
    linarith
  · have : (N : ℚ) ≤ (⌊y⌋ : ℚ) := by exact_mod_cast h
    linarith
  · have : (N : ℚ) ≤ ((⌊y⌋ + 1 : Int) : ℚ) := by exact_mod_cast h
    push_cast at this
    linarith

/-- The product of a double of `[0, 1)` and an integer `n` of `[1, 2 ^ 53)`,
rounded to a double, stays below `n`. -/
theorem toDouble_scaled_lt (n : Int) (r : ℚ) (hn1 : 1 ≤ n) (hn2 : n < 2 ^ 53)
    (h0 : 0 ≤ r) (h1 : r ≤ 1 - (2 : ℚ) ^ (-53 : Int)) : toDouble (r * (n : ℚ)) < (n : ℚ) := by
  have hnq : (1 : ℚ) ≤ (n : ℚ) := by exact_mod_cast hn1
  have hnq2 : (n : ℚ) < (2 : ℚ) ^ ((52 : Int) + 1) := by
    have : ((n : Int) : ℚ) < ((2 ^ 53 : Int) : ℚ) := by exact_mod_cast hn2
    norm_num at this ⊢
    exact this
  have hx0 : 0 ≤ r * (n : ℚ) := mul_nonneg h0 (by linarith)
  have hxn : r * (n : ℚ) ≤ (n : ℚ) - (n : ℚ) * (2 : ℚ) ^ (-53 : Int) := by
    have := mul_le_mul_of_nonneg_right h1 (by linarith : (0 : ℚ) ≤ (n : ℚ))
    linarith
  have h53 : (0 : ℚ) < (2 : ℚ) ^ (-53 : Int) := by positivity
  have hxlt : r * (n : ℚ) < (n : ℚ) := by nlinarith
  rcases eq_or_lt_of_le hx0 with hzero | hpos
  · rw [← hzero]
    have : toDouble 0 = 0 := by simp [toDouble]
    rw [this]
    linarith
  · by_contra hcon
    have hge : (n : ℚ) ≤ toDouble (r * (n : ℚ)) := not_lt.mp hcon
    have hne : r * (n : ℚ) ≠ 0 := ne_of_gt hpos
    have habs : |r * (n : ℚ)| = r * (n : ℚ) := abs_of_pos hpos
    have hs0 : doubleScale (r * (n : ℚ)) ≤ 0 := by
      have := doubleScale_le_of_lt hne 52 (by rw [habs]; linarith)
      omega
    have hsdef : doubleScale (r * (n : ℚ)) = Int.log 2 (r * (n : ℚ)) - 52 ∨
        doubleScale (r * (n : ℚ)) = -1074 := by
      unfold doubleScale
      rw [habs]
      omega
    unfold toDouble at hge
    rw [if_neg hne] at hge
    generalize hs : doubleScale (r * (n : ℚ)) = s at hge hs0 hsdef
    have hspos : (0 : ℚ) < (2 : ℚ) ^ s := by positivity
    have hN : (n : ℚ) = (((n * 2 ^ (-s).toNat : Int)) : ℚ) * (2 : ℚ) ^ s := by
      have hz : (0 : Int) = ((-s).toNat : Int) + s := by omega
      have h1' : (2 : ℚ) ^ ((-s).toNat : Int) * (2 : ℚ) ^ s = 1 := by
        rw [← zpow_add₀ (by norm_num : (2 : ℚ) ≠ 0), ← hz, zpow_zero]
      push_cast
      rw [← zpow_natCast, mul_assoc, h1', mul_one]
    have hNle : (n * 2 ^ (-s).toNat : Int) ≤ roundHalfEven (r * (n : ℚ) / (2 : ℚ) ^ s) := by
      have h2 : (((n * 2 ^ (-s).toNat : Int)) : ℚ) * (2 : ℚ) ^ s ≤
          (roundHalfEven (r * (n : ℚ) / (2 : ℚ) ^ s) : ℚ) * (2 : ℚ) ^ s := by
        rw [← hN]
        exact hge
      have h3 := le_of_mul_le_mul_right h2 hspos
      exact_mod_cast h3
    have hy := roundHalfEven_ge hNle
    have hy2 : ((((n * 2 ^ (-s).toNat : Int)) : ℚ) - 1 / 2) * (2 : ℚ) ^ s ≤ r * (n : ℚ) := by
      have := mul_le_mul_of_nonneg_right hy hspos.le
      rwa [div_mul_cancel₀ _ (ne_of_gt hspos)] at this
    rw [sub_mul, ← hN] at hy2
    have hbound : (n : ℚ) * (2 : ℚ) ^ (-53 : Int) ≤ 1 / 2 * (2 : ℚ) ^ s := by
      have key : ∀ a b c d : ℚ, a - d ≤ b → b ≤ a - c → c ≤ d := by
        intro a b c d h1 h2
        linarith
      exact key _ _ _ _ hy2 hxn
    have hbound2 : (n : ℚ) ≤ (2 : ℚ) ^ (s + 52) := by
      have e1 : (2 : ℚ) ^ (s + 52) = (2 : ℚ) ^ s * (2 : ℚ) ^ (52 : Int) :=
        zpow_add₀ (by norm_num) _ _
      have e2 : (2 : ℚ) ^ (-53 : Int) * (2 : ℚ) ^ (53 : Int) = 1 := by norm_num
      have e3 : (2 : ℚ) ^ (53 : Int) = 2 * (2 : ℚ) ^ (52 : Int) := by norm_num
      have hp : (0 : ℚ) < (2 : ℚ) ^ (53 : Int) := by positivity
      have := mul_le_mul_of_nonneg_right hbound hp.le
      rw [e1]
      calc (n : ℚ) = (n : ℚ) * ((2 : ℚ) ^ (-53 : Int) * (2 : ℚ) ^ (53 : Int)) := by
            rw [e2, mul_one]
        _ = (n : ℚ) * (2 : ℚ) ^ (-53 : Int) * (2 : ℚ) ^ (53 : Int) := by ring
        _ ≤ 1 / 2 * (2 : ℚ) ^ s * (2 : ℚ) ^ (53 : Int) := this
        _ = (2 : ℚ) ^ s * (2 : ℚ) ^ (52 : Int) := by rw [e3]; ring
    rcases hsdef with hcase | hcase
    · have hlog : (2 : ℚ) ^ (Int.log 2 (r * (n : ℚ))) ≤ r * (n : ℚ) := by
        have := Int.zpow_log_le_self (b := 2) (by norm_num) hpos
        exact_mod_cast this
      have hexp : s + 52 = Int.log 2 (r * (n : ℚ)) := by omega
      rw [hexp] at hbound2
      linarith
    · rw [hcase] at hbound2
      have : (2 : ℚ) ^ ((-1074 : Int) + 52) < 1 := by
        apply zpow_lt_one_of_neg₀ (by norm_num) (by norm_num)
      linarith

/-- The floor of the rounded product of a double draw of `[0, 1)` and an
integer `n` of `[1, 2 ^ 53)` is an integer of `[0, n - 1]`. -/
theorem mathFloor_toDouble_scale_bounds (r : ℚ) (n : Int) (hd : toDouble r = r) (hr0 : 0 ≤ r)
    (hr1 : r < 1) (hn1 : 1 ≤ n) (hn2 : n < 2 ^ 53) :
    0 ≤ mathFloor (toDouble (r * (n : ℚ))) ∧ mathFloor (toDouble (r * (n : ℚ))) < n := by
  have hnq : (0 : ℚ) ≤ (n : ℚ) := by exact_mod_cast (by omega : (0 : Int) ≤ n)
  constructor
  · exact Int.floor_nonneg.mpr (toDouble_nonneg (mul_nonneg hr0 hnq))
  · apply Int.floor_lt.mpr
    exact toDouble_scaled_lt n r hn1 hn2 hr0 (double_lt_one hd hr1)

/-- Every integer `k` of `[0, n - 1]`, `n <= 2 ^ 52`, is the floor of the
rounded product of `n` and some double draw of `[0, 1)`. -/
theorem mathFloor_toDouble_scale_attained (k n : Int) (hk0 : 0 ≤ k) (hkn : k < n)
    (hn : n ≤ 2 ^ 52) :
    ∃ r : ℚ, toDouble r = r ∧ 0 ≤ r ∧ r < 1 ∧ mathFloor (toDouble (r * (n : ℚ))) = k := by
  have hnpos : (0 : ℚ) < (n : ℚ) := by exact_mod_cast (by omega : (0 : Int) < n)
  have hkq : (0 : ℚ) ≤ (k : ℚ) := by exact_mod_cast hk0
  have hknq : (k : ℚ) + 1 ≤ (n : ℚ) := by exact_mod_cast (by omega : k + 1 ≤ n)
  have hnq : (n : ℚ) ≤ (2 : ℚ) ^ (52 : Int) := by
    have : ((n : Int) : ℚ) ≤ ((2 ^ 52 : Int) : ℚ) := by exact_mod_cast hn
    norm_num at this ⊢
    exact this
  have h53 : (0 : ℚ) < (2 : ℚ) ^ (53 : Int) := by positivity
  have hm53 : (2 : ℚ) ^ (-53 : Int) * (2 : ℚ) ^ (53 : Int) = 1 := by norm_num
  have h5253 : (2 : ℚ) ^ (52 : Int) * (2 : ℚ) ^ (-53 : Int) = 1 / 2 := by norm_num
  -- the target of the draw and its numerator over `2 ^ 53`
  obtain ⟨x, hx⟩ : ∃ x : ℚ, x = ((k : ℚ) + 1 / 2) / (n : ℚ) := ⟨_, rfl⟩
  have hx0 : 0 ≤ x := by
    rw [hx]
    exact div_nonneg (by linarith) hnpos.le
  have hx1 : x < 1 := by
    rw [hx, div_lt_one hnpos]
    linarith
  obtain ⟨m, hm⟩ : ∃ m : Int, m = ⌊x * (2 : ℚ) ^ (53 : Int)⌋ := ⟨_, rfl⟩
  have hmle : (m : ℚ) ≤ x * (2 : ℚ) ^ (53 : Int) := by rw [hm]; exact Int.floor_le _
  have hmgt : x * (2 : ℚ) ^ (53 : Int) < (m : ℚ) + 1 := by
    rw [hm]; exact Int.lt_floor_add_one _
  have hm0 : (0 : ℚ) ≤ (m : ℚ) := by
    have : 0 ≤ m := by rw [hm]; exact Int.floor_nonneg.mpr (mul_nonneg hx0 h53.le)
    exact_mod_cast this
  have hpos53 : (0 : ℚ) < (2 : ℚ) ^ (-53 : Int) := by positivity
  have hrle : (m : ℚ) * (2 : ℚ) ^ (-53 : Int) ≤ x := by
    have := mul_le_mul_of_nonneg_right hmle hpos53.le
    rwa [mul_assoc, mul_comm ((2 : ℚ) ^ (53 : Int)), hm53, mul_one] at this
  have hrgt : x - (2 : ℚ) ^ (-53 : Int) < (m : ℚ) * (2 : ℚ) ^ (-53 : Int) := by
    have := mul_lt_mul_of_pos_right hmgt hpos53
    rw [mul_assoc, mul_comm ((2 : ℚ) ^ (53 : Int)), hm53, mul_one, add_mul, one_mul] at this
    linarith
  have hr0 : 0 ≤ (m : ℚ) * (2 : ℚ) ^ (-53 : Int) := mul_nonneg hm0 hpos53.le
  have hr1 : (m : ℚ) * (2 : ℚ) ^ (-53 : Int) < 1 := lt_of_le_of_lt hrle hx1
  have hxn : x * (n : ℚ) = (k : ℚ) + 1 / 2 := by
    rw [hx, div_mul_cancel₀ _ (ne_of_gt hnpos)]
  -- the draw is a double
  have hdouble : toDouble ((m : ℚ) * (2 : ℚ) ^ (-53 : Int)) = (m : ℚ) * (2 : ℚ) ^ (-53 : Int) := by
    by_cases hz : (m : ℚ) * (2 : ℚ) ^ (-53 : Int) = 0
    · rw [hz]
      simp [toDouble]
    · apply toDouble_of_grid _ m (-53) rfl
      have := doubleScale_le_of_lt hz (-1) (by
        rw [abs_of_nonneg hr0]
        exact lt_of_lt_of_le hr1 (by norm_num))
      omega
  -- the product lies in `(k, k + 1/2]`
  have hprod_le : (m : ℚ) * (2 : ℚ) ^ (-53 : Int) * (n : ℚ) ≤ (k : ℚ) + 1 / 2 := by
    have := mul_le_mul_of_nonneg_right hrle hnpos.le
    rwa [hxn] at this
  have hprod_gt : (k : ℚ) < (m : ℚ) * (2 : ℚ) ^ (-53 : Int) * (n : ℚ) := by
    have h1 := mul_lt_mul_of_pos_right hrgt hnpos
    rw [sub_mul, hxn] at h1
    have h2 : (2 : ℚ) ^ (-53 : Int) * (n : ℚ) ≤ 1 / 2 := by
      have := mul_le_mul_of_nonneg_right hnq hpos53.le
      rw [h5253] at this
      rw [mul_comm]
      exact this
    have key : ∀ a b c : ℚ, a + 1 / 2 - c < b → c ≤ 1 / 2 → a < b := by
      intro a b c h1 h2
      linarith
    exact key _ _ _ h1 h2
  have hprod_pos : 0 < (m : ℚ) * (2 : ℚ) ^ (-53 : Int) * (n : ℚ) := lt_of_le_of_lt hkq hprod_gt
  -- bounds of the rounded product
  have hk1 : k + 1 ≤ 2 ^ 52 := by omega
  have hhalf : toDouble ((k : ℚ) + 1 / 2) = (k : ℚ) + 1 / 2 := by
    apply toDouble_of_grid _ (2 * k + 1) (-1) (by push_cast; norm_num; ring)
    have hne : (k : ℚ) + 1 / 2 ≠ 0 := by linarith
    have hlt : |(k : ℚ) + 1 / 2| < (2 : ℚ) ^ ((51 : Int) + 1) := by
      rw [abs_of_pos (by linarith)]
      have : ((k + 1 : Int) : ℚ) ≤ ((2 ^ 52 : Int) : ℚ) := by exact_mod_cast hk1
      norm_num at this ⊢
      linarith
    have := doubleScale_le_of_lt hne 51 hlt
    omega
  have hupper : toDouble ((m : ℚ) * (2 : ℚ) ^ (-53 : Int) * (n : ℚ)) ≤ (k : ℚ) + 1 / 2 := by
    rw [← hhalf]
    exact toDouble_mono hprod_pos hprod_le
  have hlower : (k : ℚ) ≤ toDouble ((m : ℚ) * (2 : ℚ) ^ (-53 : Int) * (n : ℚ)) := by
    rcases eq_or_lt_of_le hkq with hk | hk
    · rw [← hk]
      exact toDouble_nonneg hprod_pos.le
    · have hkd : toDouble (k : ℚ) = (k : ℚ) :=
        toDouble_intCast k (by rw [abs_of_nonneg hk0]; omega)
      rw [← hkd]
      exact toDouble_mono hk hprod_gt.le
  refine ⟨(m : ℚ) * (2 : ℚ) ^ (-53 : Int), hdouble, hr0, hr1, ?_⟩
  unfold mathFloor
  rw [Int.floor_eq_iff]
  constructor
  · exact hlower
  · exact lt_of_le_of_lt hupper (by norm_num)

/-! ## Integer generators -/

/-- A draw in `[0, 1)` scaled by a positive integer `n` and floored lies in
`[0, n - 1]`. -/
theorem mathFloor_scale_bounds (r : ℚ) (n : Int) (hr0 : 0 ≤ r) (hr1 : r < 1) (hn : 0 < n) :
    0 ≤ mathFloor (r * (n : ℚ)) ∧ mathFloor (r * (n : ℚ)) < n := by
  have hnq : (0 : ℚ) < (n : ℚ) := by exact_mod_cast hn
  constructor
  · exact Int.floor_nonneg.mpr (mul_nonneg hr0 hnq.le)
  · apply Int.floor_lt.mpr
    calc r * (n : ℚ) < 1 * (n : ℚ) := mul_lt_mul_of_pos_right hr1 hnq
      _ = (n : ℚ) := one_mul _

/-- Every integer `k` of `[0, n - 1]` is the floor of `r * n` for the draw
`r = k / n` of `[0, 1)`. -/
theorem mathFloor_scale_attained (k n : Int) (hk0 : 0 ≤ k) (hkn : k < n) :
    0 ≤ ((k : ℚ) / n) ∧ ((k : ℚ) / n) < 1 ∧ mathFloor (((k : ℚ) / n) * (n : ℚ)) = k := by
  have hn : (0 : ℚ) < (n : ℚ) := by exact_mod_cast (lt_of_le_of_lt hk0 hkn)
  have hk : (0 : ℚ) ≤ (k : ℚ) := by exact_mod_cast hk0
  refine ⟨div_nonneg hk hn.le, ?_, ?_⟩
  · rw [div_lt_one hn]
    exact_mod_cast hkn
  · rw [div_mul_cancel₀ _ hn.ne']
    exact Int.floor_intCast k

/-- The value of the `integer` branch of `generateNumber` when the width `max -
min + 1` is computed without rounding. -/
theorem generateNumber_integer_eq (min max : Int) (hwidth : |max - min| < 2 ^ 53 - 1)
    (rand : RandomStream) :
    (FormatEngine.generateNumber
      { type := some "integer".toList, min := some min, max := some max } rand).1 =
      .ok (toDouble
        ((mathFloor (toDouble (rand 0 * ((max - min + 1 : Int) : ℚ))) : ℚ) + (min : ℚ))) := by
  have h1 : toDouble ((max : ℚ) - (min : ℚ)) = ((max - min : Int) : ℚ) := by
    have := toDouble_intCast (max - min) (by omega)
    push_cast at this ⊢
    exact this
  have h2 : toDouble (((max - min : Int) : ℚ) + 1) = ((max - min + 1 : Int) : ℚ) := by
    have habs : |max - min + 1| < 2 ^ 53 := by
      rw [abs_lt] at hwidth ⊢
      omega
    have := toDouble_intCast (max - min + 1) habs
    push_cast at this ⊢
    exact this
  have hne1 : ¬ ("integer".toList = "float".toList) := by decide
  have hne2 : ¬ ("integer".toList = "currency".toList) := by decide
  simp only [FormatEngine.generateNumber, Option.getD_some, hne1, hne2, if_false, h1, h2]

/-- For every double draw of `[0, 1)`, `generateNumber` of type `integer`
with `min = 2 ^ 53` and `max = 2 ^ 53 + 2` returns `2 ^ 53` or `2 ^ 53 + 2`:
the sum `floor(r * 3) + min` is rounded to a double. -/
theorem generateNumber_integer_two_values (r : ℚ) (hd : toDouble r = r) (h0 : 0 ≤ r)
    (h1 : r < 1) :
    ∃ v : ℚ,
      (FormatEngine.generateNumber
        { type := some "integer".toList, min := some 9007199254740992,
          max := some 9007199254740994 } (fun _ => r)).1 = .ok v ∧
      v ≠ 9007199254740993 ∧ (v = 9007199254740992 ∨ v = 9007199254740994) := by
  have hb := mathFloor_toDouble_scale_bounds r 3 hd h0 h1 (by norm_num) (by norm_num)
  have hrun := generateNumber_integer_eq 9007199254740992 9007199254740994 (by norm_num)
    (fun _ => r)
  have hw : ((9007199254740994 - 9007199254740992 + 1 : Int) : ℚ) = ((3 : Int) : ℚ) := by
    norm_num
  rw [hw] at hrun
  have hs : ∀ x : ℚ, (2 : ℚ) ^ (53 : Int) ≤ x → x < (2 : ℚ) ^ ((53 : Int) + 1) →
      doubleScale x = 1 := fun x hlo hhi =>
    (doubleScale_eq 53 hlo hhi (by norm_num)).trans (by norm_num)
  have e0 : toDouble (((0 : Int) : ℚ) + ((9007199254740992 : Int) : ℚ)) = 9007199254740992 := by
    have := toDouble_of_grid (((0 : Int) : ℚ) + ((9007199254740992 : Int) : ℚ))
      4503599627370496 1 (by norm_num)
      (le_of_eq (hs _ (by norm_num) (by norm_num)))
    rw [this]
    norm_num
  have e2 : toDouble (((2 : Int) : ℚ) + ((9007199254740992 : Int) : ℚ)) = 9007199254740994 := by
    have := toDouble_of_grid (((2 : Int) : ℚ) + ((9007199254740992 : Int) : ℚ))
      4503599627370497 1 (by norm_num)
      (le_of_eq (hs _ (by norm_num) (by norm_num)))
    rw [this]
    norm_num
  have e1 : toDouble (((1 : Int) : ℚ) + ((9007199254740992 : Int) : ℚ)) = 9007199254740992 := by
    have hne : ((1 : Int) : ℚ) + ((9007199254740992 : Int) : ℚ) ≠ 0 := by norm_num
    have hr : roundHalfEven ((((1 : Int) : ℚ) + ((9007199254740992 : Int) : ℚ)) /
        (2 : ℚ) ^ (1 : Int)) = 4503599627370496 := by
      have hfl : ⌊(((1 : Int) : ℚ) + ((9007199254740992 : Int) : ℚ)) / (2 : ℚ) ^ (1 : Int)⌋ =
          4503599627370496 := by
        rw [Int.floor_eq_iff]
        norm_num
      unfold roundHalfEven
      simp only [hfl]
      rw [if_neg (by norm_num), if_neg (by norm_num), if_pos (by norm_num)]
    unfold toDouble
    rw [if_neg hne, hs _ (by norm_num) (by norm_num), hr]
    norm_num
  obtain ⟨hlo, hhi⟩ := hb
  generalize mathFloor (toDouble (r * ((3 : Int) : ℚ))) = f at hrun hlo hhi
  interval_cases f
  · exact ⟨_, hrun, by rw [e0]; norm_num, Or.inl e0⟩
  · exact ⟨_, hrun, by rw [e1]; norm_num, Or.inl e1⟩
  · exact ⟨_, hrun, by rw [e2]; norm_num, Or.inr e2⟩

/-- Counterexample to C15 as stated: with `min = 2 ^ 53` and `max = 2 ^ 53 + 2`
the integer `2 ^ 53 + 1` of `[min, max]` is returned for no draw of `[0, 1)`
that is a double; every such draw gives `2 ^ 53` or `2 ^ 53 + 2`. -/
theorem generateNumber_integer_beyond_doubles :
    (9007199254740992 : Int) ≤ 9007199254740993 ∧
    (9007199254740993 : Int) ≤ 9007199254740994 ∧
    (¬ ∃ r : ℚ, toDouble r = r ∧ 0 ≤ r ∧ r < 1 ∧
      (FormatEngine.generateNumber
        { type := some "integer".toList, min := some 9007199254740992,
          max := some 9007199254740994 } (fun _ => r)).1 = .ok 9007199254740993) ∧
    ∀ r : ℚ, toDouble r = r → 0 ≤ r → r < 1 →
      ∃ v : ℚ,
        (FormatEngine.generateNumber
          { type := some "integer".toList, min := some 9007199254740992,
            max := some 9007199254740994 } (fun _ => r)).1 = .ok v ∧
        (v = 9007199254740992 ∨ v = 9007199254740994) := by
  refine ⟨by decide, by decide, ?_, ?_⟩
  · rintro ⟨r, hd, h0, h1, hv⟩
    obtain ⟨v, hrun, hne, _⟩ := generateNumber_integer_two_values r hd h0 h1
    rw [hrun] at hv
    simp only [Except.ok.injEq] at hv
    exact hne hv
  · intro r hd h0 h1
    obtain ⟨v, hrun, _, hv⟩ := generateNumber_integer_two_values r hd h0 h1
    exact ⟨v, hrun, hv⟩

/-- C15 (amended): for all integers `min <= max` of magnitude below `2 ^ 51`,
`CSVFormats.generateNumber` with type `integer` returns, for every draw of
`[0, 1)` that is a double, an integer `v` with `min <= v <= max`, and every
integer of `[min, max]` (both endpoints included) is returned for some double
draw of `[0, 1)`. -/
theorem generateNumber_integer_range (min max : Int) (h : min ≤ max)
    (hmin : -(2 ^ 51) < min) (hmax : max < 2 ^ 51) :
    (∀ rand : RandomStream, toDouble (rand 0) = rand 0 → 0 ≤ rand 0 → rand 0 < 1 →
      ∃ v : Int,
        (FormatEngine.generateNumber
          { type := some "integer".toList, min := some min, max := some max } rand).1 =
          .ok (v : ℚ) ∧ min ≤ v ∧ v ≤ max) ∧
    (∀ v : Int, min ≤ v → v ≤ max →
      ∃ rand : RandomStream, toDouble (rand 0) = rand 0 ∧ 0 ≤ rand 0 ∧ rand 0 < 1 ∧
        (FormatEngine.generateNumber
          { type := some "integer".toList, min := some min, max := some max } rand).1 =
          .ok (v : ℚ)) := by
  have hwidth : |max - min| < 2 ^ 53 - 1 := by
    rw [abs_lt]
    omega
  have hexact : ∀ f : Int, 0 ≤ f → f < max - min + 1 →
      toDouble ((f : ℚ) + (min : ℚ)) = ((f + min : Int) : ℚ) := by
    intro f hf0 hf1
    have := toDouble_intCast (f + min) (by rw [abs_lt]; omega)
    push_cast at this ⊢
    exact this
  constructor
  · intro rand hd h0 h1
    obtain ⟨hlo, hhi⟩ := mathFloor_toDouble_scale_bounds (rand 0) (max - min + 1) hd h0 h1
      (by omega) (by omega)
    refine ⟨mathFloor (toDouble (rand 0 * ((max - min + 1 : Int) : ℚ))) + min, ?_,
      by omega, by omega⟩
    rw [generateNumber_integer_eq min max hwidth rand, hexact _ hlo hhi]
  · intro v hv1 hv2
    obtain ⟨r, hd, h0, h1, hfl⟩ := mathFloor_toDouble_scale_attained (v - min) (max - min + 1)
      (by omega) (by omega) (by omega)
    refine ⟨fun _ => r, hd, h0, h1, ?_⟩
    rw [generateNumber_integer_eq min max hwidth (fun _ => r)]
    show Except.ok (toDouble ((mathFloor (toDouble (r * ((max - min + 1 : Int) : ℚ))) : ℚ) +
      (min : ℚ))) = _
    rw [hfl, hexact _ (by omega) (by omega)]
    congr 2
    omega

/-- Witness of C15 (amended) for `min = 1`, `max = 100`. -/
theorem generateNumber_integer_range_witness :
    (1 : Int) ≤ 100 ∧
    (∀ rand : RandomStream, toDouble (rand 0) = rand 0 → 0 ≤ rand 0 → rand 0 < 1 →
      ∃ v : Int,
        (FormatEngine.generateNumber
          { type := some "integer".toList, min := some 1, max := some 100 } rand).1 =
          .ok (v : ℚ) ∧ 1 ≤ v ∧ v ≤ 100) ∧
    (∀ v : Int, 1 ≤ v → v ≤ 100 →
      ∃ rand : RandomStream, toDouble (rand 0) = rand 0 ∧ 0 ≤ rand 0 ∧ rand 0 < 1 ∧
        (FormatEngine.generateNumber
          { type := some "integer".toList, min := some 1, max := some 100 } rand).1 =
          .ok (v : ℚ)) :=
  ⟨by decide, generateNumber_integer_range 1 100 (by decide) (by decide) (by decide)⟩

/-- With `max` non-zero and `min <= max`, the column-based `generateInteger`
returns an integer of `[min, max]` for every draw of `[0, 1)`. -/
theorem generateInteger_nonzero_max (config : ColumnEngine.Column) (min max : Int)
    (hmin : config.min = some min) (hmax : config.max = some max) (hne : max ≠ 0)
    (h : min ≤ max) (rand : RandomStream) (h0 : 0 ≤ rand 0) (h1 : rand 0 < 1) :
    ∃ v : Int, (ColumnEngine.generateInteger config rand).1 = .num v ∧ min ≤ v ∧ v ≤ max := by
  have hcast : ((max : ℚ) - min + 1) = ((max - min + 1 : Int) : ℚ) := by push_cast; ring
  obtain ⟨hlo, hhi⟩ := mathFloor_scale_bounds (rand 0) (max - min + 1) h0 h1 (by omega)
  refine ⟨mathFloor (rand 0 * ((max - min + 1 : Int) : ℚ)) + min, ?_, by omega, by omega⟩
  simp only [ColumnEngine.generateInteger, hmin, hmax, hne, if_false, hcast]

/-- With `min` and `max` absent, the column-based `generateInteger` returns an
integer of `[0, 100]` for every draw of `[0, 1)`. -/
theorem generateInteger_defaults (config : ColumnEngine.Column)
    (hmin : config.min = none) (hmax : config.max = none)
    (rand : RandomStream) (h0 : 0 ≤ rand 0) (h1 : rand 0 < 1) :
    ∃ v : Int, (ColumnEngine.generateInteger config rand).1 = .num v ∧ 0 ≤ v ∧ v ≤ 100 := by
  obtain ⟨hlo, hhi⟩ := mathFloor_scale_bounds (rand 0) 101 h0 h1 (by omega)
  refine ⟨mathFloor (rand 0 * ((101 : Int) : ℚ)) + 0, ?_, by omega, by omega⟩
  simp only [ColumnEngine.generateInteger, hmin, hmax]
  norm_num

/-- C16 (failing input): an integer column with `min: -5, max: 0` and the draw
`0.99`.  The code takes the falsy `max` as absent and uses 100: the value is
`Math.floor(0.99 * 106) - 5 = 99`, above the configured maximum 0. -/
theorem generateInteger_max_zero :
    (ColumnEngine.generateInteger { min := some (-5), max := some 0 } (fun _ => 99 / 100)).1 =
      .num 99 ∧
    ¬ ((99 : Int) ≤ 0) := by
  refine ⟨?_, by decide⟩
  have hfl : mathFloor ((99 / 100 : ℚ) * (((100 : Int) : ℚ) - ((-5 : Int) : ℚ) + 1)) = 104 := by
    rw [mathFloor, Int.floor_eq_iff]
    constructor <;> norm_num
  simp only [ColumnEngine.generateInteger, if_true]
  rw [hfl]
  rfl


/-! ## Validation and the run of the column-based engine -/

/-- C11 (failing input): a column of type `integer` (or `decimal`) with `min:
10, max: 1`.  `validateColumns` tests `min > max` for the type `number`
only: it reports the violation for a `number` column and accepts the
`integer` and the `decimal` column, so the integer column reaches
`generateInteger` with `min > max` (with the draw 0.5 its value is 6). -/
theorem validateColumns_integer_min_gt_max (other : ColumnEngine.CellGenerator) :
    ColumnEngine.validateColumns
        [{ name := .str "N".toList, type := .str "integer".toList, min := some 10,
           max := some 1 }] = .ok [] ∧
    ColumnEngine.validateColumns
        [{ name := .str "N".toList, type := .str "decimal".toList, min := some 10,
           max := some 1 }] = .ok [] ∧
    ColumnEngine.validateColumns
        [{ name := .str "N".toList, type := .str "number".toList, min := some 10,
           max := some 1 }] = .ok [ColumnEngine.Violation.numberRange 0] ∧
    Except.map Prod.fst
        (ColumnEngine.generateCellValue (ColumnEngine.generateCell other)
          { name := .str "N".toList, type := .str "integer".toList, min := some 10,
            max := some 1 } 0 (fun _ => 1 / 2)) = .ok (.num 6) := by
  refine ⟨rfl, rfl, rfl, ?_⟩
  have hfl : mathFloor ((1 / 2 : ℚ) * (((1 : Int) : ℚ) - ((10 : Int) : ℚ) + 1)) = -4 := by
    rw [mathFloor, Int.floor_eq_iff]
    constructor <;> norm_num
  have hgen : (ColumnEngine.generateInteger
      { name := .str "N".toList, type := .str "integer".toList, min := some 10,
        max := some 1 } (fun _ => 1 / 2)).1 = .num 6 := by
    simp only [ColumnEngine.generateInteger]
    rw [if_neg (by decide), hfl]
    rfl
  have hcell : ColumnEngine.generateCellValue (ColumnEngine.generateCell other)
      { name := .str "N".toList, type := .str "integer".toList, min := some 10,
        max := some 1 } 0 (fun _ => 1 / 2) =
      .ok (ColumnEngine.generateInteger
        { name := .str "N".toList, type := .str "integer".toList, min := some 10,
          max := some 1 } (fun _ => 1 / 2)) := rfl
  rw [hcell]
  show Except.ok (ColumnEngine.generateInteger _ _).1 = _
  rw [hgen]

/-- When no generator call throws on the columns, a record is assembled. -/
theorem generateRecord_returns (gen : ColumnEngine.CellGenerator) (i : Int)
    (columns : List ColumnEngine.Column) (row : ColumnEngine.Row) (rand : RandomStream)
    (hgen : ∀ (type : Str) (col : ColumnEngine.Column) (r : RandomStream),
      col ∈ columns → ∃ cell, gen type col r = .ok cell) :
    ∃ record, ColumnEngine.generateRecord gen i columns row rand = .ok record := by
  induction columns generalizing row rand with
  | nil => exact ⟨(row, rand), rfl⟩
  | cons col rest ih =>
    have hcell : ∃ cell, ColumnEngine.generateCellValue gen col i rand = .ok cell := by
      unfold ColumnEngine.generateCellValue
      split
      · split_ifs
        · exact ⟨_, rfl⟩
        · exact hgen _ col rand (List.mem_cons_self _ _)
        · exact ⟨_, rfl⟩
      · exact ⟨_, rfl⟩
    obtain ⟨cell, hc⟩ := hcell
    obtain ⟨record, hr⟩ := ih (row.set col.name.toStr cell.1) cell.2
      (fun type c r hm => hgen type c r (List.mem_cons_of_mem _ hm))
    exact ⟨record, by simp only [ColumnEngine.generateRecord, hc, hr]⟩

/-- The record loop of `generateData`, when it returns, has appended one
record per iteration. -/
theorem generateDataLoop_length (gen : ColumnEngine.CellGenerator)
    (columns : List ColumnEngine.Column) (remaining : Nat) (i : Int)
    (data : List ColumnEngine.Row) (rand : RandomStream)
    (result : List ColumnEngine.Row × RandomStream)
    (h : ColumnEngine.generateDataLoop gen columns remaining i data rand = .ok result) :
    result.1.length = data.length + remaining := by
  induction remaining generalizing i data rand with
  | zero =>
    simp only [ColumnEngine.generateDataLoop, Except.ok.injEq] at h
    rw [← h]
    rfl
  | succ k ih =>
    unfold ColumnEngine.generateDataLoop at h
    cases hr : ColumnEngine.generateRecord gen i columns [] rand with
    | error e => simp [hr] at h
    | ok row =>
      simp only [hr] at h
      rw [ih _ _ _ h, List.length_append, List.length_singleton]
      omega

/-- When no generator call throws on the columns, the record loop returns. -/
theorem generateDataLoop_returns (gen : ColumnEngine.CellGenerator)
    (columns : List ColumnEngine.Column) (remaining : Nat) (i : Int)
    (data : List ColumnEngine.Row) (rand : RandomStream)
    (hgen : ∀ (type : Str) (col : ColumnEngine.Column) (r : RandomStream),
      col ∈ columns → ∃ cell, gen type col r = .ok cell) :
    ∃ result, ColumnEngine.generateDataLoop gen columns remaining i data rand = .ok result := by
  induction remaining generalizing i data rand with
  | zero => exact ⟨(data, rand), rfl⟩
  | succ k ih =>
    obtain ⟨row, hrow⟩ := generateRecord_returns gen i columns [] rand hgen
    obtain ⟨result, hres⟩ := ih (i + 1) (data ++ [row.1]) row.2
    exact ⟨result, by simp only [ColumnEngine.generateDataLoop, hrow, hres]⟩

/-- The number of records of `generateData`, when it returns, is `rowCount`,
or 0 when `rowCount` is negative. -/
theorem generateData_length (gen : ColumnEngine.CellGenerator)
    (columns : List ColumnEngine.Column) (rowCount : Int) (rand : RandomStream)
    (data : List ColumnEngine.Row × RandomStream)
    (h : ColumnEngine.generateData gen columns rowCount rand = .ok data) :
    data.1.length = rowCount.toNat := by
  have := generateDataLoop_length gen columns rowCount.toNat 0 [] rand data h
  simpa using this

/-- With no run in progress and columns that `validateColumns` accepts,
`generateCSV` runs to the end for every `rowCount` for which `generateData`
returns. -/
theorem generateCSV_runs (gen : ColumnEngine.CellGenerator) (self : ColumnEngine.Generator)
    (rowCount : Int) (options : ColumnEngine.Options) (rand : RandomStream)
    (startTime endTime timestamp : Int) (data : List ColumnEngine.Row × RandomStream)
    (hidle : self.isGenerating = false)
    (hvalid : ColumnEngine.validateColumns self.columns = .ok [])
    (hdata : ColumnEngine.generateData gen self.columns rowCount rand = .ok data) :
    ∃ result : ColumnEngine.GeneratedData,
      ColumnEngine.generateCSV gen self rowCount options rand startTime endTime timestamp =
        (.ok result, { self with generatedData := some result, isGenerating := false },
          data.2) ∧
      result.data = data.1 ∧
      result.data.length = rowCount.toNat ∧
      result.csvContent = ColumnEngine.formatAsCSV self.columns result.data options ∧
      result.rowCount = rowCount ∧
      result.columnCount = self.columns.length := by
  refine ⟨{ data := data.1
            csvContent := ColumnEngine.formatAsCSV self.columns data.1 options
            rowCount := rowCount
            columnCount := self.columns.length
            duration := endTime - startTime
            size := ColumnEngine.calculateSize
              (ColumnEngine.formatAsCSV self.columns data.1 options)
            timestamp := timestamp },
    ?_, rfl, generateData_length gen self.columns rowCount rand data hdata, rfl, rfl, rfl⟩
  simp only [ColumnEngine.generateCSV, hidle, hvalid, hdata]
  rfl

/-- C12 (counterexample): with the single valid column `{ name: 'ID', type:
'id', start: 1 }`, `generateCSV(0)` and `generateCSV(-3)` succeed with an
empty list of records and the content `ID` + LF, and `generateCSV(2000000)`
succeeds with 2000000 records: no validation error is raised for a
`rowCount` outside `[1, 1000000]`. -/
theorem generateCSV_rowCount_unchecked :
    (ColumnEngine.generateCSV (fun _ _ r => .ok (.undefined, r))
        { columns := [{ name := .str "ID".toList, type := .str "id".toList, start := some 1 }] }
        0 {} (fun _ => 0) 0 1 2).1 =
      .ok { data := [], csvContent := "ID\n".toList, rowCount := 0, columnCount := 1,
            duration := 1, size := "3B".toList, timestamp := 2 } ∧
    (ColumnEngine.generateCSV (fun _ _ r => .ok (.undefined, r))
        { columns := [{ name := .str "ID".toList, type := .str "id".toList, start := some 1 }] }
        (-3) {} (fun _ => 0) 0 1 2).1 =
      .ok { data := [], csvContent := "ID\n".toList, rowCount := -3, columnCount := 1,
            duration := 1, size := "3B".toList, timestamp := 2 } ∧
    ∃ result : ColumnEngine.GeneratedData,
      (ColumnEngine.generateCSV (fun _ _ r => .ok (.undefined, r))
          { columns := [{ name := .str "ID".toList, type := .str "id".toList,
                          start := some 1 }] }
          2000000 {} (fun _ => 0) 0 1 2).1 = .ok result ∧
      result.data.length = 2000000 := by
  refine ⟨rfl, rfl, ?_⟩
  obtain ⟨data, hdata⟩ := generateDataLoop_returns (fun _ _ r => .ok (.undefined, r))
    [{ name := .str "ID".toList, type := .str "id".toList, start := some 1 }]
    (2000000 : Int).toNat 0 [] (fun _ => 0) (fun _ _ _ _ => ⟨_, rfl⟩)
  obtain ⟨result, hrun, _, hlen, _⟩ :=
    generateCSV_runs (fun _ _ r => .ok (.undefined, r))
      { columns := [{ name := .str "ID".toList, type := .str "id".toList, start := some 1 }] }
      2000000 {} (fun _ => 0) 0 1 2 data rfl rfl hdata
  exact ⟨result, by rw [hrun], hlen⟩

/-- C12 (amended): `generateCSV(rowCount, options)` checks the columns only.
With no run in progress, when `validateColumns` accepts the columns the call
raises no validation error for any integer `rowCount`, inside `[1, 1000000]`
or not: when `generateData` returns, it has generated `rowCount` records
(none when `rowCount <= 0`), and the call reports `rowCount` as given and
stores the result; when a generator call throws, the call fails with that
error (the `finally` block resets `isGenerating`); and `generateData` does
return whenever no generator call throws on the columns.  When
`validateColumns` reports violations the call fails with their messages
joined by `; `, generates no record, draws nothing and leaves the instance
unchanged. -/
theorem generateCSV_validates_columns_only (gen : ColumnEngine.CellGenerator)
    (self : ColumnEngine.Generator) (rowCount : Int) (options : ColumnEngine.Options)
    (rand : RandomStream) (startTime endTime timestamp : Int)
    (errors : List ColumnEngine.Violation) (hidle : self.isGenerating = false)
    (herr : ColumnEngine.validateColumns self.columns = .ok errors) :
    (errors = [] →
      (∀ data, ColumnEngine.generateData gen self.columns rowCount rand = .ok data →
        ∃ result : ColumnEngine.GeneratedData,
          ColumnEngine.generateCSV gen self rowCount options rand startTime endTime timestamp =
            (.ok result, { self with generatedData := some result, isGenerating := false },
              data.2) ∧
          result.data = data.1 ∧
          result.data.length = rowCount.toNat ∧
          result.rowCount = rowCount ∧
          result.columnCount = self.columns.length) ∧
      (∀ e, ColumnEngine.generateData gen self.columns rowCount rand = .error e →
        ColumnEngine.generateCSV gen self rowCount options rand startTime endTime timestamp =
          (.error e, { self with isGenerating := false }, rand)) ∧
      ((∀ (type : Str) (col : ColumnEngine.Column) (r : RandomStream),
          col ∈ self.columns → ∃ cell, gen type col r = .ok cell) →
        ∃ data, ColumnEngine.generateData gen self.columns rowCount rand = .ok data)) ∧
    (errors ≠ [] →
      ColumnEngine.generateCSV gen self rowCount options rand startTime endTime timestamp =
        (.error (joinWith "; ".toList (errors.map ColumnEngine.Violation.message)), self,
          rand)) := by
  constructor
  · intro hnil
    subst hnil
    refine ⟨?_, ?_, ?_⟩
    · intro data hdata
      obtain ⟨result, hrun, hd, hlen, _, hrc, hcc⟩ :=
        generateCSV_runs gen self rowCount options rand startTime endTime timestamp data
          hidle herr hdata
      exact ⟨result, hrun, hd, hlen, hrc, hcc⟩
    · intro e he
      simp only [ColumnEngine.generateCSV, hidle, herr, he]
      rfl
    · intro hgen
      exact generateDataLoop_returns gen self.columns rowCount.toNat 0 [] rand hgen
  · intro hne
    have hpos : errors.length > 0 := List.length_pos.mpr hne
    simp only [ColumnEngine.generateCSV, hidle, herr, hpos, if_true]
    rfl

/-- Witness of C12 (amended): one valid id column and `rowCount = 2000000`. -/
theorem generateCSV_validates_columns_only_witness :
    (({ columns := [{ name := .str "ID".toList, type := .str "id".toList,
                      start := some 1 }] } : ColumnEngine.Generator).isGenerating = false) ∧
    ColumnEngine.validateColumns
        [{ name := .str "ID".toList, type := .str "id".toList, start := some 1 }] = .ok [] ∧
    ∃ (result : ColumnEngine.GeneratedData) (rand2 : RandomStream),
      ColumnEngine.generateCSV (fun _ _ r => .ok (.undefined, r))
          { columns := [{ name := .str "ID".toList, type := .str "id".toList,
                          start := some 1 }] }
          2000000 {} (fun _ => 0) 0 1 2 =
        (.ok result,
          { columns := [{ name := .str "ID".toList, type := .str "id".toList,
                          start := some 1 }],
            generatedData := some result, isGenerating := false },
          rand2) ∧
      result.data.length = 2000000 ∧
      result.rowCount = 2000000 ∧
      result.columnCount = 1 := by
  refine ⟨rfl, rfl, ?_⟩
  obtain ⟨hok, _, hret⟩ :=
    (generateCSV_validates_columns_only (fun _ _ r => .ok (.undefined, r))
      { columns := [{ name := .str "ID".toList, type := .str "id".toList, start := some 1 }] }
      2000000 {} (fun _ => 0) 0 1 2 [] rfl rfl).1 rfl
  obtain ⟨data, hdata⟩ := hret (fun _ _ _ _ => ⟨_, rfl⟩)
  obtain ⟨result, hrun, _, hlen, hrc, hcc⟩ := hok data hdata
  exact ⟨result, data.2, hrun, hlen, hrc, hcc⟩

/-! ## The dispatch of `generateByFormat` -/

/-- A column without violation has a supported format. -/
theorem isSupportedFormat_of_columnViolations_nil (index : Nat) (column : FormatEngine.Column)
    (h : FormatEngine.columnViolations index column = []) :
    FormatEngine.isSupportedFormat column.format = true := by
  simp only [FormatEngine.columnViolations, List.append_eq_nil] at h
  obtain ⟨⟨⟨⟨_, _⟩, h3⟩, _⟩, _⟩ := h
  by_cases hs : FormatEngine.isSupportedFormat column.format = true
  · exact hs
  · exfalso
    have htruthy : column.format.truthy = true := by
      rcases column with ⟨name, format, config⟩
      cases format <;> simp_all [Value.truthy, Value.isString]
    simp [htruthy, hs] at h3

/-- When the violations of a list of indexed columns are empty, every column
of the list has a supported format. -/
theorem isSupportedFormat_of_flatMap_nil (index : Nat) (cols : List FormatEngine.Column)
    (h : (cols.enumFrom index).flatMap (fun p => FormatEngine.columnViolations p.1 p.2) = []) :
    ∀ column ∈ cols, FormatEngine.isSupportedFormat column.format = true := by
  induction cols generalizing index with
  | nil => simp
  | cons c rest ih =>
    simp only [List.enumFrom_cons, List.flatMap_cons, List.append_eq_nil] at h
    intro column hmem
    rcases List.mem_cons.mp hmem with heq | hrest
    · subst heq
      exact isSupportedFormat_of_columnViolations_nil index column h.1
    · exact ih (index + 1) h.2 column hrest

/-- Every column of an accepted config has a supported format. -/
theorem validateConfig_supported (config : FormatEngine.Config)
    (cols : List FormatEngine.Column) (hcols : config.columns = .array cols)
    (h : FormatEngine.validateConfig config = []) :
    ∀ column ∈ cols, FormatEngine.isSupportedFormat column.format = true := by
  unfold FormatEngine.validateConfig at h
  rw [List.append_eq_nil, hcols] at h
  have h2 := h.2
  cases cols with
  | nil => simp
  | cons c rest =>
    simp only [FormatEngine.validateColumnConfig, validateColumnsLoop_eq, List.nil_append]
      at h2
    exact isSupportedFormat_of_flatMap_nil 0 (c :: rest) h2

/-- A supported format is one of the twelve strings, and the `switch` of
`generateByFormat` has a case of its own for it. -/
theorem formatCase_of_supported (format : Value)
    (h : FormatEngine.isSupportedFormat format = true) :
    (∃ s ∈ FormatEngine.supportedFormats, format = .str s) ∧
      FormatEngine.formatCase format ≠ FormatEngine.FormatCase.defaultCase := by
  cases format with
  | str s =>
    have hmem : s ∈ FormatEngine.supportedFormats := by
      simpa [FormatEngine.isSupportedFormat] using h
    refine ⟨⟨s, hmem, rfl⟩, ?_⟩
    simp only [FormatEngine.supportedFormats, List.mem_cons, List.mem_singleton,
      List.not_mem_nil, or_false] at hmem
    rcases hmem with h | h | h | h | h | h | h | h | h | h | h | h <;> (subst h; decide)
  | _ => simp [FormatEngine.isSupportedFormat] at h

/-- On a tag with a case of its own, the body of the `default` branch does
not matter. -/
theorem generateByFormatWith_fallback_irrelevant (g : FormatEngine.Generators)
    (fallback1 fallback2 : FormatEngine.FormatConfig → RandomStream → FormatEngine.Generated)
    (format : Value) (config : FormatEngine.FormatConfig) (rand : RandomStream)
    (h : FormatEngine.formatCase format ≠ FormatEngine.FormatCase.defaultCase) :
    FormatEngine.generateByFormatWith g fallback1 format config rand =
      FormatEngine.generateByFormatWith g fallback2 format config rand := by
  unfold FormatEngine.generateByFormatWith
  cases hc : FormatEngine.formatCase format <;> first | rfl | exact absurd hc h

/-- A row over columns with cases of their own does not depend on the body
of the `default` branch. -/
theorem generateRow_fallback_irrelevant (g : FormatEngine.Generators)
    (fallback1 fallback2 : FormatEngine.FormatConfig → RandomStream → FormatEngine.Generated)
    (cols : List FormatEngine.Column) (rand : RandomStream)
    (h : ∀ column ∈ cols,
      FormatEngine.formatCase column.format ≠ FormatEngine.FormatCase.defaultCase) :
    FormatEngine.generateRow (FormatEngine.generateByFormatWith g fallback1) cols rand =
      FormatEngine.generateRow (FormatEngine.generateByFormatWith g fallback2) cols rand := by
  induction cols generalizing rand with
  | nil => rfl
  | cons c rest ih =>
    have hc := h c (List.mem_cons_self c rest)
    have hrest := fun column hm => h column (List.mem_cons_of_mem c hm)
    simp only [FormatEngine.generateRow,
      generateByFormatWith_fallback_irrelevant g fallback1 fallback2 c.format _ _ hc,
      ih _ hrest]

/-- C13: for every config that `validateConfig` accepts, the format of every
column is one of the twelve supported strings and `generateByFormat` has a
case of its own for it; the rows that `generateRow` assembles are the same
whatever the body of the `default` branch is, so that branch is never
reached. -/
theorem validateConfig_excludes_default (config : FormatEngine.Config)
    (hvalid : FormatEngine.validateConfig config = []) :
    ∃ cols : List FormatEngine.Column,
      config.columns = .array cols ∧
      (∀ column ∈ cols,
        (∃ s ∈ FormatEngine.supportedFormats, column.format = .str s) ∧
        FormatEngine.formatCase column.format ≠ FormatEngine.FormatCase.defaultCase) ∧
      (∀ (g : FormatEngine.Generators)
          (fallback : FormatEngine.FormatConfig → RandomStream → FormatEngine.Generated)
          (rand : RandomStream),
        FormatEngine.generateRow (FormatEngine.generateByFormatWith g fallback) cols rand =
          FormatEngine.generateRow (FormatEngine.generateByFormat g) cols rand) := by
  obtain ⟨_, _, column, rest, hcols⟩ := validateConfig_accepts config hvalid
  have hsup := validateConfig_supported config (column :: rest) hcols hvalid
  have hcase : ∀ c ∈ column :: rest,
      (∃ s ∈ FormatEngine.supportedFormats, c.format = .str s) ∧
      FormatEngine.formatCase c.format ≠ FormatEngine.FormatCase.defaultCase :=
    fun c hc => formatCase_of_supported c.format (hsup c hc)
  refine ⟨column :: rest, hcols, hcase, ?_⟩
  intro g fallback rand
  exact generateRow_fallback_irrelevant g fallback g.generateText (column :: rest) rand
    (fun c hc => (hcase c hc).2)

/-- Witness of C13: a config with a text column and a uuid column. -/
theorem validateConfig_excludes_default_witness :
    FormatEngine.validateConfig
        { rows := 3
          columns := .array [{ name := .str "A".toList, format := .str "text".toList },
                             { name := .str "B".toList, format := .str "uuid".toList }] } = [] ∧
    ∃ cols : List FormatEngine.Column,
      (FormatEngine.Config.mk 3
          (.array [{ name := .str "A".toList, format := .str "text".toList },
                   { name := .str "B".toList, format := .str "uuid".toList }])).columns =
        .array cols ∧
      (∀ column ∈ cols,
        (∃ s ∈ FormatEngine.supportedFormats, column.format = .str s) ∧
        FormatEngine.formatCase column.format ≠ FormatEngine.FormatCase.defaultCase) ∧
      (∀ (g : FormatEngine.Generators)
          (fallback : FormatEngine.FormatConfig → RandomStream → FormatEngine.Generated)
          (rand : RandomStream),
        FormatEngine.generateRow (FormatEngine.generateByFormatWith g fallback) cols rand =
          FormatEngine.generateRow (FormatEngine.generateByFormat g) cols rand) :=
  ⟨by decide, validateConfig_excludes_default _ (by decide)⟩


/-! ## Text generators -/

/-- A draw of `[0, 1)` selects a character of a non-empty pool. -/
theorem charAt_mathFloor (pool : Str) (r : ℚ) (hpool : pool ≠ []) (h0 : 0 ≤ r) (h1 : r < 1) :
    ∃ c ∈ pool, charAt pool (mathFloor (r * (pool.length : ℚ))) = [c] := by
  have hpos : (0 : Int) < (pool.length : Int) := by
    have := List.length_pos.mpr hpool
    omega
  have hb := mathFloor_scale_bounds r (pool.length : Int) h0 h1 hpos
  rw [Int.cast_natCast] at hb
  obtain ⟨hlo, hhi⟩ := hb
  have hidx : (mathFloor (r * (pool.length : ℚ))).toNat < pool.length := by omega
  refine ⟨pool.get ⟨_, hidx⟩, List.get_mem _ _ _, ?_⟩
  simp only [charAt, not_lt.mpr hlo, if_false, List.get?_eq_get hidx]

/-- The character loop appends exactly `n` characters of the pool. -/
theorem generateTextLoop_spec (pool : Str) (hpool : pool ≠ []) (n : Nat) (result : Str)
    (rand : RandomStream) (hrand : ∀ m, 0 ≤ rand m ∧ rand m < 1) :
    ∃ chars : Str,
      (generateTextLoop pool n result rand).1 = result ++ chars ∧
      chars.length = n ∧ ∀ c ∈ chars, c ∈ pool := by
  induction n generalizing result rand with
  | zero => exact ⟨[], by simp [generateTextLoop], rfl, by simp⟩
  | succ k ih =>
    obtain ⟨c, hc, hat⟩ := charAt_mathFloor pool (rand 0) hpool (hrand 0).1 (hrand 0).2
    obtain ⟨chars, heq, hlen, hmem⟩ :=
      ih (result ++ [c]) rand.tail (fun m => hrand (m + 1))
    refine ⟨c :: chars, ?_, by simp [hlen], ?_⟩
    · simp only [generateTextLoop, hat, heq]
      simp
    · intro d hd
      rcases List.mem_cons.mp hd with h | h
      · exact h ▸ hc
      · exact hmem d h

/-- A string of characters below U+10000 has as many UTF-16 code units as
characters. -/
theorem utf16Length_eq_length (s : Str) (h : ∀ c ∈ s, c.val.toNat < 65536) :
    utf16Length s = s.length := by
  induction s with
  | nil => rfl
  | cons c cs ih =>
    have hc := h c (List.mem_cons_self c cs)
    have hcs := ih (fun d hd => h d (List.mem_cons_of_mem c hd))
    simp only [utf16Length, List.map_cons, List.sum_cons, hc, if_true, List.length_cons] at hcs ⊢
    omega

set_option maxRecDepth 10000 in
/-- Every character of the Chinese pool of `CSVFormats` is below U+10000. -/
theorem poolChinese_bmp : ∀ c ∈ FormatEngine.poolChinese, c.val.toNat < 65536 := by
  simp only [FormatEngine.poolChinese, List.forall_mem_append]
  repeat' apply And.intro
  all_goals decide

/-- For the four text types the `switch` of `generateText` selects the pool
of the specification. -/
theorem textPool_eq_selectedPool (length : Option Int) (type : Str)
    (caseSensitive : Option Bool)
    (htype : type ∈ ["numbers".toList, "english".toList, "chinese".toList, "mixed".toList]) :
    FormatEngine.textPool
        { length := length, type := some type, caseSensitive := caseSensitive } =
      FormatEngine.selectedPool type caseSensitive := by
  simp only [List.mem_cons, List.mem_singleton, List.not_mem_nil, or_false] at htype
  rcases htype with h | h | h | h <;> subst h <;>
    rcases caseSensitive with _ | _ | _ <;> rfl

/-- The pool of the specification is never empty and holds characters below
U+10000 only. -/
theorem selectedPool_ne_nil_bmp (type : Str) (caseSensitive : Option Bool) :
    FormatEngine.selectedPool type caseSensitive ≠ [] ∧
      ∀ c ∈ FormatEngine.selectedPool type caseSensitive, c.val.toNat < 65536 := by
  unfold FormatEngine.selectedPool
  split_ifs
  · exact ⟨by decide, by decide⟩
  · exact ⟨by decide, by decide⟩
  · exact ⟨by decide, by decide⟩
  · exact ⟨by decide, poolChinese_bmp⟩
  · exact ⟨by decide, by decide⟩

/-- C20: for every non-negative integer `length`, every type among
`numbers`, `english`, `chinese` and `mixed`, every `caseSensitive` setting
and every sequence of draws of `[0, 1)`, `CSVFormats.generateText` returns a
string of exactly `length` characters (as many UTF-16 code units), each one
from the pool selected by the type (lowercase letters only for `english`
with `caseSensitive` false); with no `length` configured the string has 10
characters of that pool. -/
theorem generateText_length_pool (length : Int) (type : Str) (caseSensitive : Option Bool)
    (rand : RandomStream) (hlen : 0 ≤ length)
    (htype : type ∈ ["numbers".toList, "english".toList, "chinese".toList, "mixed".toList])
    (hrand : ∀ n, 0 ≤ rand n ∧ rand n < 1) :
    (∃ text : Str,
      (FormatEngine.generateText
        { length := some length, type := some type, caseSensitive := caseSensitive } rand).1 =
        .str text ∧
      (text.length : Int) = length ∧
      utf16Length text = text.length ∧
      ∀ c ∈ text, c ∈ FormatEngine.selectedPool type caseSensitive) ∧
    (∃ text : Str,
      (FormatEngine.generateText
        { type := some type, caseSensitive := caseSensitive } rand).1 = .str text ∧
      text.length = 10 ∧
      utf16Length text = 10 ∧
      ∀ c ∈ text, c ∈ FormatEngine.selectedPool type caseSensitive) ∧
    FormatEngine.selectedPool "numbers".toList caseSensitive = "0123456789".toList ∧
    FormatEngine.selectedPool "english".toList (some false) =
      "abcdefghijklmnopqrstuvwxyz".toList := by
  obtain ⟨hne, hbmp⟩ := selectedPool_ne_nil_bmp type caseSensitive
  refine ⟨?_, ?_, rfl, rfl⟩
  · obtain ⟨chars, heq, hl, hmem⟩ :=
      generateTextLoop_spec (FormatEngine.selectedPool type caseSensitive) hne length.toNat []
        rand hrand
    refine ⟨chars, ?_, by omega, utf16Length_eq_length chars (fun c hc => hbmp c (hmem c hc)),
      hmem⟩
    simp only [FormatEngine.generateText, textPool_eq_selectedPool (some length) type
      caseSensitive htype, Option.getD_some, heq, List.nil_append]
  · obtain ⟨chars, heq, hl, hmem⟩ :=
      generateTextLoop_spec (FormatEngine.selectedPool type caseSensitive) hne 10 []
        rand hrand
    have hu := utf16Length_eq_length chars (fun c hc => hbmp c (hmem c hc))
    refine ⟨chars, ?_, hl, by rw [hu, hl], hmem⟩
    simp only [FormatEngine.generateText, textPool_eq_selectedPool none type
      caseSensitive htype, Option.getD_none]
    exact congrArg Value.str heq

/-- Witness of C20: the configuration of the repository test, `length: 10,
type: 'english'`, with all draws equal to 0.5. -/
theorem generateText_length_pool_witness :
    (0 : Int) ≤ 10 ∧
    "english".toList ∈
      ["numbers".toList, "english".toList, "chinese".toList, "mixed".toList] ∧
    (∀ n : Nat, (0 : ℚ) ≤ (fun _ => 1 / 2 : RandomStream) n ∧
      (fun _ => 1 / 2 : RandomStream) n < 1) ∧
    ∃ text : Str,
      (FormatEngine.generateText
        { length := some 10, type := some "english".toList, caseSensitive := none }
        (fun _ => 1 / 2)).1 = .str text ∧
      (text.length : Int) = 10 ∧
      utf16Length text = text.length ∧
      ∀ c ∈ text, c ∈ FormatEngine.selectedPool "english".toList none :=
  ⟨by decide, by decide, fun _ => by norm_num,
    (generateText_length_pool 10 "english".toList none (fun _ => 1 / 2) (by decide) (by decide)
      (fun _ => by norm_num)).1⟩


/-! ## UUID generator -/

/-- A draw of `[0, 1)` scaled by 16 and truncated is one of 0, ..., 15. -/
theorem truncToInt_sixteen (r : ℚ) (h0 : 0 ≤ r) (h1 : r < 1) :
    0 ≤ truncToInt (r * 16) ∧ truncToInt (r * 16) < 16 := by
  have hnn : (0 : ℚ) ≤ r * 16 := by positivity
  have hb := mathFloor_scale_bounds r 16 h0 h1 (by decide)
  simp only [truncToInt, hnn, if_true]
  simpa [mathFloor] using hb

/-- The replacement of an `x` is one lowercase hexadecimal digit. -/
theorem uuidReplacement_x (r : ℚ) (h0 : 0 ≤ r) (h1 : r < 1) :
    ∃ c, uuidReplacement 'x' r = [c] ∧ UUIDChar.hex.admits c = true := by
  obtain ⟨hlo, hhi⟩ := truncToInt_sixteen r h0 h1
  simp only [uuidReplacement, if_true]
  generalize truncToInt (r * 16) = k at hlo hhi
  interval_cases k <;> exact ⟨_, rfl, by decide⟩

/-- The replacement of a `y` is one of the digits `8`, `9`, `a`, `b`. -/
theorem uuidReplacement_y (r : ℚ) (h0 : 0 ≤ r) (h1 : r < 1) :
    ∃ c, uuidReplacement 'y' r = [c] ∧ UUIDChar.variant.admits c = true := by
  obtain ⟨hlo, hhi⟩ := truncToInt_sixteen r h0 h1
  have hyx : ¬ ('y' = 'x') := by decide
  simp only [uuidReplacement, hyx, if_false]
  generalize truncToInt (r * 16) = k at hlo hhi
  interval_cases k <;> exact ⟨_, rfl, by decide⟩

/-- When the template stands for the layout, the replaced template matches
the layout. -/
theorem replaceXY_matchesLayout (layout : List UUIDChar) (template : Str)
    (rand : RandomStream) (hagree : templateAgrees layout template = true)
    (hrand : ∀ n, 0 ≤ rand n ∧ rand n < 1) :
    matchesLayout layout (replaceXY template rand).1 = true := by
  induction layout generalizing template rand with
  | nil =>
    cases template with
    | nil => rfl
    | cons c cs => simp [templateAgrees] at hagree
  | cons k ks ih =>
    cases template with
    | nil => cases k <;> simp [templateAgrees] at hagree
    | cons c cs =>
      have htail : ∀ n, 0 ≤ rand.tail n ∧ rand.tail n < 1 := fun n => hrand (n + 1)
      cases k with
      | hex =>
        simp only [templateAgrees, Bool.and_eq_true, beq_iff_eq] at hagree
        obtain ⟨hc, hrest⟩ := hagree
        subst hc
        obtain ⟨d, hd, hadm⟩ := uuidReplacement_x (rand 0) (hrand 0).1 (hrand 0).2
        simp only [replaceXY, true_or, if_true, hd, List.singleton_append, matchesLayout,
          hadm, Bool.true_and]
        exact ih cs rand.tail hrest htail
      | variant =>
        simp only [templateAgrees, Bool.and_eq_true, beq_iff_eq] at hagree
        obtain ⟨hc, hrest⟩ := hagree
        subst hc
        obtain ⟨d, hd, hadm⟩ := uuidReplacement_y (rand 0) (hrand 0).1 (hrand 0).2
        simp only [replaceXY, or_true, if_true, hd, List.singleton_append, matchesLayout,
          hadm, Bool.true_and]
        exact ih cs rand.tail hrest htail
      | dash =>
        simp only [templateAgrees, Bool.and_eq_true, beq_iff_eq] at hagree
        obtain ⟨hc, hrest⟩ := hagree
        subst hc
        have hno : ¬ ('-' = 'x' ∨ '-' = 'y') := by decide
        simp only [replaceXY, hno, if_false, matchesLayout, Bool.and_eq_true]
        exact ⟨by decide, ih cs rand hrest hrand⟩
      | version =>
        simp only [templateAgrees, Bool.and_eq_true, beq_iff_eq] at hagree
        obtain ⟨hc, hrest⟩ := hagree
        subst hc
        have hno : ¬ ('4' = 'x' ∨ '4' = 'y') := by decide
        simp only [replaceXY, hno, if_false, matchesLayout, Bool.and_eq_true]
        exact ⟨by decide, ih cs rand hrest hrand⟩

/-- A string that matches a layout has the length of the layout. -/
theorem matchesLayout_length (layout : List UUIDChar) (s : Str)
    (h : matchesLayout layout s = true) : s.length = layout.length := by
  induction layout generalizing s with
  | nil =>
    cases s with
    | nil => rfl
    | cons c cs => simp [matchesLayout] at h
  | cons k ks ih =>
    cases s with
    | nil => simp [matchesLayout] at h
    | cons c cs =>
      simp only [matchesLayout, Bool.and_eq_true] at h
      simp [ih cs h.2]

/-- C19: for every sequence of draws of `[0, 1)`, `generateUUID` (the same
function in both engines) returns a string of 36 characters in the layout
8-4-4-4-12: lowercase hexadecimal digits in groups separated by `-`, the
third group starting with `4` and the fourth with one of `8`, `9`, `a`,
`b`. -/
theorem generateUUID_layout (rand : RandomStream) (hrand : ∀ n, 0 ≤ rand n ∧ rand n < 1) :
    isUUIDv4 (generateUUID rand).1 = true ∧
      (generateUUID rand).1.length = 36 ∧
      (∀ (other : ColumnEngine.CellGenerator) (column : ColumnEngine.Column),
        ColumnEngine.generateCell other "uuid".toList column rand =
          .ok (.str (generateUUID rand).1, (generateUUID rand).2)) := by
  have hm : matchesLayout uuidLayout (replaceXY uuidTemplate rand).1 = true :=
    replaceXY_matchesLayout uuidLayout uuidTemplate rand (by decide) hrand
  refine ⟨hm, ?_, fun _ _ => rfl⟩
  have := matchesLayout_length uuidLayout _ hm
  simpa [generateUUID, uuidLayout] using this

/-- Witness of C19 with all draws equal to 0.5; the layout accepts
`88888888-8888-4888-8888-888888888888` and rejects the same string with the
version digit 1. -/
theorem generateUUID_layout_witness :
    (∀ n : Nat, (0 : ℚ) ≤ (fun _ => 1 / 2 : RandomStream) n ∧
      (fun _ => 1 / 2 : RandomStream) n < 1) ∧
    isUUIDv4 (generateUUID (fun _ => 1 / 2)).1 = true ∧
    (generateUUID (fun _ => 1 / 2)).1.length = 36 ∧
    isUUIDv4 "88888888-8888-4888-8888-888888888888".toList = true ∧
    isUUIDv4 "88888888-8888-1888-8888-888888888888".toList = false :=
  ⟨fun _ => by norm_num,
    (generateUUID_layout (fun _ => 1 / 2) (fun _ => by norm_num)).1,
    (generateUUID_layout (fun _ => 1 / 2) (fun _ => by norm_num)).2.1,
    by decide, by decide⟩


/-! ## Boolean generators -/

/-- C17: for every probability `p`, every format and every draw `r` of `[0,
1)`, `CSVFormats.generateBoolean` returns the true rendering of the format
exactly when `r < p` and the false rendering otherwise (`true` / `false` for
`boolean`, `Yes` / `No` for `yesno`, `True` / `False` for `truefalse`, `1` /
`0` for `10`); `p` defaults to 0.5; probability 0 always gives the false
rendering and probability 1 the true rendering. -/
theorem generateBoolean_rendering (p : ℚ) (format : Str) (rand : RandomStream)
    (h0 : 0 ≤ rand 0) (h1 : rand 0 < 1) :
    (FormatEngine.generateBoolean { format := some format, probability := some p } rand).1 =
        (if rand 0 < p then FormatEngine.trueRendering format
         else FormatEngine.falseRendering format) ∧
    (FormatEngine.generateBoolean { format := some format } rand).1 =
        (if rand 0 < 1 / 2 then FormatEngine.trueRendering format
         else FormatEngine.falseRendering format) ∧
    (FormatEngine.generateBoolean { format := some format, probability := some 0 } rand).1 =
        FormatEngine.falseRendering format ∧
    (FormatEngine.generateBoolean { format := some format, probability := some 1 } rand).1 =
        FormatEngine.trueRendering format ∧
    (FormatEngine.generateBoolean { probability := some p } rand).1 =
        .bool (decide (rand 0 < p)) ∧
    [FormatEngine.trueRendering "boolean".toList, FormatEngine.falseRendering "boolean".toList,
     FormatEngine.trueRendering "yesno".toList, FormatEngine.falseRendering "yesno".toList,
     FormatEngine.trueRendering "truefalse".toList,
     FormatEngine.falseRendering "truefalse".toList,
     FormatEngine.trueRendering "10".toList, FormatEngine.falseRendering "10".toList] =
      [.bool true, .bool false, .str "Yes".toList, .str "No".toList, .str "True".toList,
       .str "False".toList, .str "1".toList, .str "0".toList] := by
  have hgen : ∀ q : ℚ,
      (FormatEngine.generateBoolean { format := some format, probability := some q } rand).1 =
        (if rand 0 < q then FormatEngine.trueRendering format
         else FormatEngine.falseRendering format) := by
    intro q
    simp only [FormatEngine.generateBoolean, FormatEngine.trueRendering,
      FormatEngine.falseRendering, Option.getD_some]
    by_cases hq : rand 0 < q
    · simp only [hq, decide_True, if_true]
    · simp only [hq, decide_False, Bool.false_eq_true, if_false]
  refine ⟨hgen p, ?_, ?_, ?_, ?_, by decide⟩
  · exact hgen (1 / 2)
  · rw [hgen 0, if_neg (not_lt.mpr h0)]
  · rw [hgen 1, if_pos h1]
  · simp only [FormatEngine.generateBoolean, Option.getD_some, Option.getD_none]
    rfl

/-- Witness of C17: format `yesno`, probability 0.3, first draw 0.5. -/
theorem generateBoolean_rendering_witness :
    (0 : ℚ) ≤ (fun _ => 1 / 2 : RandomStream) 0 ∧
    (fun _ => 1 / 2 : RandomStream) 0 < 1 ∧
    (FormatEngine.generateBoolean
        { format := some "yesno".toList, probability := some (3 / 10) } (fun _ => 1 / 2)).1 =
      (if (fun _ => 1 / 2 : RandomStream) 0 < 3 / 10 then
        FormatEngine.trueRendering "yesno".toList
       else FormatEngine.falseRendering "yesno".toList) :=
  ⟨by norm_num, by norm_num,
    (generateBoolean_rendering (3 / 10) "yesno".toList (fun _ => 1 / 2) (by norm_num)
      (by norm_num)).1⟩

/-- The column-based `generateBoolean` renders the outcome of the test
`Math.random() < 0.5` in the format of the column. -/
theorem columnGenerateBoolean_eq (config : ColumnEngine.Column) (rand : RandomStream) :
    ColumnEngine.generateBoolean config rand =
      (ColumnEngine.booleanRendering config (decide (rand 0 < 1 / 2)), rand.tail) := by
  rcases config with ⟨name, type, length, min, max, values, start, step, idPrefix, idSuffix,
    padding, charset, format, trueValue, falseValue, probability, nameType, decimals, pattern⟩
  simp only [ColumnEngine.generateBoolean, ColumnEngine.booleanRendering]
  rcases format with _ | f
  · simp
  · by_cases hf : f = []
    · subst hf
      simp
    · simp only [hf, if_false, Option.some.injEq]

/-- The `boolean` case of `generateCellValue` calls `generateBoolean`. -/
theorem generateCellValue_boolean (other : ColumnEngine.CellGenerator)
    (column : ColumnEngine.Column) (i : Int) (rand : RandomStream)
    (h : column.type = .str "boolean".toList) :
    ColumnEngine.generateCellValue (ColumnEngine.generateCell other) column i rand =
      .ok (ColumnEngine.generateBoolean column rand) := by
  simp only [ColumnEngine.generateCellValue, h]
  rfl

/-- C18 (counterexample): a boolean column with `probability: 0` and the draw
0.25 yields the true value in each output format (`true`, `1`, the text
`true`), and a boolean column with `probability: 1` and the draw 0.75 yields
`false`. -/
theorem columnGenerateBoolean_ignores_probability :
    Except.map Prod.fst
      (ColumnEngine.generateCellValue
        (ColumnEngine.generateCell (fun _ _ r => .ok (.undefined, r)))
        { name := .str "B".toList, type := .str "boolean".toList, probability := some 0 }
        0 (fun _ => 1 / 4)) = .ok (.bool true) ∧
    Except.map Prod.fst
      (ColumnEngine.generateCellValue
        (ColumnEngine.generateCell (fun _ _ r => .ok (.undefined, r)))
        { name := .str "B".toList, type := .str "boolean".toList,
          format := some "number".toList, probability := some 0 }
        0 (fun _ => 1 / 4)) = .ok (.num 1) ∧
    Except.map Prod.fst
      (ColumnEngine.generateCellValue
        (ColumnEngine.generateCell (fun _ _ r => .ok (.undefined, r)))
        { name := .str "B".toList, type := .str "boolean".toList,
          format := some "text".toList, probability := some 0 }
        0 (fun _ => 1 / 4)) = .ok (.str "true".toList) ∧
    Except.map Prod.fst
      (ColumnEngine.generateCellValue
        (ColumnEngine.generateCell (fun _ _ r => .ok (.undefined, r)))
        { name := .str "B".toList, type := .str "boolean".toList, probability := some 1 }
        0 (fun _ => 3 / 4)) = .ok (.bool false) := by
  have hlt : decide ((1 / 4 : ℚ) < 1 / 2) = true := decide_eq_true (by norm_num)
  have hge : decide ((3 / 4 : ℚ) < 1 / 2) = false := decide_eq_false (by norm_num)
  refine ⟨?_, ?_, ?_, ?_⟩
  · rw [generateCellValue_boolean _ _ _ _ rfl, columnGenerateBoolean_eq]
    simp only [hlt]
    rfl
  · rw [generateCellValue_boolean _ _ _ _ rfl, columnGenerateBoolean_eq]
    simp only [hlt]
    rfl
  · rw [generateCellValue_boolean _ _ _ _ rfl, columnGenerateBoolean_eq]
    simp only [hlt]
    rfl
  · rw [generateCellValue_boolean _ _ _ _ rfl, columnGenerateBoolean_eq]
    simp only [hge]
    rfl

/-- C18 (amended): in the column-based engine a boolean column yields the
true value exactly when the draw is below 0.5 and the false value otherwise,
in each output format (native boolean, `1` / `0` for `number`, the
configured texts for `text`); a configured `probability` is not read: the
value and the stream left are the same for every `probability`. -/
theorem columnGenerateBoolean_fair (other : ColumnEngine.CellGenerator)
    (config : ColumnEngine.Column) (p : Option ℚ) (i : Int) (rand : RandomStream) :
    ColumnEngine.generateCellValue (ColumnEngine.generateCell other)
        { config with type := .str "boolean".toList, probability := p } i rand =
      .ok (ColumnEngine.booleanRendering config (decide (rand 0 < 1 / 2)), rand.tail) ∧
    ColumnEngine.generateBoolean { config with probability := p } rand =
      ColumnEngine.generateBoolean config rand ∧
    (∀ b : Bool,
      [ColumnEngine.booleanRendering { config with format := none } b,
       ColumnEngine.booleanRendering { config with format := some "boolean".toList } b,
       ColumnEngine.booleanRendering { config with format := some "number".toList } b,
       ColumnEngine.booleanRendering
         { config with format := some "text".toList, trueValue := none, falseValue := none } b] =
      [.bool b, .bool b, .num (if b then 1 else 0),
       .str (if b then "true".toList else "false".toList)]) := by
  refine ⟨?_, ?_, ?_⟩
  · rw [generateCellValue_boolean _ _ _ _ rfl, columnGenerateBoolean_eq]
    rfl
  · rw [columnGenerateBoolean_eq, columnGenerateBoolean_eq]
    rfl
  · intro b
    cases b <;> rfl


/-! ## Unknown type tags in the column-based engine -/

/-- C14 (counterexample): for the type tag `unknown`, `generateCellValue`
returns the empty string and leaves the random stream untouched, while the
text generator with default configuration on the same stream returns 10
characters. -/
theorem generateCellValue_unknown_type :
    ColumnEngine.generateCellValue (ColumnEngine.generateCell (fun _ _ r => .ok (.undefined, r)))
        { name := .str "X".toList, type := .str "unknown".toList } 0 (fun _ => 1 / 2) =
      .ok (.str [], fun _ => 1 / 2) ∧
    ([] : Str).length ≠ 10 ∧
    (ColumnEngine.generateText {} (fun _ => 1 / 2)).1.length = 10 := by
  refine ⟨rfl, by decide, ?_⟩
  obtain ⟨chars, heq, hlen, _⟩ :=
    generateTextLoop_spec ColumnEngine.charsMixed (by decide) 10 [] (fun _ => 1 / 2)
      (fun _ => by norm_num)
  have hrun : (ColumnEngine.generateText {} (fun _ => 1 / 2)).1 =
      (generateTextLoop ColumnEngine.charsMixed 10 [] (fun _ => 1 / 2)).1 := rfl
  rw [hrun, heq]
  simpa using hlen

/-- C14 (amended): for every column whose type is none of the nineteen tags
of the `switch` of `generateCellValue`, every catalogue of generators, every
record index and every random stream, `generateCellValue` takes the
`default` branch: it returns the empty string and consumes no draw. -/
theorem generateCellValue_default_empty (gen : ColumnEngine.CellGenerator)
    (column : ColumnEngine.Column) (i : Int) (rand : RandomStream)
    (hunknown : ∀ s ∈ ColumnEngine.dataTypeKeys, column.type ≠ .str s) :
    ColumnEngine.generateCellValue gen column i rand = .ok (.str [], rand) := by
  unfold ColumnEngine.generateCellValue
  cases htype : column.type with
  | str t =>
    have hnot : ∀ s ∈ ColumnEngine.dataTypeKeys, t ≠ s := by
      intro s hs heq
      exact hunknown s hs (by rw [htype, heq])
    have hid : t ≠ "id".toList := hnot _ (by decide)
    have hrandom : ColumnEngine.randomTypes.contains t = false := by
      rw [List.contains_eq_any_beq, List.any_eq_false]
      intro s hs
      have hmem : s ∈ ColumnEngine.dataTypeKeys := by
        revert s
        decide
      have hne := hnot s hmem
      simp only [beq_iff_eq]
      exact hne
    simp only [hid, if_false, hrandom, Bool.false_eq_true]
  | _ => rfl

/-- Witness of C14 (amended): the tag `unknown` and a tag that is not a
string. -/
theorem generateCellValue_default_empty_witness :
    (∀ s ∈ ColumnEngine.dataTypeKeys,
      ({ name := .str "X".toList, type := .str "unknown".toList } : ColumnEngine.Column).type ≠
        .str s) ∧
    ColumnEngine.generateCellValue (fun _ _ r => .ok (.undefined, r))
        { name := .str "X".toList, type := .str "unknown".toList } 0 (fun _ => 0) =
      .ok (.str [], fun _ => 0) :=
  ⟨by decide,
    generateCellValue_default_empty (fun _ _ r => .ok (.undefined, r))
      { name := .str "X".toList, type := .str "unknown".toList } 0 (fun _ => 0) (by decide)⟩


/-! ## Name columns of the column-based engine -/

/-- The `name` case of `generateCellValue` never reads `nameType`: for every
name column and every draw of `[0, 1)` the value is an entry of the Chinese
list. -/
theorem generateCellValue_name_chinese (other : ColumnEngine.CellGenerator)
    (column : ColumnEngine.Column) (i : Int) (rand : RandomStream)
    (htype : column.type = .str "name".toList) (h0 : 0 ≤ rand 0) (h1 : rand 0 < 1) :
    ∃ n ∈ ColumnEngine.namesChinese,
      ColumnEngine.generateCellValue (ColumnEngine.generateCell other) column i rand =
        .ok (.str n, rand.tail) := by
  have hlen : (ColumnEngine.namesChinese.length : Int) = 18 := rfl
  have hb := mathFloor_scale_bounds (rand 0) 18 h0 h1 (by decide)
  have hcast : ((ColumnEngine.namesChinese.length : ℕ) : ℚ) = ((18 : Int) : ℚ) := by
    norm_num [ColumnEngine.namesChinese]
  have hidx : (mathFloor (rand 0 * ((18 : Int) : ℚ))).toNat < ColumnEngine.namesChinese.length := by
    have : ColumnEngine.namesChinese.length = 18 := rfl
    omega
  refine ⟨ColumnEngine.namesChinese.get ⟨_, hidx⟩, List.get_mem _ _ _, ?_⟩
  have hrun : ColumnEngine.generateCellValue (ColumnEngine.generateCell other) column i rand =
      .ok (ColumnEngine.generateName .undefined rand) := by
    simp only [ColumnEngine.generateCellValue, htype]
    rfl
  rw [hrun]
  have hproto : ColumnEngine.objectPrototypeKeys.contains "chinese".toList = false := by decide
  have hne : ¬ ("chinese".toList = "english".toList) := by decide
  simp only [ColumnEngine.generateName, Value.truthy, Bool.false_eq_true, if_false, hproto, hne,
    hcast, not_lt.mpr hb.1, List.get?_eq_get hidx]

/-- C21 (failing input): a name column saved by the column dialog for English
names, `{ name: '姓名', type: 'name', nameType: 'english' }`, with the draw 0.
`generateName` reads `config.type`, a key that the rest object of
`generateCellValue` never has, so it always falls back to the Chinese list:
the value is `张三`, an entry of the Chinese list that is not in the English
list.  The same holds with `nameType: 'chinese'`. -/
theorem generateName_english_gives_chinese (other : ColumnEngine.CellGenerator) :
    Except.map Prod.fst
        (ColumnEngine.generateCellValue (ColumnEngine.generateCell other)
          { name := .str "姓名".toList, type := .str "name".toList,
            nameType := some "english".toList } 0 (fun _ => 0)) = .ok (.str "张三".toList) ∧
    "张三".toList ∈ ColumnEngine.namesChinese ∧
    "张三".toList ∉ ColumnEngine.namesEnglish ∧
    (∀ n ∈ ColumnEngine.namesChinese, n ∉ ColumnEngine.namesEnglish) ∧
    Except.map Prod.fst
        (ColumnEngine.generateCellValue (ColumnEngine.generateCell other)
          { name := .str "姓名".toList, type := .str "name".toList,
            nameType := some "chinese".toList } 0 (fun _ => 0)) = .ok (.str "张三".toList) := by
  have hfl : mathFloor ((0 : ℚ) * ((ColumnEngine.namesChinese.length : ℕ) : ℚ)) = 0 := by
    simp [mathFloor]
  have hgen : (ColumnEngine.generateName .undefined (fun _ => 0)).1 = .str "张三".toList := by
    have hproto : ColumnEngine.objectPrototypeKeys.contains "chinese".toList = false := by
      decide
    have hne : ¬ ("chinese".toList = "english".toList) := by decide
    simp only [ColumnEngine.generateName, Value.truthy, Bool.false_eq_true, if_false, hproto,
      hne, hfl]
    rfl
  have hcell : ∀ column : ColumnEngine.Column, column.type = .str "name".toList →
      Except.map Prod.fst
        (ColumnEngine.generateCellValue (ColumnEngine.generateCell other) column 0
          (fun _ => 0)) = .ok (.str "张三".toList) := by
    intro column htype
    have hrun : ColumnEngine.generateCellValue (ColumnEngine.generateCell other) column 0
        (fun _ => 0) = .ok (ColumnEngine.generateName .undefined (fun _ => 0)) := by
      simp only [ColumnEngine.generateCellValue, htype]
      rfl
    rw [hrun]
    show Except.ok (ColumnEngine.generateName .undefined (fun _ => 0)).1 = _
    rw [hgen]
  exact ⟨hcell _ rfl, by decide, by decide, by decide, hcell _ rfl⟩


/-! ## The preset configurations and the command line -/

/-- The default preset is accepted by `validateConfig`. -/
theorem createDefaultConfig_valid :
    FormatEngine.validateConfig CSVConfig.createDefaultConfig.toConfig = [] := by decide

/-- The user-info preset is accepted by `validateConfig`. -/
theorem createUserInfoConfig_valid :
    FormatEngine.validateConfig CSVConfig.createUserInfoConfig.toConfig = [] := by decide

/-- The product preset is accepted by `validateConfig`. -/
theorem createProductConfig_valid :
    FormatEngine.validateConfig CSVConfig.createProductConfig.toConfig = [] := by decide

/-- The log preset is accepted by `validateConfig`. -/
theorem createLogConfig_valid :
    FormatEngine.validateConfig CSVConfig.createLogConfig.toConfig = [] := by decide

/-- C27: each of the four preset configurations that
`initializePresetConfigs` registers on a new `CSVConfig` (default, user info,
product, log) is returned by `loadConfig` under its name, with the rows and
columns of its definition, and `CSVGenerator.validateConfig` returns no
violation for it. -/
theorem presets_accepted (clock : Nat → Str) :
    ∀ preset ∈ [CSVConfig.createDefaultConfig, CSVConfig.createUserInfoConfig,
        CSVConfig.createProductConfig, CSVConfig.createLogConfig],
      ∃ (store : CSVConfig.Store) (config : CSVConfig.NamedConfig),
        CSVConfig.loadConfig (CSVConfig.initializePresetConfigs {} clock) (.str preset.name) =
          .ok (store, config) ∧
        config.rows = preset.rows ∧ config.columns = preset.columns ∧
        FormatEngine.validateConfig config.toConfig = [] := by
  intro preset hmem
  simp only [List.mem_cons, List.mem_singleton, List.not_mem_nil, or_false] at hmem
  rcases hmem with h | h | h | h <;> subst h
  · exact ⟨_, _, rfl, rfl, rfl, createDefaultConfig_valid⟩
  · exact ⟨_, _, rfl, rfl, rfl, createUserInfoConfig_valid⟩
  · exact ⟨_, _, rfl, rfl, rfl, createProductConfig_valid⟩
  · exact ⟨_, _, rfl, rfl, rfl, createLogConfig_valid⟩

/-- Witness of C27: the user-info preset, 1000 rows, is loaded and accepted. -/
theorem presets_accepted_witness :
    CSVConfig.createUserInfoConfig ∈
        [CSVConfig.createDefaultConfig, CSVConfig.createUserInfoConfig,
          CSVConfig.createProductConfig, CSVConfig.createLogConfig] ∧
    ∃ (store : CSVConfig.Store) (config : CSVConfig.NamedConfig),
      CSVConfig.loadConfig (CSVConfig.initializePresetConfigs {} (fun _ => []))
          (.str CSVConfig.createUserInfoConfig.name) = .ok (store, config) ∧
      config.rows = 1000 ∧ FormatEngine.validateConfig config.toConfig = [] := by
  have hmem : CSVConfig.createUserInfoConfig ∈
      [CSVConfig.createDefaultConfig, CSVConfig.createUserInfoConfig,
        CSVConfig.createProductConfig, CSVConfig.createLogConfig] :=
    List.mem_cons_of_mem _ (List.mem_cons_self _ _)
  obtain ⟨store, config, hload, hrows, _, hvalid⟩ :=
    presets_accepted (fun _ => []) CSVConfig.createUserInfoConfig hmem
  exact ⟨hmem, store, config, hload, hrows, hvalid⟩

/-- C28 (failing input): the documented command `generate -c "用户信息配置" -r
500`.  `parseArgs` stores both options, and `config.rows` is first set to
500, but the statement `config = presetConfig` then replaces the whole
config object: the assembled config has the 1000 rows of the preset (with the
preset's columns), and `generateCSVSync` reports 1000 rows whenever it
returns, as it does with a catalogue that returns the format tag.  Without
`-c` the same `-r 500` gives 500 rows. -/
theorem cli_preset_overrides_rows (parseJSON : Str → Option FormatEngine.Columns)
    (clock : Nat → Str) (gen : FormatEngine.FormatGenerator) (rand : RandomStream) :
    CLI.parseArgs ["generate".toList, "-c".toList, "用户信息配置".toList, "-r".toList,
        "500".toList] =
      { command := "generate".toList
        options := [("c".toList, .text "用户信息配置".toList), ("r".toList, .text "500".toList)] } ∧
    CLI.assembleConfig parseJSON clock {}
        (CLI.parseArgs ["generate".toList, "-c".toList, "用户信息配置".toList, "-r".toList,
          "500".toList]).options =
      .ok { rows := 1000, columns := CSVConfig.createUserInfoConfig.columns } ∧
    (∀ result,
      FormatEngine.generateCSVSync gen {}
          { rows := 1000, columns := CSVConfig.createUserInfoConfig.columns } rand 0 0 =
        .ok result → result.1.rows = 1000) ∧
    Except.map (fun r => r.1.rows)
        (FormatEngine.generateCSVSync (fun format _ r => .ok (format, r.tail)) {}
          { rows := 1000, columns := CSVConfig.createUserInfoConfig.columns } rand 0 0) =
      .ok 1000 ∧
    CLI.assembleConfig parseJSON clock {}
        (CLI.parseArgs ["generate".toList, "-r".toList, "500".toList]).options =
      .ok { rows := 500, columns := .array CLI.createDefaultColumns } := by
  have hvalid : FormatEngine.validateConfig
      { rows := 1000, columns := CSVConfig.createUserInfoConfig.columns } = [] :=
    createUserInfoConfig_valid
  obtain ⟨_, _, column, rest, hcols⟩ := validateConfig_accepts _ hvalid
  refine ⟨rfl, rfl, ?_, ?_, rfl⟩
  · intro result hrun
    cases hl : FormatEngine.generateLines gen (column :: rest) (1000 : Int).toNat
        [FormatEngine.generateCSVHeader (column :: rest)] rand with
    | error e =>
      rw [generateCSVSync_threw gen {} _ (column :: rest) rand 0 0 e hvalid hcols hl] at hrun
      exact absurd hrun (by simp)
    | ok lines =>
      rw [generateCSVSync_returned gen {} _ (column :: rest) rand 0 0 lines hvalid hcols hl]
        at hrun
      simp only [Except.ok.injEq] at hrun
      rw [← hrun]
  · obtain ⟨lines, hl⟩ :=
      generateLines_returns (fun format _ r => .ok (format, r.tail)) (column :: rest)
        (1000 : Int).toNat [FormatEngine.generateCSVHeader (column :: rest)] rand
        (fun _ _ _ => ⟨_, rfl⟩)
    rw [generateCSVSync_returned (fun format _ r => .ok (format, r.tail)) {} _ (column :: rest)
      rand 0 0 lines hvalid hcols hl]
    rfl

/-- A string without the separator is a single piece of `split`. -/
theorem splitAux_no_sep (sep : Char) (s cur : Str) (h : sep ∉ s) :
    CLI.splitAux sep s cur = [cur.reverse ++ s] := by
  induction s generalizing cur with
  | nil => simp [CLI.splitAux]
  | cons c cs ih =>
    have hc : ¬ (c = sep) := fun heq => h (heq ▸ List.mem_cons_self c cs)
    have hcs : sep ∉ cs := fun hm => h (List.mem_cons_of_mem c hm)
    simp only [CLI.splitAux, hc, if_false, ih _ hcs]
    simp

/-- A long option written `--key value` (with a space): whatever the key
without `=` and the value that does not start with `-`, `parseArgs` stores
`true` under the key and skips the value. -/
theorem parseArgs_long_option_space (command key value : Str) (hcmd : command ≠ [])
    (hkey : '=' ∉ key) (hvalue : ¬ "-".toList.isPrefixOf value = true) :
    CLI.parseArgs [command, "--".toList ++ key, value] =
      { command := command, options := [(key, .flag)] } := by
  have hsplit : CLI.splitOn '=' key = [key] := by
    simpa [CLI.splitOn] using splitAux_no_sep '=' key [] hkey
  have hdd : ¬ "--".toList.isPrefixOf value = true := by
    intro h
    apply hvalue
    cases value with
    | nil => simp [List.isPrefixOf] at h
    | cons c cs =>
      simp only [String.toList, List.isPrefixOf, Bool.and_eq_true, beq_iff_eq] at h ⊢
      exact ⟨h.1, trivial⟩
  have hpre : "--".toList.isPrefixOf ("--".toList ++ key) = true := by
    simp [String.toList, List.isPrefixOf]
  have hdrop : ("--".toList ++ key).drop 2 = key := rfl
  simp only [CLI.parseArgs, hcmd, if_false, CLI.parseArgsLoop, hpre, if_true, hdrop, hsplit,
    List.headD_cons, hdd, hvalue]
  rfl

/-- C29 (failing input): the documented forms `--rows 500` and `--columns
'<json array>'`.  `parseArgs` splits a `--` argument at `=` and never reads
the following argument: it stores `true` under `rows` and under `columns`
and skips the value.  With `--rows 500` the row count falls back to 100;
with `--columns '<json>'` the config gets `JSON.parse(true)`, the boolean
`true`, as its columns, which `validateConfig` rejects.  The forms
`--rows=500` and `-r 500` store the text `500`. -/
theorem cli_long_option_value_dropped (parseJSON : Str → Option FormatEngine.Columns)
    (clock : Nat → Str) :
    CLI.parseArgs ["generate".toList, "--rows".toList, "500".toList] =
      { command := "generate".toList, options := [("rows".toList, .flag)] } ∧
    CLI.assembleConfig parseJSON clock {}
        (CLI.parseArgs ["generate".toList, "--rows".toList, "500".toList]).options =
      .ok { rows := 100, columns := .array CLI.createDefaultColumns } ∧
    CLI.parseArgs ["generate".toList, "--columns".toList,
        "[\x7b\"name\":\"ID\",\"format\":\"uuid\"\x7d]".toList] =
      { command := "generate".toList, options := [("columns".toList, .flag)] } ∧
    CLI.assembleConfig parseJSON clock {}
        (CLI.parseArgs ["generate".toList, "--columns".toList,
          "[\x7b\"name\":\"ID\",\"format\":\"uuid\"\x7d]".toList]).options =
      .ok { rows := 100, columns := .nonArray } ∧
    FormatEngine.validateConfig { rows := 100, columns := .nonArray } =
      [FormatEngine.Violation.noColumns] ∧
    CLI.parseArgs ["generate".toList, "--rows=500".toList] =
      { command := "generate".toList, options := [("rows".toList, .text "500".toList)] } ∧
    CLI.parseArgs ["generate".toList, "-r".toList, "500".toList] =
      { command := "generate".toList, options := [("r".toList, .text "500".toList)] } := by
  refine ⟨by decide, rfl, by decide, rfl, by decide, by decide, by decide⟩


/-! ## Batch size and preview -/

/-- The batch size lies in `[100, 1000]` for every record count. -/
theorem batchSize_range (n : Int) :
    100 ≤ FormatEngine.batchSize n ∧ FormatEngine.batchSize n ≤ 1000 := by
  unfold FormatEngine.batchSize
  omega

/-- The characterisation of the number of batches: `k` batches when `(k - 1) *
size < rows <= k * size`. -/
theorem numBatches_eq (rows size k : Int) (hsize : 0 < size)
    (hlo : (k - 1) * size < rows) (hhi : rows ≤ k * size) :
    FormatEngine.numBatches rows size = k := by
  have hs : (0 : ℚ) < (size : ℚ) := by exact_mod_cast hsize
  unfold FormatEngine.numBatches
  rw [Int.ceil_eq_iff]
  constructor
  · rw [lt_div_iff hs]
    have : (((k - 1) * size : Int) : ℚ) < (rows : ℚ) := by exact_mod_cast hlo
    simpa using this
  · rw [div_le_iff hs]
    exact_mod_cast hhi

/-- C24: for every record count `n >= 1` the batch size `min(1000, max(100,
floor(n / 100)))` of batched generation lies in `[100, 1000]`, and for every
`n` with `10000 <= n <= 100000` the number of batches `ceil(n / batchSize)`
is 100 or 101. -/
theorem batchSize_bounds (n : Int) (_hn : 1 ≤ n) :
    100 ≤ FormatEngine.batchSize n ∧ FormatEngine.batchSize n ≤ 1000 ∧
      (10000 ≤ n → n ≤ 100000 →
        FormatEngine.numBatches n (FormatEngine.batchSize n) = 100 ∨
        FormatEngine.numBatches n (FormatEngine.batchSize n) = 101) := by
  refine ⟨(batchSize_range n).1, (batchSize_range n).2, ?_⟩
  intro h1 h2
  have hb : FormatEngine.batchSize n = n / 100 := by
    unfold FormatEngine.batchSize
    omega
  rw [hb]
  by_cases hexact : n = 100 * (n / 100)
  · left
    apply numBatches_eq n (n / 100) 100 (by omega) <;> omega
  · right
    apply numBatches_eq n (n / 100) 101 (by omega) <;> omega

/-- Witness of C24: 10050 records are generated in 101 batches of 100. -/
theorem batchSize_bounds_witness :
    (1 : Int) ≤ 10050 ∧
    100 ≤ FormatEngine.batchSize 10050 ∧ FormatEngine.batchSize 10050 ≤ 1000 ∧
    (FormatEngine.numBatches 10050 (FormatEngine.batchSize 10050) = 100 ∨
      FormatEngine.numBatches 10050 (FormatEngine.batchSize 10050) = 101) :=
  ⟨by decide, (batchSize_bounds 10050 (by decide)).1, (batchSize_bounds 10050 (by decide)).2.1,
    (batchSize_bounds 10050 (by decide)).2.2 (by decide) (by decide)⟩

/-- Counterexample to C26 as stated: on the config with five rows and the
number column `{ type: 'float', decimals: 101 }`, which `validateConfig`
accepts, `generatePreview(config, 5)` returns no line: for every catalogue
whose number generator is `generateNumber` it throws the `RangeError` of
`toFixed(101)` from the first sample row. -/
theorem generatePreview_throws_on_accepted :
    FormatEngine.validateConfig
        { rows := 5
          columns := .array [{ name := .str "N".toList, format := .str "number".toList,
                               config := some { type := some "float".toList,
                                                decimals := some 101 } }] } = [] ∧
    ∀ (g : FormatEngine.Generators) (render : ℚ → Value)
      (estimate : FormatEngine.Config → Str × Str) (self : FormatEngine.Generator)
      (rand : RandomStream),
      FormatEngine.generatePreview
          (FormatEngine.generateByFormat
            { g with generateNumber := FormatEngine.numberGenerator render })
          estimate self
          { rows := 5
            columns := .array [{ name := .str "N".toList, format := .str "number".toList,
                                 config := some { type := some "float".toList,
                                                  decimals := some 101 } }] }
          5 rand = (.error "RangeError".toList, self) := by
  refine ⟨by decide, ?_⟩
  intro g render estimate self rand
  rfl

/-- C26 (amended): for every `previewRows >= 0`, when `validateConfig`
accepts the config and no generator call throws on its columns,
`generatePreview` returns a preview of exactly `1 + min(config.rows,
previewRows)` lines, the header line first and then the serialised sample
rows; when `previewRows <= config.rows` these are the lines of the data loop
run `previewRows` times, computed without reading `config.rows`; the instance
(`currentData`, `isGenerating`, `shouldStop`, `lastConfig`) is returned
unchanged.  When `validateConfig` reports violations the call throws their
messages and returns no preview, the instance unchanged as well. -/
theorem generatePreview_shape (gen : FormatEngine.FormatGenerator)
    (estimate : FormatEngine.Config → Str × Str) (self : FormatEngine.Generator)
    (config : FormatEngine.Config) (previewRows : Int) (rand : RandomStream)
    (hprev : 0 ≤ previewRows) :
    (FormatEngine.validateConfig config = [] →
      ∀ columns : List FormatEngine.Column, config.columns = .array columns →
      (∀ column ∈ columns, ∀ r : RandomStream,
        ∃ cell, gen column.format (column.config.getD {}) r = .ok cell) →
      ∃ (rows : List (List Value)) (preview : FormatEngine.Preview) (rand2 : RandomStream),
        FormatEngine.generatePreview gen estimate self config previewRows rand =
          (.ok (preview, rand2), self) ∧
        (preview.preview.length : Int) = 1 + min config.rows previewRows ∧
        preview.preview =
          FormatEngine.generateCSVHeader columns :: rows.map FormatEngine.formatRowAsCSV ∧
        (∀ row ∈ rows, ∃ r r2 : RandomStream,
          FormatEngine.generateRow gen columns r = .ok (row, r2)) ∧
        (previewRows ≤ config.rows →
          FormatEngine.generateLines gen columns previewRows.toNat
              [FormatEngine.generateCSVHeader columns] rand =
            .ok (preview.preview, rand2))) ∧
    (FormatEngine.validateConfig config ≠ [] →
      FormatEngine.generatePreview gen estimate self config previewRows rand =
        (.error (joinWith "; ".toList
          ((FormatEngine.validateConfig config).map FormatEngine.Violation.message)), self)) := by
  constructor
  · intro hvalid columns hcols hgen
    obtain ⟨hlo, hhi, _⟩ := validateConfig_accepts config hvalid
    obtain ⟨lines, hlines⟩ := generateLines_returns gen columns
      (min config.rows previewRows).toNat [FormatEngine.generateCSVHeader columns] rand hgen
    obtain ⟨rows, hlen, hrows, heq⟩ := generateLines_spec gen columns
      (min config.rows previewRows).toNat [FormatEngine.generateCSVHeader columns] rand
      lines hlines
    refine ⟨rows,
      { preview := lines.1
        config := config
        estimatedSize := (estimate config).1
        estimatedTime := (estimate config).2 },
      lines.2, ?_, ?_, ?_, hrows, ?_⟩
    · simp only [FormatEngine.generatePreview, hvalid, hcols, hlines]
      rfl
    · show (lines.1.length : Int) = _
      rw [heq]
      simp only [List.length_append, List.length_singleton, List.length_map, hlen]
      omega
    · show lines.1 = _
      rw [heq]
      rfl
    · intro hle
      have hmin : min config.rows previewRows = previewRows := min_eq_right hle
      rw [hmin] at hlines
      exact hlines
  · intro hinvalid
    have hpos : (FormatEngine.validateConfig config).length > 0 := List.length_pos.mpr hinvalid
    simp only [FormatEngine.generatePreview, hpos, if_true]

/-- Witness of C26 (amended): the call of the repository test, three preview
rows of a config with five rows, and an instance whose run state is not the
initial one. -/
theorem generatePreview_shape_witness :
    (0 : Int) ≤ 3 ∧
    FormatEngine.validateConfig
        { rows := 5
          columns := .array [{ name := .str "ID".toList, format := .str "uuid".toList }] } = [] ∧
    ∃ (preview : FormatEngine.Preview) (rand2 : RandomStream),
      FormatEngine.generatePreview (fun format _ r => .ok (format, r.tail))
          (fun _ => ([], []))
          { isGenerating := true, shouldStop := true }
          { rows := 5
            columns := .array [{ name := .str "ID".toList, format := .str "uuid".toList }] }
          3 (fun _ => 0) =
        (.ok (preview, rand2), { isGenerating := true, shouldStop := true }) ∧
      (preview.preview.length : Int) = 1 + min 5 3 := by
  refine ⟨by decide, by decide, ?_⟩
  obtain ⟨rows, preview, rand2, hrun, hlen, _⟩ :=
    (generatePreview_shape (fun format _ r => .ok (format, r.tail)) (fun _ => ([], []))
      { isGenerating := true, shouldStop := true }
      { rows := 5
        columns := .array [{ name := .str "ID".toList, format := .str "uuid".toList }] }
      3 (fun _ => 0) (by decide)).1 (by decide)
      [{ name := .str "ID".toList, format := .str "uuid".toList }] rfl
      (fun _ _ _ => ⟨_, rfl⟩)
  exact ⟨preview, rand2, hrun, hlen⟩

/-! ## Lemmas on batched generation -/

/-- The data loop run for `a + c` iterations is the loop run for `a`
iterations continued for `c` more; an error of the first part is the error
of the whole. -/
theorem generateLines_add (gen : FormatEngine.FormatGenerator)
    (columns : List FormatEngine.Column) (a c : Nat) (csvLines : List Str) (rand : RandomStream) :
    FormatEngine.generateLines gen columns (a + c) csvLines rand =
      match FormatEngine.generateLines gen columns a csvLines rand with
      | .error e => .error e
      | .ok lines => FormatEngine.generateLines gen columns c lines.1 lines.2 := by
  induction a generalizing csvLines rand with
  | zero => simp [FormatEngine.generateLines]
  | succ a ih =>
    rw [Nat.add_right_comm]
    simp only [FormatEngine.generateLines]
    cases FormatEngine.generateRow gen columns rand with
    | error e => rfl
    | ok row => exact ih _ _

/-- A call of `processBatch` that finds the cancellation flag set rejects and
clears `isGenerating`; the variables of the run are not touched. -/
theorem processBatch_cancelled (gen : FormatEngine.FormatGenerator) (hasCallback : Bool)
    (endTime : Int) (self : FormatEngine.Generator) (run : FormatEngine.AsyncRun)
    (h : self.shouldStop = true) :
    FormatEngine.processBatch gen hasCallback endTime self run =
      ({ self with isGenerating := false }, run, .rejected "生成已取消".toList) := by
  unfold FormatEngine.processBatch
  rw [if_pos h]

/-- A call of `processBatch` in which a generator call throws: nothing is
assigned and the promise is left unsettled. -/
theorem processBatch_threw (gen : FormatEngine.FormatGenerator) (hasCallback : Bool)
    (endTime : Int) (self : FormatEngine.Generator) (run : FormatEngine.AsyncRun) (e : Str)
    (h : self.shouldStop = false)
    (hbatch : FormatEngine.generateLines gen run.columns
      (min run.batchSize (run.config.rows - run.processed)).toNat run.csvLines run.rand =
      .error e) :
    FormatEngine.processBatch gen hasCallback endTime self run = (self, run, .uncaught e) := by
  unfold FormatEngine.processBatch
  simp only [h, Bool.false_eq_true, if_false, hbatch]

/-- A call of `processBatch` that leaves records to generate: a full batch is
appended, one progress report is made, and the next call is scheduled. -/
theorem processBatch_pending (gen : FormatEngine.FormatGenerator) (hasCallback : Bool)
    (endTime : Int) (self : FormatEngine.Generator) (config : FormatEngine.Config)
    (columns : List FormatEngine.Column) (startTime : Int) (csvLines : List Str) (b p : Int)
    (rand : RandomStream) (progress : List FormatEngine.ProgressEvent)
    (lines : List Str × RandomStream)
    (h : self.shouldStop = false) (hb : 0 < b) (hlt : p + b < config.rows)
    (hbatch : FormatEngine.generateLines gen columns b.toNat csvLines rand = .ok lines) :
    FormatEngine.processBatch gen hasCallback endTime self
        { config := config, columns := columns, startTime := startTime, csvLines := csvLines,
          batchSize := b, processed := p, rand := rand, progress := progress } =
      (self,
       { config := config, columns := columns, startTime := startTime,
         csvLines := lines.1, batchSize := b, processed := p + b, rand := lines.2,
         progress :=
           if hasCallback then
             progress ++ [{ percent := FormatEngine.progressPercent (p + b) config.rows,
                            processed := p + b, total := config.rows }]
           else progress },
       .pending) := by
  have hmin : min b (config.rows - p) = b := min_eq_left (by omega)
  have htn : (b.toNat : Int) = b := Int.toNat_of_nonneg (by omega)
  unfold FormatEngine.processBatch
  simp only [h, Bool.false_eq_true, if_false, hmin, htn, hbatch]
  rw [if_neg (by omega)]

/-- The last call of `processBatch`: the records left are appended, one
progress report is made, the result is stored and the promise resolved. -/
theorem processBatch_final (gen : FormatEngine.FormatGenerator) (hasCallback : Bool)
    (endTime : Int) (self : FormatEngine.Generator) (config : FormatEngine.Config)
    (columns : List FormatEngine.Column) (startTime : Int) (csvLines : List Str) (b p : Int)
    (rand : RandomStream) (progress : List FormatEngine.ProgressEvent)
    (lines : List Str × RandomStream)
    (h : self.shouldStop = false) (hp : p < config.rows) (hge : config.rows ≤ p + b)
    (hbatch : FormatEngine.generateLines gen columns (config.rows - p).toNat csvLines rand =
      .ok lines) :
    FormatEngine.processBatch gen hasCallback endTime self
        { config := config, columns := columns, startTime := startTime, csvLines := csvLines,
          batchSize := b, processed := p, rand := rand, progress := progress } =
      ({ self with
           isGenerating := false, lastConfig := some config,
           currentData := some
             { content := joinWith ['\n'] lines.1
               config := config
               duration := endTime - startTime
               rows := config.rows
               columns := columns.length
               size := utf16Length (joinWith ['\n'] lines.1) } },
       { config := config, columns := columns, startTime := startTime,
         csvLines := lines.1, batchSize := b, processed := config.rows, rand := lines.2,
         progress :=
           if hasCallback then
             progress ++ [{ percent := FormatEngine.progressPercent config.rows config.rows,
                            processed := config.rows, total := config.rows }]
           else progress },
       .resolved
         { content := joinWith ['\n'] lines.1
           config := config
           duration := endTime - startTime
           rows := config.rows
           columns := columns.length
           size := utf16Length (joinWith ['\n'] lines.1) }) := by
  have hmin : min b (config.rows - p) = config.rows - p := min_eq_right (by omega)
  have htn : p + ((config.rows - p).toNat : Int) = config.rows := by
    rw [Int.toNat_of_nonneg (by omega)]
    omega
  unfold FormatEngine.processBatch
  simp only [h, Bool.false_eq_true, if_false, hmin, htn, hbatch]
  rw [if_pos (le_refl _)]

/-- One scheduled call that leaves records to generate hands over to the next
call. -/
theorem runBatches_step_pending (gen : FormatEngine.FormatGenerator) (hasCallback : Bool)
    (endTime : Int) (stops : Nat → Bool) (fuel k : Nat) (self : FormatEngine.Generator)
    (config : FormatEngine.Config) (columns : List FormatEngine.Column) (startTime : Int)
    (csvLines : List Str) (b p : Int) (rand : RandomStream)
    (progress : List FormatEngine.ProgressEvent) (lines : List Str × RandomStream)
    (hk : stops k = false) (h : self.shouldStop = false) (hb : 0 < b)
    (hlt : p + b < config.rows)
    (hbatch : FormatEngine.generateLines gen columns b.toNat csvLines rand = .ok lines) :
    FormatEngine.runBatches gen hasCallback endTime stops (fuel + 1) k self
        { config := config, columns := columns, startTime := startTime, csvLines := csvLines,
          batchSize := b, processed := p, rand := rand, progress := progress } =
      FormatEngine.runBatches gen hasCallback endTime stops fuel (k + 1) self
        { config := config, columns := columns, startTime := startTime,
          csvLines := lines.1, batchSize := b, processed := p + b, rand := lines.2,
          progress :=
            if hasCallback then
              progress ++ [{ percent := FormatEngine.progressPercent (p + b) config.rows,
                             processed := p + b, total := config.rows }]
            else progress } := by
  rw [FormatEngine.runBatches, hk]
  simp only [Bool.false_eq_true, if_false]
  rw [processBatch_pending gen hasCallback endTime self config columns startTime csvLines
    b p rand progress lines h hb hlt hbatch]

/-- A scheduled call that does not hand over returns what `processBatch`
returns. -/
theorem runBatches_step_settled (gen : FormatEngine.FormatGenerator) (hasCallback : Bool)
    (endTime : Int) (stops : Nat → Bool) (fuel k : Nat) (self : FormatEngine.Generator)
    (run : FormatEngine.AsyncRun) (hk : stops k = false)
    (hsettled : (FormatEngine.processBatch gen hasCallback endTime self run).2.2 ≠
      FormatEngine.Settled.pending) :
    FormatEngine.runBatches gen hasCallback endTime stops (fuel + 1) k self run =
      FormatEngine.processBatch gen hasCallback endTime self run := by
  rw [FormatEngine.runBatches, hk]
  simp only [Bool.false_eq_true, if_false]
  rcases hpb : FormatEngine.processBatch gen hasCallback endTime self run with ⟨s2, r2, st⟩
  rw [hpb] at hsettled
  cases st with
  | pending => exact absurd rfl hsettled
  | resolved result => rfl
  | rejected message => rfl
  | uncaught message => rfl

/-- The map of a function over `range (m + 1)`, first element apart. -/
theorem map_range_succ {α : Type} (f : Nat → α) (m : Nat) :
    (List.range (m + 1)).map f = f 0 :: (List.range m).map (fun (i : Nat) => f (i + 1)) := by
  rw [List.range_succ_eq_map, List.map_cons, List.map_map]
  rfl

/-- The progress reports of a run: the report of the first batch, then the
reports of the run continued after it. -/
theorem progress_events_step (rows p b : Int) (m : Nat) (hlt : p + b < rows) :
    ({ percent := FormatEngine.progressPercent (p + b) rows,
       processed := p + b, total := rows } : FormatEngine.ProgressEvent) ::
      (List.range m).map (fun (i : Nat) =>
        ({ percent := FormatEngine.progressPercent (min (p + b + ((i : Int) + 1) * b) rows) rows,
           processed := min (p + b + ((i : Int) + 1) * b) rows,
           total := rows } : FormatEngine.ProgressEvent)) =
      (List.range (m + 1)).map (fun (i : Nat) =>
        ({ percent := FormatEngine.progressPercent (min (p + ((i : Int) + 1) * b) rows) rows,
           processed := min (p + ((i : Int) + 1) * b) rows,
           total := rows } : FormatEngine.ProgressEvent)) := by
  rw [map_range_succ]
  have h0 : min (p + (((0 : Nat) : Int) + 1) * b) rows = p + b := by
    have : p + (((0 : Nat) : Int) + 1) * b = p + b := by
      rw [Nat.cast_zero, zero_add, one_mul]
    rw [this]
    exact min_eq_left hlt.le
  have hf : (fun i : Nat =>
        ({ percent := FormatEngine.progressPercent (min (p + b + ((i : Int) + 1) * b) rows) rows,
           processed := min (p + b + ((i : Int) + 1) * b) rows,
           total := rows } : FormatEngine.ProgressEvent)) =
      (fun i : Nat =>
        ({ percent := FormatEngine.progressPercent
             (min (p + (((i + 1 : Nat) : Int) + 1) * b) rows) rows,
           processed := min (p + (((i + 1 : Nat) : Int) + 1) * b) rows,
           total := rows } : FormatEngine.ProgressEvent)) := by
    funext i
    have hi : p + b + ((i : Int) + 1) * b = p + (((i + 1 : Nat) : Int) + 1) * b := by
      rw [Nat.cast_add, Nat.cast_one]
      ring
    rw [hi]
  rw [hf, h0]


/-- An uncancelled run whose data loop over the records left returns settles
by resolving: with `m` the number of calls of `processBatch` still needed,
the lines are those of the data loop, and one progress report is made per
call. -/
theorem runBatches_uncancelled (gen : FormatEngine.FormatGenerator) (hasCallback : Bool)
    (endTime : Int) (stops : Nat → Bool) (hstops : ∀ j, stops j = false)
    (config : FormatEngine.Config) (columns : List FormatEngine.Column) (startTime b : Int)
    (hb : 0 < b) (lines : List Str × RandomStream) :
    ∀ (fuel k : Nat) (self : FormatEngine.Generator) (csvLines : List Str) (p : Int)
      (rand : RandomStream) (progress : List FormatEngine.ProgressEvent),
      self.shouldStop = false → p < config.rows → (config.rows - p).toNat ≤ fuel →
      FormatEngine.generateLines gen columns (config.rows - p).toNat csvLines rand =
        .ok lines →
      ∃ m : Nat, 1 ≤ m ∧ p + ((m : Int) - 1) * b < config.rows ∧
        config.rows ≤ p + (m : Int) * b ∧
        FormatEngine.runBatches gen hasCallback endTime stops fuel k self
            { config := config, columns := columns, startTime := startTime,
              csvLines := csvLines, batchSize := b, processed := p, rand := rand,
              progress := progress } =
          ({ self with
               isGenerating := false, lastConfig := some config,
               currentData := some
                 { content := joinWith ['\n'] lines.1
                   config := config
                   duration := endTime - startTime
                   rows := config.rows
                   columns := columns.length
                   size := utf16Length (joinWith ['\n'] lines.1) } },
           { config := config, columns := columns, startTime := startTime,
             csvLines := lines.1, batchSize := b, processed := config.rows, rand := lines.2,
             progress :=
               if hasCallback then
                 progress ++ (List.range m).map (fun (i : Nat) =>
                   ({ percent := FormatEngine.progressPercent
                        (min (p + ((i : Int) + 1) * b) config.rows) config.rows,
                      processed := min (p + ((i : Int) + 1) * b) config.rows,
                      total := config.rows } : FormatEngine.ProgressEvent))
               else progress },
           .resolved
             { content := joinWith ['\n'] lines.1
               config := config
               duration := endTime - startTime
               rows := config.rows
               columns := columns.length
               size := utf16Length (joinWith ['\n'] lines.1) }) := by
  intro fuel
  induction fuel with
  | zero =>
    intro k self csvLines p rand progress _ hp hfuel _
    omega
  | succ fuel ih =>
    intro k self csvLines p rand progress hstop hp hfuel hall
    by_cases hlt : p + b < config.rows
    · have hsplit : (config.rows - p).toNat = b.toNat + (config.rows - (p + b)).toNat := by
        omega
      rw [hsplit, generateLines_add] at hall
      cases hfirst : FormatEngine.generateLines gen columns b.toNat csvLines rand with
      | error e =>
        rw [hfirst] at hall
        simp at hall
      | ok first =>
        rw [hfirst] at hall
        simp only at hall
        obtain ⟨m, hm, hlo, hhi, heq⟩ :=
          ih (k + 1) self first.1 (p + b) first.2
            (if hasCallback then
               progress ++ [{ percent := FormatEngine.progressPercent (p + b) config.rows,
                              processed := p + b, total := config.rows }]
             else progress)
            hstop hlt (by omega) hall
        have hcast : (((m + 1 : Nat) : Int)) = (m : Int) + 1 := by push_cast; rfl
        refine ⟨m + 1, by omega, ?_, ?_, ?_⟩
        · rw [hcast]
          have : p + ((m : Int) + 1 - 1) * b = p + b + ((m : Int) - 1) * b := by ring
          omega
        · rw [hcast]
          have : p + ((m : Int) + 1) * b = p + b + (m : Int) * b := by ring
          omega
        · have hE : (if hasCallback then
                (if hasCallback then
                  progress ++ [({ percent := FormatEngine.progressPercent (p + b) config.rows,
                                  processed := p + b, total := config.rows } :
                                FormatEngine.ProgressEvent)]
                 else progress) ++ (List.range m).map (fun (i : Nat) =>
                  ({ percent := FormatEngine.progressPercent
                       (min (p + b + ((i : Int) + 1) * b) config.rows) config.rows,
                     processed := min (p + b + ((i : Int) + 1) * b) config.rows,
                     total := config.rows } : FormatEngine.ProgressEvent))
               else
                (if hasCallback then
                  progress ++ [({ percent := FormatEngine.progressPercent (p + b) config.rows,
                                  processed := p + b, total := config.rows } :
                                FormatEngine.ProgressEvent)]
                 else progress)) =
              (if hasCallback then
                progress ++ (List.range (m + 1)).map (fun (i : Nat) =>
                  ({ percent := FormatEngine.progressPercent
                       (min (p + ((i : Int) + 1) * b) config.rows) config.rows,
                     processed := min (p + ((i : Int) + 1) * b) config.rows,
                     total := config.rows } : FormatEngine.ProgressEvent))
               else progress) := by
            cases hasCallback with
            | false => simp only [Bool.false_eq_true, if_false]
            | true =>
              simp only [if_true]
              rw [← progress_events_step config.rows p b m hlt, List.append_assoc,
                List.singleton_append]
          rw [runBatches_step_pending gen hasCallback endTime stops fuel k self config columns
            startTime csvLines b p rand progress first (hstops k) hstop hb hlt hfirst, heq, hE]
    · refine ⟨1, le_refl _, by push_cast; omega, by push_cast; omega, ?_⟩
      have hfinal := processBatch_final gen hasCallback endTime self config columns startTime
        csvLines b p rand progress lines hstop hp (by omega) hall
      rw [runBatches_step_settled gen hasCallback endTime stops fuel k self _ (hstops k)
        (by rw [hfinal]; simp), hfinal]
      have h0 : min (p + (((0 : Nat) : Int) + 1) * b) config.rows = config.rows := by
        rw [min_eq_right]; push_cast; omega
      simp only [List.range_succ, List.range_zero, List.nil_append, List.map_cons, List.map_nil,
        h0]

/-- An uncancelled run whose data loop over the records left throws leaves
the promise unsettled at the call of `processBatch` in which the generator
throws; no field of the instance is assigned. -/
theorem runBatches_threw (gen : FormatEngine.FormatGenerator) (hasCallback : Bool)
    (endTime : Int) (stops : Nat → Bool) (hstops : ∀ j, stops j = false)
    (config : FormatEngine.Config) (columns : List FormatEngine.Column) (startTime b : Int)
    (hb : 0 < b) (e : Str) :
    ∀ (fuel k : Nat) (self : FormatEngine.Generator) (csvLines : List Str) (p : Int)
      (rand : RandomStream) (progress : List FormatEngine.ProgressEvent),
      self.shouldStop = false → p < config.rows → (config.rows - p).toNat ≤ fuel →
      FormatEngine.generateLines gen columns (config.rows - p).toNat csvLines rand =
        .error e →
      ∃ run : FormatEngine.AsyncRun,
        FormatEngine.runBatches gen hasCallback endTime stops fuel k self
            { config := config, columns := columns, startTime := startTime,
              csvLines := csvLines, batchSize := b, processed := p, rand := rand,
              progress := progress } = (self, run, .uncaught e) := by
  intro fuel
  induction fuel with
  | zero =>
    intro k self csvLines p rand progress _ hp hfuel _
    omega
  | succ fuel ih =>
    intro k self csvLines p rand progress hstop hp hfuel hall
    by_cases hlt : p + b < config.rows
    · have hsplit : (config.rows - p).toNat = b.toNat + (config.rows - (p + b)).toNat := by
        omega
      rw [hsplit, generateLines_add] at hall
      cases hfirst : FormatEngine.generateLines gen columns b.toNat csvLines rand with
      | error e1 =>
        rw [hfirst] at hall
        simp only [Except.error.injEq] at hall
        subst hall
        have hmin : min b (config.rows - p) = b := min_eq_left (by omega)
        have hthrew := processBatch_threw gen hasCallback endTime self
          { config := config, columns := columns, startTime := startTime,
            csvLines := csvLines, batchSize := b, processed := p, rand := rand,
            progress := progress } e1 hstop (by simp only [hmin]; exact hfirst)
        refine ⟨{ config := config, columns := columns, startTime := startTime,
                  csvLines := csvLines, batchSize := b, processed := p, rand := rand,
                  progress := progress }, ?_⟩
        rw [runBatches_step_settled gen hasCallback endTime stops fuel k self _ (hstops k)
          (by rw [hthrew]; simp), hthrew]
      | ok first =>
        rw [hfirst] at hall
        simp only at hall
        obtain ⟨run, heq⟩ :=
          ih (k + 1) self first.1 (p + b) first.2
            (if hasCallback then
               progress ++ [{ percent := FormatEngine.progressPercent (p + b) config.rows,
                              processed := p + b, total := config.rows }]
             else progress)
            hstop hlt (by omega) hall
        refine ⟨run, ?_⟩
        rw [runBatches_step_pending gen hasCallback endTime stops fuel k self config columns
          startTime csvLines b p rand progress first (hstops k) hstop hb hlt hfirst, heq]
    · have hmin : min b (config.rows - p) = config.rows - p := min_eq_right (by omega)
      have hthrew := processBatch_threw gen hasCallback endTime self
        { config := config, columns := columns, startTime := startTime,
          csvLines := csvLines, batchSize := b, processed := p, rand := rand,
          progress := progress } e hstop (by simp only [hmin]; exact hall)
      refine ⟨{ config := config, columns := columns, startTime := startTime,
                csvLines := csvLines, batchSize := b, processed := p, rand := rand,
                progress := progress }, ?_⟩
      rw [runBatches_step_settled gen hasCallback endTime stops fuel k self _ (hstops k)
        (by rw [hthrew]; simp), hthrew]

/-- A run cancelled before its call of index `k + d`, the `d` batches before
it having returned, settles by rejecting at that call: the `d` calls before
it each append one full batch, no line is appended after that, and only
`shouldStop` and `isGenerating` of the instance change. -/
theorem runBatches_cancelled (gen : FormatEngine.FormatGenerator) (hasCallback : Bool)
    (endTime : Int) (stops : Nat → Bool)
    (config : FormatEngine.Config) (columns : List FormatEngine.Column) (startTime b : Int)
    (hb : 0 < b) (lines : List Str × RandomStream) :
    ∀ (d fuel k : Nat) (self : FormatEngine.Generator) (csvLines : List Str) (p : Int)
      (rand : RandomStream) (progress : List FormatEngine.ProgressEvent),
      (∀ j, j < d → stops (k + j) = false) → stops (k + d) = true →
      self.shouldStop = false → p + (d : Int) * b < config.rows → d + 1 ≤ fuel →
      FormatEngine.generateLines gen columns ((d : Int) * b).toNat csvLines rand = .ok lines →
      ∃ run : FormatEngine.AsyncRun,
        FormatEngine.runBatches gen hasCallback endTime stops fuel k self
            { config := config, columns := columns, startTime := startTime,
              csvLines := csvLines, batchSize := b, processed := p, rand := rand,
              progress := progress } =
          ({ self with shouldStop := true, isGenerating := false }, run,
            .rejected "生成已取消".toList) ∧
        run.processed = p + (d : Int) * b ∧
        run.csvLines = lines.1 ∧ run.rand = lines.2 := by
  intro d
  induction d with
  | zero =>
    intro fuel k self csvLines p rand progress _ hstop hself _ hfuel hfirst
    obtain ⟨fuel, rfl⟩ : ∃ f, fuel = f + 1 := ⟨fuel - 1, by omega⟩
    simp only [Nat.cast_zero, zero_mul, Int.toNat_zero, FormatEngine.generateLines,
      Except.ok.injEq] at hfirst
    refine ⟨{ config := config, columns := columns, startTime := startTime,
              csvLines := csvLines, batchSize := b, processed := p, rand := rand,
              progress := progress }, ?_, ?_, ?_, ?_⟩
    · unfold FormatEngine.runBatches
      rw [Nat.add_zero] at hstop
      simp only [hstop, if_true]
      rw [processBatch_cancelled gen hasCallback endTime _ _ rfl]
      rfl
    · simp
    · rw [← hfirst]
    · rw [← hfirst]
  | succ d ih =>
    intro fuel k self csvLines p rand progress hbefore hstop hself hleft hfuel hfirst
    obtain ⟨fuel, rfl⟩ : ∃ f, fuel = f + 1 := ⟨fuel - 1, by omega⟩
    have hcast : (((d + 1 : Nat) : Int)) = (d : Int) + 1 := by push_cast; rfl
    have hexp : ((d : Int) + 1) * b = (d : Int) * b + b := by ring
    have hdb : 0 ≤ (d : Int) * b := mul_nonneg (by omega) hb.le
    rw [hcast, hexp] at hleft hfirst
    have hlt : p + b < config.rows := by omega
    have hsplit : ((d : Int) * b + b).toNat = b.toNat + ((d : Int) * b).toNat := by omega
    rw [hsplit, generateLines_add] at hfirst
    cases hbatch : FormatEngine.generateLines gen columns b.toNat csvLines rand with
    | error e =>
      rw [hbatch] at hfirst
      simp at hfirst
    | ok first =>
      rw [hbatch] at hfirst
      simp only at hfirst
      obtain ⟨run, heq, hproc, hlines, hrand⟩ :=
        ih fuel (k + 1) self first.1 (p + b) first.2
          (if hasCallback then
             progress ++ [{ percent := FormatEngine.progressPercent (p + b) config.rows,
                            processed := p + b, total := config.rows }]
           else progress)
          (fun j hj => by
            have := hbefore (j + 1) (by omega)
            rwa [show k + (j + 1) = k + 1 + j by omega] at this)
          (by rwa [show k + (d + 1) = k + 1 + d by omega] at hstop)
          hself (by omega) (by omega) hfirst
      refine ⟨run, ?_, ?_, hlines, hrand⟩
      · have hk : stops k = false := by
          have := hbefore 0 (by omega)
          simpa using this
        rw [runBatches_step_pending gen hasCallback endTime stops fuel k self config columns
          startTime csvLines b p rand progress first hk hself hb hlt hbatch, heq]
      · rw [hproc, hcast, hexp]
        omega

/-- The synchronous part of `generateCSVAsync` on an accepted config. -/
theorem startCSVAsync_accepted (self : FormatEngine.Generator) (config : FormatEngine.Config)
    (columns : List FormatEngine.Column) (rand : RandomStream) (startTime : Int)
    (hvalid : FormatEngine.validateConfig config = [])
    (hcols : config.columns = .array columns) :
    FormatEngine.startCSVAsync self config rand startTime =
      .ok ({ self with isGenerating := true, shouldStop := false },
           { config := config, columns := columns, startTime := startTime,
             csvLines := [FormatEngine.generateCSVHeader columns],
             batchSize := FormatEngine.batchSize config.rows, processed := 0, rand := rand,
             progress := [] }) := by
  simp only [FormatEngine.startCSVAsync, hvalid, hcols]
  rfl

/-- An uncancelled run of `generateCSVAsync` on an accepted config, the data
loop of which returns, resolves: `m` calls of `processBatch` are made, the
lines are those of the data loop of `generateCSVSync`, and each call makes
one progress report. -/
theorem generateCSVAsync_uncancelled (gen : FormatEngine.FormatGenerator) (hasCallback : Bool)
    (self : FormatEngine.Generator) (config : FormatEngine.Config)
    (columns : List FormatEngine.Column) (rand : RandomStream) (startTime endTime : Int)
    (stops : Nat → Bool) (lines : List Str × RandomStream)
    (hvalid : FormatEngine.validateConfig config = [])
    (hcols : config.columns = .array columns) (hstops : ∀ j, stops j = false)
    (hall : FormatEngine.generateLines gen columns config.rows.toNat
      [FormatEngine.generateCSVHeader columns] rand = .ok lines) :
    ∃ m : Nat, 1 ≤ m ∧
      ((m : Int) - 1) * FormatEngine.batchSize config.rows < config.rows ∧
      config.rows ≤ (m : Int) * FormatEngine.batchSize config.rows ∧
      FormatEngine.generateCSVAsync gen hasCallback self config rand startTime endTime stops =
        ({ isGenerating := false, shouldStop := false, lastConfig := some config,
           currentData := some
             { content := joinWith ['\n'] lines.1
               config := config
               duration := endTime - startTime
               rows := config.rows
               columns := columns.length
               size := utf16Length (joinWith ['\n'] lines.1) } },
         some
           { config := config, columns := columns, startTime := startTime,
             csvLines := lines.1,
             batchSize := FormatEngine.batchSize config.rows, processed := config.rows,
             rand := lines.2,
             progress :=
               if hasCallback then
                 (List.range m).map (fun (i : Nat) =>
                   ({ percent := FormatEngine.progressPercent
                        (min (((i : Int) + 1) * FormatEngine.batchSize config.rows) config.rows)
                        config.rows,
                      processed :=
                        min (((i : Int) + 1) * FormatEngine.batchSize config.rows) config.rows,
                      total := config.rows } : FormatEngine.ProgressEvent))
               else [] },
         .resolved
           { content := joinWith ['\n'] lines.1
             config := config
             duration := endTime - startTime
             rows := config.rows
             columns := columns.length
             size := utf16Length (joinWith ['\n'] lines.1) }) := by
  obtain ⟨hlo, hhi, _⟩ := validateConfig_accepts config hvalid
  have hb := (batchSize_range config.rows).1
  obtain ⟨m, hm, h1, h2, heq⟩ :=
    runBatches_uncancelled gen hasCallback endTime stops hstops config columns startTime
      (FormatEngine.batchSize config.rows) (by omega) lines config.rows.toNat 0
      { self with isGenerating := true, shouldStop := false }
      [FormatEngine.generateCSVHeader columns] 0 rand [] rfl (by omega) (by simp)
      (by rw [sub_zero]; exact hall)
  rw [zero_add] at h1 h2
  refine ⟨m, hm, h1, h2, ?_⟩
  unfold FormatEngine.generateCSVAsync
  rw [startCSVAsync_accepted self config columns rand startTime hvalid hcols]
  simp only []
  rw [heq]
  simp only [zero_add, List.nil_append]

/-- An uncancelled run of `generateCSVAsync` on an accepted config, the data
loop of which throws, never settles its promise: `isGenerating` stays true
and no result is stored. -/
theorem generateCSVAsync_threw (gen : FormatEngine.FormatGenerator) (hasCallback : Bool)
    (self : FormatEngine.Generator) (config : FormatEngine.Config)
    (columns : List FormatEngine.Column) (rand : RandomStream) (startTime endTime : Int)
    (stops : Nat → Bool) (e : Str)
    (hvalid : FormatEngine.validateConfig config = [])
    (hcols : config.columns = .array columns) (hstops : ∀ j, stops j = false)
    (hall : FormatEngine.generateLines gen columns config.rows.toNat
      [FormatEngine.generateCSVHeader columns] rand = .error e) :
    ∃ run : FormatEngine.AsyncRun,
      FormatEngine.generateCSVAsync gen hasCallback self config rand startTime endTime stops =
        ({ self with isGenerating := true, shouldStop := false }, some run, .uncaught e) := by
  obtain ⟨hlo, hhi, _⟩ := validateConfig_accepts config hvalid
  have hb := (batchSize_range config.rows).1
  obtain ⟨run, heq⟩ :=
    runBatches_threw gen hasCallback endTime stops hstops config columns startTime
      (FormatEngine.batchSize config.rows) (by omega) e config.rows.toNat 0
      { self with isGenerating := true, shouldStop := false }
      [FormatEngine.generateCSVHeader columns] 0 rand [] rfl (by omega) (by simp)
      (by rw [sub_zero]; exact hall)
  refine ⟨run, ?_⟩
  unfold FormatEngine.generateCSVAsync
  rw [startCSVAsync_accepted self config columns rand startTime hvalid hcols]
  simp only []
  rw [heq]

/-! ## Batched generation: progress, equivalence with the single pass, cancellation -/
/-- The progress reports of an uncancelled run with callback: `m` reports,
`m` the number of batches, the `k`-th with `processed = min (k * b) n`. -/
theorem progress_events_spec (n b : Int) (m : Nat) (hb : 0 < b) (hn : 0 < n) (hm : 1 ≤ m)
    (hlo : ((m : Int) - 1) * b < n) (hhi : n ≤ (m : Int) * b)
    (events : List FormatEngine.ProgressEvent)
    (hevents : events = (List.range m).map (fun (i : Nat) =>
      ({ percent := FormatEngine.progressPercent (min (((i : Int) + 1) * b) n) n,
         processed := min (((i : Int) + 1) * b) n,
         total := n } : FormatEngine.ProgressEvent))) :
    (events.length : Int) = FormatEngine.numBatches n b ∧
    (∀ k : Nat, 1 ≤ k → k ≤ events.length →
      events[k - 1]? = some
        { percent := FormatEngine.progressPercent (min ((k : Int) * b) n) n,
          processed := min ((k : Int) * b) n, total := n }) ∧
    (∀ e ∈ events, 0 ≤ e.percent ∧ e.percent ≤ 100) ∧
    events.Pairwise (fun e1 e2 => e1.processed < e2.processed ∧ e1.percent ≤ e2.percent) ∧
    events.getLast? = some { percent := 100, processed := n, total := n } := by
  have hlen : events.length = m := by
    rw [hevents, List.length_map, List.length_range]
  have hpos : ∀ i : Nat, 0 < min (((i : Int) + 1) * b) n := by
    intro i
    have : 0 < ((i : Int) + 1) * b := mul_pos (by omega) hb
    exact lt_min this hn
  refine ⟨?_, ?_, ?_, ?_, ?_⟩
  · rw [hlen]
    exact (numBatches_eq n b m hb hlo hhi).symm
  · intro k hk1 hk2
    rw [hlen] at hk2
    have hk : ((k - 1 : Nat) : Int) + 1 = (k : Int) := by omega
    rw [hevents, List.getElem?_map, List.getElem?_range (by omega)]
    simp only [Option.map_some', hk]
  · intro e he
    rw [hevents] at he
    obtain ⟨i, _, rfl⟩ := List.mem_map.mp he
    constructor
    · exact progressPercent_nonneg n _ hn (hpos i).le
    · have := progressPercent_mono n _ n hn (hpos i) (min_le_right _ _)
      rw [progressPercent_self n hn] at this
      exact this
  · rw [hevents, List.pairwise_map]
    refine List.Pairwise.imp_of_mem ?_ (List.pairwise_lt_range m)
    intro i j hi hj hij
    have hjm : j < m := List.mem_range.mp hj
    have hstep : ((i : Int) + 1) * b < ((j : Int) + 1) * b :=
      mul_lt_mul_of_pos_right (by omega) hb
    have hfit : ((i : Int) + 1) * b ≤ ((m : Int) - 1) * b :=
      mul_le_mul_of_nonneg_right (by omega) hb.le
    have hmin : min (((i : Int) + 1) * b) n = ((i : Int) + 1) * b :=
      min_eq_left (by omega)
    have hlt : min (((i : Int) + 1) * b) n < min (((j : Int) + 1) * b) n := by
      rw [hmin]
      exact lt_min hstep (by omega)
    exact ⟨hlt, progressPercent_mono n _ _ hn (hpos i) hlt.le⟩
  · obtain ⟨m, rfl⟩ : ∃ m0, m = m0 + 1 := ⟨m - 1, by omega⟩
    have hcast : (((m + 1 : Nat) : Int)) = (m : Int) + 1 := by push_cast; rfl
    rw [hcast] at hhi
    rw [hevents, List.range_succ, List.map_append, List.map_cons, List.map_nil,
      List.getLast?_concat, min_eq_right hhi, progressPercent_self n hn]

/-- Counterexample to C30 as stated: `validateConfig` accepts the config with
one row and the number column `{ type: 'float', decimals: 101 }`, and an
uncancelled run of `generateCSVAsync` on it does not resolve: the call of
`processBatch` throws the `RangeError` of `toFixed(101)` inside the timer
callback, the promise is never settled and `isGenerating` stays true, while
`generateCSVSync` on the same config throws the same error to its caller. -/
theorem generateCSVAsync_unsettled_on_accepted :
    FormatEngine.validateConfig
        { rows := 1
          columns := .array [{ name := .str "N".toList, format := .str "number".toList,
                               config := some { type := some "float".toList,
                                                decimals := some 101 } }] } = [] ∧
    ∀ (g : FormatEngine.Generators) (render : ℚ → Value) (hasCallback : Bool)
      (self : FormatEngine.Generator) (rand : RandomStream) (startTime endTime : Int),
      (∃ run : FormatEngine.AsyncRun,
        FormatEngine.generateCSVAsync
            (FormatEngine.generateByFormat
              { g with generateNumber := FormatEngine.numberGenerator render })
            hasCallback self
            { rows := 1
              columns := .array [{ name := .str "N".toList, format := .str "number".toList,
                                   config := some { type := some "float".toList,
                                                    decimals := some 101 } }] }
            rand startTime endTime (fun _ => false) =
          ({ self with isGenerating := true, shouldStop := false }, some run,
            .uncaught "RangeError".toList)) ∧
      FormatEngine.generateCSVSync
          (FormatEngine.generateByFormat
            { g with generateNumber := FormatEngine.numberGenerator render })
          self
          { rows := 1
            columns := .array [{ name := .str "N".toList, format := .str "number".toList,
                                 config := some { type := some "float".toList,
                                                  decimals := some 101 } }] }
          rand startTime endTime = .error "RangeError".toList := by
  refine ⟨by decide, ?_⟩
  intro g render hasCallback self rand startTime endTime
  refine ⟨?_, rfl⟩
  exact generateCSVAsync_threw _ hasCallback self _
    [{ name := .str "N".toList, format := .str "number".toList,
       config := some { type := some "float".toList, decimals := some 101 } }]
    rand startTime endTime (fun _ => false) "RangeError".toList (by decide) rfl
    (fun _ => rfl) rfl

/-- C30 (amended): for every config that `validateConfig` accepts, every
generator catalogue, every random stream and every instance, an uncancelled
run of `generateCSVAsync` (with or without progress callback) follows
`generateCSVSync` on the same config and random stream.  When
`generateCSVSync` returns, the batched run resolves with the same `content`,
`rows`, `columns` and `size`, the random stream left is the same, and the
batched run stores its result in `currentData` and clears `isGenerating`.
When `generateCSVSync` throws, the batched run never settles its promise and
leaves `isGenerating` true.  When no generator call throws on the columns of
the config, `generateCSVSync` returns. -/
theorem async_matches_sync (gen : FormatEngine.FormatGenerator) (hasCallback : Bool)
    (self : FormatEngine.Generator) (config : FormatEngine.Config)
    (columns : List FormatEngine.Column) (rand : RandomStream)
    (startTime endTime syncStart syncEnd : Int) (stops : Nat → Bool)
    (hvalid : FormatEngine.validateConfig config = [])
    (hcols : config.columns = .array columns) (hstops : ∀ j, stops j = false) :
    (∀ (syncResult : FormatEngine.Result) (self3 : FormatEngine.Generator)
        (rand3 : RandomStream),
      FormatEngine.generateCSVSync gen self config rand syncStart syncEnd =
        .ok (syncResult, self3, rand3) →
      ∃ (self2 : FormatEngine.Generator) (run : FormatEngine.AsyncRun)
        (result : FormatEngine.Result),
        FormatEngine.generateCSVAsync gen hasCallback self config rand startTime endTime
            stops = (self2, some run, .resolved result) ∧
        result.content = syncResult.content ∧ result.rows = syncResult.rows ∧
        result.columns = syncResult.columns ∧ result.size = syncResult.size ∧
        run.rand = rand3 ∧ self2.currentData = some result ∧ self2.isGenerating = false) ∧
    (∀ e : Str,
      FormatEngine.generateCSVSync gen self config rand syncStart syncEnd = .error e →
      ∃ run : FormatEngine.AsyncRun,
        FormatEngine.generateCSVAsync gen hasCallback self config rand startTime endTime
            stops =
          ({ self with isGenerating := true, shouldStop := false }, some run, .uncaught e)) ∧
    ((∀ column ∈ columns, ∀ r : RandomStream,
        ∃ cell, gen column.format (column.config.getD {}) r = .ok cell) →
      ∃ r, FormatEngine.generateCSVSync gen self config rand syncStart syncEnd = .ok r) := by
  refine ⟨?_, ?_, ?_⟩
  · intro syncResult self3 rand3 hsync
    cases hall : FormatEngine.generateLines gen columns config.rows.toNat
        [FormatEngine.generateCSVHeader columns] rand with
    | error e =>
      rw [generateCSVSync_threw gen self config columns rand syncStart syncEnd e hvalid hcols
        hall] at hsync
      exact absurd hsync (by simp)
    | ok lines =>
      rw [generateCSVSync_returned gen self config columns rand syncStart syncEnd lines hvalid
        hcols hall] at hsync
      simp only [Except.ok.injEq, Prod.mk.injEq] at hsync
      obtain ⟨hres, _, hrand⟩ := hsync
      obtain ⟨m, _, _, _, heq⟩ :=
        generateCSVAsync_uncancelled gen hasCallback self config columns rand startTime
          endTime stops lines hvalid hcols hstops hall
      refine ⟨_, _, _, heq, ?_, ?_, ?_, ?_, hrand, rfl, rfl⟩
      · rw [← hres]
      · rw [← hres]
      · rw [← hres]
      · rw [← hres]
  · intro e hsync
    cases hall : FormatEngine.generateLines gen columns config.rows.toNat
        [FormatEngine.generateCSVHeader columns] rand with
    | error e1 =>
      rw [generateCSVSync_threw gen self config columns rand syncStart syncEnd e1 hvalid hcols
        hall] at hsync
      simp only [Except.error.injEq] at hsync
      subst hsync
      exact generateCSVAsync_threw gen hasCallback self config columns rand startTime endTime
        stops e1 hvalid hcols hstops hall
    | ok lines =>
      rw [generateCSVSync_returned gen self config columns rand syncStart syncEnd lines hvalid
        hcols hall] at hsync
      exact absurd hsync (by simp)
  · intro hgen
    obtain ⟨lines, hall⟩ := generateLines_returns gen columns config.rows.toNat
      [FormatEngine.generateCSVHeader columns] rand hgen
    exact ⟨_, generateCSVSync_returned gen self config columns rand syncStart syncEnd lines
      hvalid hcols hall⟩

/-- Witness of C30 (amended): 250 records in batches of 100 and in one
pass. -/
theorem async_matches_sync_witness :
    FormatEngine.validateConfig
        { rows := 250
          columns := .array [{ name := .str "ID".toList, format := .str "uuid".toList }] } = [] ∧
    ∃ (result syncResult : FormatEngine.Result),
      (FormatEngine.generateCSVAsync (fun format _ r => .ok (format, r.tail)) true {}
          { rows := 250
            columns := .array [{ name := .str "ID".toList, format := .str "uuid".toList }] }
          (fun _ => 0) 0 0 (fun _ => false)).2.2 = .resolved result ∧
      Except.map (fun r => r.1)
          (FormatEngine.generateCSVSync (fun format _ r => .ok (format, r.tail)) {}
            { rows := 250
              columns := .array [{ name := .str "ID".toList, format := .str "uuid".toList }] }
            (fun _ => 0) 0 0) = .ok syncResult ∧
      result.content = syncResult.content ∧ result.rows = syncResult.rows ∧
      result.columns = syncResult.columns ∧ result.size = syncResult.size := by
  refine ⟨by decide, ?_⟩
  obtain ⟨hok, _, hreturns⟩ :=
    async_matches_sync (fun format _ r => .ok (format, r.tail)) true {}
      { rows := 250
        columns := .array [{ name := .str "ID".toList, format := .str "uuid".toList }] }
      [{ name := .str "ID".toList, format := .str "uuid".toList }]
      (fun _ => 0) 0 0 0 0 (fun _ => false) (by decide) rfl (fun _ => rfl)
  obtain ⟨r, hsync⟩ := hreturns (fun _ _ _ => ⟨_, rfl⟩)
  obtain ⟨self2, run, result, hasync, h1, h2, h3, h4, _⟩ := hok r.1 r.2.1 r.2.2 hsync
  refine ⟨result, r.1, ?_, ?_, h1, h2, h3, h4⟩
  · rw [hasync]
  · rw [hsync]
    rfl

/-- Counterexample to C25 as stated: for 4000 records in batches of 100 the
23rd progress report of `generateCSVAsync` is `(57, 2300, 4000)`, because
`2300 / 4000` rounded to a double and multiplied by 100 lies below `57.5`,
whereas `round(100 * 2300 / 4000)` is 58. -/
theorem progress_percent_not_exact_round :
    FormatEngine.validateConfig
        { rows := 4000
          columns := .array [{ name := .str "ID".toList, format := .str "uuid".toList }] } = [] ∧
    (∃ (self2 : FormatEngine.Generator) (run : FormatEngine.AsyncRun)
        (result : FormatEngine.Result),
      FormatEngine.generateCSVAsync (fun format _ r => .ok (format, r.tail)) true {}
          { rows := 4000
            columns := .array [{ name := .str "ID".toList, format := .str "uuid".toList }] }
          (fun _ => 0) 0 0 (fun _ => false) = (self2, some run, .resolved result) ∧
      run.progress[22]? = some { percent := 57, processed := 2300, total := 4000 }) ∧
    FormatEngine.specProgressEvent 4000 (FormatEngine.batchSize 4000) 23 =
      { percent := 58, processed := 2300, total := 4000 } := by
  have hbs : FormatEngine.batchSize 4000 = 100 := by decide
  refine ⟨by decide, ?_, ?_⟩
  · obtain ⟨lines, hall⟩ :=
      generateLines_returns (fun format _ r => .ok (format, r.tail))
        [{ name := .str "ID".toList, format := .str "uuid".toList }] (4000 : Int).toNat
        [FormatEngine.generateCSVHeader
          [{ name := .str "ID".toList, format := .str "uuid".toList }]]
        (fun _ => 0) (fun _ _ _ => ⟨_, rfl⟩)
    obtain ⟨m, hm, h1, h2, heq⟩ :=
      generateCSVAsync_uncancelled (fun format _ r => .ok (format, r.tail)) true {}
        { rows := 4000
          columns := .array [{ name := .str "ID".toList, format := .str "uuid".toList }] }
        [{ name := .str "ID".toList, format := .str "uuid".toList }]
        (fun _ => 0) 0 0 (fun _ => false) lines (by decide) rfl (fun _ => rfl) hall
    simp only [hbs] at h1 h2 heq
    obtain rfl : m = 40 := by omega
    refine ⟨_, _, _, heq, ?_⟩
    simp only [if_true]
    rw [List.getElem?_map, List.getElem?_range (by decide)]
    have hmin : min ((((22 : Nat) : Int) + 1) * 100) 4000 = 2300 := by decide
    simp only [Option.map_some', hmin, progressPercent_2300_4000]
  · rw [hbs]
    have hmin : min (((23 : Nat) : Int) * 100) 4000 = 2300 := by decide
    unfold FormatEngine.specProgressEvent
    rw [hmin]
    have hround : mathRound (100 * ((2300 : Int) : ℚ) / ((4000 : Int) : ℚ)) = 58 := by
      unfold mathRound
      rw [Int.floor_eq_iff]
      norm_num
    rw [hround]

/-- C25 (amended): for every config that `validateConfig` accepts, with `n`
rows, and every uncancelled run of `generateCSVAsync` with a progress
callback in which no generator call throws (the data loop over the `n`
records returns), the run resolves and the callback is invoked exactly once
per batch, `ceil(n / batchSize)` times in total; the `k`-th call reports
`processed = min(k * batchSize, n)`, `total = n` and `percent =
Math.round((processed / n) * 100)` computed in double arithmetic (the
quotient and the product each rounded to a double), which lies in `[0,
100]`; `processed` is strictly increasing, `percent` is non-decreasing, and
the last call reports `(100, n, n)`. -/
theorem progress_reports (gen : FormatEngine.FormatGenerator)
    (self : FormatEngine.Generator) (config : FormatEngine.Config)
    (columns : List FormatEngine.Column) (rand : RandomStream)
    (startTime endTime : Int) (stops : Nat → Bool)
    (hvalid : FormatEngine.validateConfig config = [])
    (hcols : config.columns = .array columns) (hstops : ∀ j, stops j = false)
    (hreturns : ∃ lines, FormatEngine.generateLines gen columns config.rows.toNat
      [FormatEngine.generateCSVHeader columns] rand = .ok lines) :
    ∃ (self2 : FormatEngine.Generator) (run : FormatEngine.AsyncRun)
      (result : FormatEngine.Result),
      FormatEngine.generateCSVAsync gen true self config rand startTime endTime stops =
        (self2, some run, .resolved result) ∧
      (run.progress.length : Int) =
        FormatEngine.numBatches config.rows (FormatEngine.batchSize config.rows) ∧
      (∀ k : Nat, 1 ≤ k → k ≤ run.progress.length →
        run.progress[k - 1]? = some
          { percent := FormatEngine.progressPercent
              (min ((k : Int) * FormatEngine.batchSize config.rows) config.rows) config.rows,
            processed := min ((k : Int) * FormatEngine.batchSize config.rows) config.rows,
            total := config.rows }) ∧
      (∀ e ∈ run.progress, 0 ≤ e.percent ∧ e.percent ≤ 100) ∧
      run.progress.Pairwise
        (fun e1 e2 => e1.processed < e2.processed ∧ e1.percent ≤ e2.percent) ∧
      run.progress.getLast? =
        some { percent := 100, processed := config.rows, total := config.rows } := by
  obtain ⟨hlo, _, _⟩ := validateConfig_accepts config hvalid
  obtain ⟨lines, hall⟩ := hreturns
  have hb := (batchSize_range config.rows).1
  obtain ⟨m, hm, h1, h2, heq⟩ :=
    generateCSVAsync_uncancelled gen true self config columns rand startTime
      endTime stops lines hvalid hcols hstops hall
  have hspec := progress_events_spec config.rows (FormatEngine.batchSize config.rows) m
    (by omega) (by omega) hm h1 h2 _ rfl
  simp only [if_true] at heq
  exact ⟨_, _, _, heq, hspec⟩

/-- Witness of C25 (amended): 250 records are reported in three calls. -/
theorem progress_reports_witness :
    FormatEngine.validateConfig
        { rows := 250
          columns := .array [{ name := .str "ID".toList, format := .str "uuid".toList }] } = [] ∧
    ∃ (run : FormatEngine.AsyncRun),
      (FormatEngine.generateCSVAsync (fun format _ r => .ok (format, r.tail)) true {}
          { rows := 250
            columns := .array [{ name := .str "ID".toList, format := .str "uuid".toList }] }
          (fun _ => 0) 0 0 (fun _ => false)).2.1 = some run ∧
      (run.progress.length : Int) = FormatEngine.numBatches 250 (FormatEngine.batchSize 250) ∧
      run.progress.getLast? = some { percent := 100, processed := 250, total := 250 } := by
  refine ⟨by decide, ?_⟩
  obtain ⟨self2, run, result, heq, hlen, _, _, _, hlast⟩ :=
    progress_reports (fun format _ r => .ok (format, r.tail)) {}
      { rows := 250
        columns := .array [{ name := .str "ID".toList, format := .str "uuid".toList }] }
      [{ name := .str "ID".toList, format := .str "uuid".toList }]
      (fun _ => 0) 0 0 (fun _ => false) (by decide) rfl (fun _ => rfl)
      (generateLines_returns _ _ _ _ _ (fun _ _ _ => ⟨_, rfl⟩))
  exact ⟨run, by rw [heq], hlen, hlast⟩

/-- C22: for every config that `validateConfig` accepts, when
`stopGeneration()` is called before the call of `processBatch` of index `d`
(the `d` full batches before it have returned, records are left to generate)
and not before, the promise of `generateCSVAsync` is rejected with the
cancellation error, `isGenerating` is false afterwards, the run holds the
header and the `d * batchSize` records of the completed batches and no more,
and no result is produced or stored: `currentData` and `lastConfig` keep the
values they had before the run. -/
theorem cancellation_rejects (gen : FormatEngine.FormatGenerator) (hasCallback : Bool)
    (self : FormatEngine.Generator) (config : FormatEngine.Config)
    (columns : List FormatEngine.Column) (rand : RandomStream)
    (startTime endTime : Int) (stops : Nat → Bool) (d : Nat)
    (hvalid : FormatEngine.validateConfig config = [])
    (hcols : config.columns = .array columns)
    (hbefore : ∀ j, j < d → stops j = false) (hstop : stops d = true)
    (hleft : (d : Int) * FormatEngine.batchSize config.rows < config.rows)
    (hreturned : ∃ lines, FormatEngine.generateLines gen columns
      ((d : Int) * FormatEngine.batchSize config.rows).toNat
      [FormatEngine.generateCSVHeader columns] rand = .ok lines) :
    ∃ (self2 : FormatEngine.Generator) (run : FormatEngine.AsyncRun),
      FormatEngine.generateCSVAsync gen hasCallback self config rand startTime endTime stops =
        (self2, some run, .rejected "生成已取消".toList) ∧
      self2.isGenerating = false ∧ self2.currentData = self.currentData ∧
      self2.lastConfig = self.lastConfig ∧
      run.processed = (d : Int) * FormatEngine.batchSize config.rows ∧
      (run.csvLines.length : Int) = 1 + (d : Int) * FormatEngine.batchSize config.rows ∧
      FormatEngine.generateLines gen columns
          ((d : Int) * FormatEngine.batchSize config.rows).toNat
          [FormatEngine.generateCSVHeader columns] rand = .ok (run.csvLines, run.rand) := by
  obtain ⟨hlo, hhi, _⟩ := validateConfig_accepts config hvalid
  obtain ⟨lines, hfirst⟩ := hreturned
  have hb := (batchSize_range config.rows).1
  have hdb : (d : Int) ≤ (d : Int) * FormatEngine.batchSize config.rows :=
    le_mul_of_one_le_right (by omega) (by omega)
  obtain ⟨run, heq, hproc, hlines, hrand⟩ :=
    runBatches_cancelled gen hasCallback endTime stops config columns startTime
      (FormatEngine.batchSize config.rows) (by omega) lines d config.rows.toNat 0
      { self with isGenerating := true, shouldStop := false }
      [FormatEngine.generateCSVHeader columns] 0 rand []
      (fun j hj => by rw [Nat.zero_add]; exact hbefore j hj)
      (by rw [Nat.zero_add]; exact hstop) rfl (by omega) (by omega) hfirst
  refine ⟨{ self with shouldStop := true, isGenerating := false }, run, ?_, rfl, rfl, rfl,
    ?_, ?_, ?_⟩
  · unfold FormatEngine.generateCSVAsync
    rw [startCSVAsync_accepted self config columns rand startTime hvalid hcols]
    simp only []
    rw [heq]
  · rw [hproc, zero_add]
  · obtain ⟨rows, hlen, _, hrows⟩ :=
      generateLines_spec gen columns
        ((d : Int) * FormatEngine.batchSize config.rows).toNat
        [FormatEngine.generateCSVHeader columns] rand lines hfirst
    rw [hlines, hrows, List.length_append, List.length_map, hlen, List.length_singleton]
    omega
  · rw [hfirst, hlines, hrand]

/-- Witness of C22: 250 records in batches of 100, cancelled after the first
batch. -/
theorem cancellation_rejects_witness :
    FormatEngine.validateConfig
        { rows := 250
          columns := .array [{ name := .str "ID".toList, format := .str "uuid".toList }] } = [] ∧
    ((1 : Nat) : Int) * FormatEngine.batchSize 250 < 250 ∧
    ∃ (self2 : FormatEngine.Generator) (run : FormatEngine.AsyncRun),
      FormatEngine.generateCSVAsync (fun format _ r => .ok (format, r.tail)) true {}
          { rows := 250
            columns := .array [{ name := .str "ID".toList, format := .str "uuid".toList }] }
          (fun _ => 0) 0 0 (fun j => decide (j = 1)) =
        (self2, some run, .rejected "生成已取消".toList) ∧
      self2.isGenerating = false ∧ self2.currentData = none ∧ run.processed = 100 := by
  refine ⟨by decide, by decide, ?_⟩
  obtain ⟨self2, run, heq, hgen, hdata, _, hproc, _⟩ :=
    cancellation_rejects (fun format _ r => .ok (format, r.tail)) true {}
      { rows := 250
        columns := .array [{ name := .str "ID".toList, format := .str "uuid".toList }] }
      [{ name := .str "ID".toList, format := .str "uuid".toList }]
      (fun _ => 0) 0 0 (fun j => decide (j = 1)) 1 (by decide) rfl
      (fun j hj => by
        have hj0 : j = 0 := by omega
        subst hj0
        rfl)
      rfl (by decide)
      (generateLines_returns _ _ _ _ _ (fun _ _ _ => ⟨_, rfl⟩))
  exact ⟨self2, run, heq, hgen, hdata, hproc⟩

/-- C23, failing input: an instance whose batched run is in progress
(`isGenerating = true`) and has been asked to stop (`shouldStop = true`).  A
second call of `generateCSVAsync` is not rejected: its synchronous part
starts a second run and resets `shouldStop` to false, and the next call of
`processBatch` of the run in progress then no longer finds the cancellation
flag; the same call of `processBatch` on the instance as it was rejects. -/
theorem generateCSVAsync_reentrant :
    (∃ (self2 : FormatEngine.Generator) (run2 : FormatEngine.AsyncRun),
      FormatEngine.startCSVAsync { isGenerating := true, shouldStop := true }
          { rows := 250
            columns := .array [{ name := .str "ID".toList, format := .str "uuid".toList }] }
          (fun _ => 0) 0 = .ok (self2, run2) ∧
      self2.isGenerating = true ∧ self2.shouldStop = false ∧ run2.processed = 0 ∧
      ∀ (run : FormatEngine.AsyncRun),
        (FormatEngine.processBatch (fun format _ r => .ok (format, r.tail)) false 0
            { isGenerating := true, shouldStop := true } run).2.2 =
          .rejected "生成已取消".toList ∧
        (FormatEngine.processBatch (fun format _ r => .ok (format, r.tail)) false 0 self2
            run).2.2 ≠ .rejected "生成已取消".toList) := by
  refine ⟨{ isGenerating := true, shouldStop := false },
    { config :=
        { rows := 250
          columns := .array [{ name := .str "ID".toList, format := .str "uuid".toList }] }
      columns := [{ name := .str "ID".toList, format := .str "uuid".toList }]
      startTime := 0
      csvLines := [FormatEngine.generateCSVHeader
        [{ name := .str "ID".toList, format := .str "uuid".toList }]]
      batchSize := FormatEngine.batchSize 250
      processed := 0
      rand := fun _ => 0
      progress := [] }, ?_, rfl, rfl, rfl, ?_⟩
  · have hvalid : FormatEngine.validateConfig
        { rows := 250
          columns := .array [{ name := .str "ID".toList, format := .str "uuid".toList }] } =
        [] := by decide
    simp only [FormatEngine.startCSVAsync, hvalid]
    rfl
  · intro run
    constructor
    · rw [processBatch_cancelled _ _ _ _ _ rfl]
    · unfold FormatEngine.processBatch
      simp only [Bool.false_eq_true, if_false]
      split
      · simp
      · split_ifs <;> simp

end TestDataGen
